import Mathlib

/-!
# vendorconex backend: checkout, order placement, reviews and carts

A shallow embedding of the Express/Mongoose handlers of `backend/routes/cart.js`,
`backend/routes/orders.js`, `backend/routes/products.js` and `backend/routes/auth.js`
and of the middleware `backend/middleware/authMiddleware.js`, together with the
Mongoose schemas of `backend/models/`.

Conventions of the embedding.

* A MongoDB collection is a list of documents; `findById` and `findOne` return the
  first matching document, `save` of a loaded document replaces the first document
  with the same `_id`, `save` of a new document appends it.
* A JavaScript `Number` is an exact rational (`ℚ`): rounding is not modelled.
* An `ObjectId` is a natural number.  The product id in the body of `POST /api/cart`
  is a string that the handler both casts to an `ObjectId` and compares as a string
  (`IdString`); the ids of the other routes are only cast or only compared.
* `trim()` strips the whitespace of ECMAScript (`jsTrim`).
* `doc.save()` runs the validators declared in the schema of the document
  (`required`, `min`, `max`, `enum`) on the whole document and throws a
  `ValidationError` when one of them fails.
* A handler is a function from the request and the database to the response and the
  database after the request.  The `try { ... } catch` of a handler is the final
  `match` on the thrown exception.
-/

namespace Vendorconex

/-! ## Documents (backend/models) -/

/-- A MongoDB `ObjectId`. -/
abbrev ObjectId := Nat

/-- Sub-document of `reviewSchema` (models/Product.js). -/
structure Review where
  user : ObjectId
  name : String
  rating : ℚ
  comment : String
deriving DecidableEq

/-- Document of `productSchema` (models/Product.js). -/
structure Product where
  _id : ObjectId
  name : String
  description : String
  price : ℚ
  category : String
  stockQuantity : ℚ
  vendor : ObjectId
  imageUrl : String
  reviews : List Review
  rating : ℚ
  numReviews : ℚ
deriving DecidableEq

/-- Sub-document of `cartItemSchema` (models/cart.js). -/
structure CartItem where
  product : ObjectId
  quantity : ℚ
deriving DecidableEq

/-- Document of `cartSchema` (models/cart.js); the two timestamps are left out. -/
structure Cart where
  _id : ObjectId
  user : ObjectId
  items : List CartItem
deriving DecidableEq

/-- One entry of `orderSchema.products` (models/Order.js). -/
structure OrderLine where
  product : ObjectId
  quantity : ℚ
  priceAtOrder : ℚ
deriving DecidableEq

/-- The `shippingAddress` of an order (models/Order.js). -/
structure Address where
  street : String
  city : String
  state : String
  zip : String
  country : String
deriving DecidableEq

/-- Document of `orderSchema` (models/Order.js). -/
structure Order where
  _id : ObjectId
  user : ObjectId
  products : List OrderLine
  totalAmount : ℚ
  shippingAddress : Address
  status : String
  orderDate : Nat
  trackingNumber : String
deriving DecidableEq

/-- Document of `userSchema` (models/User.js); `createdAt` is left out. -/
structure User where
  _id : ObjectId
  name : String
  email : String
  password : String
  location : String
  role : String
deriving DecidableEq

/-- The four collections of the database. -/
structure Db where
  users : List User
  products : List Product
  carts : List Cart
  orders : List Order
deriving DecidableEq

/-- What the runtime supplies to a request: the `ObjectId` generated for a document
created with `new Model(...)` and the value of `Date.now()`. -/
structure Env where
  newId : ObjectId
  now : Nat
deriving DecidableEq

/-! ## Schema validators -/

/-- Validators of `reviewSchema`: `name` and `comment` required, `rating` in 1..5. -/
def reviewSchema (r : Review) : Bool :=
  decide (r.name ≠ "") && decide (1 ≤ r.rating) && decide (r.rating ≤ 5) &&
    decide (r.comment ≠ "")

/-- Validators of `productSchema`: required strings, `price` and `stockQuantity`
with `min: 0`, every review valid. -/
def productSchema (p : Product) : Bool :=
  decide (p.name ≠ "") && decide (p.description ≠ "") && decide (0 ≤ p.price) &&
    decide (p.category ≠ "") && decide (0 ≤ p.stockQuantity) && p.reviews.all reviewSchema

/-- Validators of `cartItemSchema`: `quantity` with `min: 1`. -/
def cartItemSchema (i : CartItem) : Bool :=
  decide (1 ≤ i.quantity)

/-- Validators of `cartSchema`: every item valid. -/
def cartSchema (c : Cart) : Bool :=
  c.items.all cartItemSchema

/-- Validators of one entry of `orderSchema.products`: `quantity` with `min: 1`,
`priceAtOrder` with `min: 0`. -/
def orderLineSchema (l : OrderLine) : Bool :=
  decide (1 ≤ l.quantity) && decide (0 ≤ l.priceAtOrder)

/-- The `enum` of `orderSchema.status`. -/
def statusEnum : List String :=
  ["Pending", "Processing", "Shipped", "Delivered", "Cancelled"]

/-- Validators of `orderSchema`: every line valid, `totalAmount` with `min: 0`, the
five address strings required, `status` in its `enum`. -/
def orderSchema (o : Order) : Bool :=
  o.products.all orderLineSchema && decide (0 ≤ o.totalAmount) &&
    decide (o.shippingAddress.street ≠ "") && decide (o.shippingAddress.city ≠ "") &&
    decide (o.shippingAddress.state ≠ "") && decide (o.shippingAddress.zip ≠ "") &&
    decide (o.shippingAddress.country ≠ "") && decide (o.status ∈ statusEnum)

/-! ## Exceptions and responses -/

/-- A thrown JavaScript error, as far as the `catch` blocks tell errors apart:
`err.name === 'ValidationError'`, `err.kind === 'ObjectId'`, anything else (for
instance the `TypeError` of a property read on `null`). -/
inductive Exn where
  | validationError (message : String)
  | castError
  | typeError
deriving DecidableEq

/-- The `err.message` of a thrown error.  Mongoose appends the failing paths to the
message of a `ValidationError`; that detail is not modelled. -/
def Exn.message : Exn → String
  | .validationError m => m
  | .castError => "Cast to ObjectId failed"
  | .typeError => "Cannot read properties of null"

/-- An HTTP response: `res.status(status).json({ message, order, cart, product })`;
a field that the handler does not send is `none`. -/
structure Response where
  status : Nat
  message : String
  order : Option Order
  cart : Option Cart
  product : Option Product
deriving DecidableEq

/-- The response `res.status(status).json({ message })`. -/
def Response.msg (status : Nat) (message : String) : Response :=
  { status := status, message := message, order := none, cart := none, product := none }

/-! ## The Mongoose operations used by the handlers -/

/-- `Product.findById(id)`. -/
def Product.findById (coll : List Product) (id : ObjectId) : Option Product :=
  coll.find? (fun p => p._id == id)

/-- `Order.findById(id)`. -/
def Order.findById (coll : List Order) (id : ObjectId) : Option Order :=
  coll.find? (fun o => o._id == id)

/-- `Cart.findOne({ user })`. -/
def Cart.findOne (coll : List Cart) (user : ObjectId) : Option Cart :=
  coll.find? (fun c => c.user == user)

/-- The update that `save` of a loaded product sends: the first document with the
same `_id` is replaced. -/
def Product.replace (p : Product) : List Product → List Product
  | [] => []
  | q :: qs => if q._id = p._id then p :: qs else q :: Product.replace p qs

/-- The update that `save` of a loaded cart sends. -/
def Cart.replace (c : Cart) : List Cart → List Cart
  | [] => []
  | d :: ds => if d._id = c._id then c :: ds else d :: Cart.replace c ds

/-- The update that `save` of a loaded order sends. -/
def Order.replace (o : Order) : List Order → List Order
  | [] => []
  | d :: ds => if d._id = o._id then o :: ds else d :: Order.replace o ds

/-- `product.save()` for a product loaded from the collection. -/
def Product.save (p : Product) (coll : List Product) : Except Exn (List Product) :=
  if productSchema p then .ok (Product.replace p coll)
  else .error (.validationError "Product validation failed")

/-- `cart.save()` for a cart loaded from the collection. -/
def Cart.save (c : Cart) (coll : List Cart) : Except Exn (List Cart) :=
  if cartSchema c then .ok (Cart.replace c coll)
  else .error (.validationError "Cart validation failed")

/-- `order.save()` for an order loaded from the collection. -/
def Order.save (o : Order) (coll : List Order) : Except Exn (List Order) :=
  if orderSchema o then .ok (Order.replace o coll)
  else .error (.validationError "Order validation failed")

/-- `newOrder.save()` for an order built with `new Order(...)`: the document is
validated and inserted. -/
def Order.insert (o : Order) (coll : List Order) : Except Exn (List Order) :=
  if orderSchema o then .ok (coll ++ [o])
  else .error (.validationError "Order validation failed")

/-- What `populate('items.product', 'name price')` puts in the `product` path of a
cart item: the selected fields of the referenced product. -/
structure PopulatedProduct where
  _id : ObjectId
  name : String
  price : ℚ
deriving DecidableEq

/-- A cart item after `populate`: `product` is `null` (`none`) when no product with
the referenced id exists. -/
structure PopulatedItem where
  product : Option PopulatedProduct
  quantity : ℚ
deriving DecidableEq

/-- Population of one cart item: `populate('items.product', 'name price')`. -/
def populateItem (products : List Product) (i : CartItem) : PopulatedItem :=
  { product := (Product.findById products i.product).map
      (fun p => { _id := p._id, name := p.name, price := p.price }),
    quantity := i.quantity }

/-- The items of a cart loaded with `.populate('items.product', 'name price')`. -/
def populate (products : List Product) (items : List CartItem) : List PopulatedItem :=
  items.map (populateItem products)

/-! ## POST /api/cart/checkout (routes/cart.js) -/

/-- A handler's effect: the response it sends and the database it leaves. -/
structure Outcome where
  res : Response
  db : Db
deriving DecidableEq

/-- How the `for (const item of cart.items)` loop of checkout ends: it runs to the
end with `totalAmount` and `orderProducts`, it returns the 404 response for a
product id, or it throws. -/
inductive CheckoutLoop where
  | done (totalAmount : ℚ) (orderProducts : List OrderLine)
  | notFound (id : ObjectId)
  | threw (e : Exn)
deriving DecidableEq

/-- The loop of checkout over the populated items, from the current values of
`totalAmount` and `orderProducts`.  `item.product._id` throws a `TypeError` when
`item.product` is `null`. -/
def checkoutLoop (products : List Product) :
    List PopulatedItem → ℚ → List OrderLine → CheckoutLoop
  | [], totalAmount, orderProducts => .done totalAmount orderProducts
  | item :: rest, totalAmount, orderProducts =>
    match item.product with
    | none => .threw .typeError
    | some ref =>
      match Product.findById products ref._id with
      | none => .notFound ref._id
      | some product =>
        checkoutLoop products rest (totalAmount + product.price * item.quantity)
          (orderProducts ++
            [{ product := ref._id, quantity := item.quantity, priceAtOrder := product.price }])

/-- The placeholder shipping address of checkout. -/
def checkoutAddress : Address :=
  { street := "123 Main St", city := "Anytown", state := "CA", zip := "90210", country := "USA" }

/-- The order built by `new Order({ user, products, totalAmount, shippingAddress,
status: 'Pending' })` in checkout. -/
def checkoutOrder (env : Env) (user : User) (totalAmount : ℚ)
    (orderProducts : List OrderLine) : Order :=
  { _id := env.newId, user := user._id, products := orderProducts, totalAmount := totalAmount,
    shippingAddress := checkoutAddress, status := "Pending", orderDate := env.now,
    trackingNumber := "" }

/-- The message of every 500 response of checkout. -/
def checkoutServerError : Response :=
  Response.msg 500 "Server error: Could not complete checkout."

/-- The 400 response of checkout. -/
def emptyCartError : Response :=
  Response.msg 400 "Your cart is empty. Cannot checkout."

/-- Handler of `POST /api/cart/checkout`, after `protect`: `reqUser` is `req.user`,
which `protect` sets to the result of `User.findById` (possibly `null`). -/
def checkout (env : Env) (reqUser : Option User) (db : Db) : Outcome :=
  match reqUser with
  | none => { res := checkoutServerError, db := db }
  | some user =>
    match Cart.findOne db.carts user._id with
    | none => { res := emptyCartError, db := db }
    | some cart =>
      if cart.items.length = 0 then { res := emptyCartError, db := db }
      else
        match checkoutLoop db.products (populate db.products cart.items) 0 [] with
        | .notFound id =>
          { res := Response.msg 404
              ("Product with ID " ++ toString id ++ " not found. Please review your cart."),
            db := db }
        | .threw _ => { res := checkoutServerError, db := db }
        | .done totalAmount orderProducts =>
          let newOrder := checkoutOrder env user totalAmount orderProducts
          match Order.insert newOrder db.orders with
          | .error _ => { res := checkoutServerError, db := db }
          | .ok orders =>
            match Cart.save { cart with items := [] } db.carts with
            | .error _ => { res := checkoutServerError, db := { db with orders := orders } }
            | .ok carts =>
              { res := { status := 201, message := "Order placed successfully!",
                         order := some newOrder, cart := none, product := none },
                db := { db with orders := orders, carts := carts } }

/-- The price of the product with the given id in the catalog (0 when there is no
such product). -/
def catalogPrice (products : List Product) (id : ObjectId) : ℚ :=
  match Product.findById products id with
  | some p => p.price
  | none => 0

/-- The order line that checkout builds for a cart item. -/
def snapshotLine (products : List Product) (i : CartItem) : OrderLine :=
  { product := i.product, quantity := i.quantity, priceAtOrder := catalogPrice products i.product }

/-- The sum over the cart's lines of catalog price times quantity. -/
def cartTotal (products : List Product) (items : List CartItem) : ℚ :=
  (items.map (fun i => catalogPrice products i.product * i.quantity)).sum

/-- Every item of the list references a product of the catalog. -/
def allExist (products : List Product) (items : List CartItem) : Prop :=
  ∀ i ∈ items, (Product.findById products i.product).isSome = true

instance (products : List Product) (items : List CartItem) : Decidable (allExist products items) :=
  inferInstanceAs (Decidable (∀ i ∈ items, (Product.findById products i.product).isSome = true))

/-- The order that a successful checkout of `cart` creates. -/
def checkoutResultOrder (env : Env) (user : User) (db : Db) (cart : Cart) : Order :=
  checkoutOrder env user (cartTotal db.products cart.items)
    (cart.items.map (snapshotLine db.products))


/-! ## JavaScript strings -/

/-- The characters that `String.prototype.trim` strips: the `WhiteSpace` and
`LineTerminator` code points of ECMAScript (tab, line feed, vertical tab, form feed,
carriage return, space, no-break space, the Unicode space separators, line and
paragraph separator, byte order mark). -/
def jsWhitespace (c : Char) : Bool :=
  let n := c.toNat
  n == 0x09 || n == 0x0A || n == 0x0B || n == 0x0C || n == 0x0D || n == 0x20 || n == 0xA0 ||
    n == 0x1680 || (decide (0x2000 ≤ n) && decide (n ≤ 0x200A)) || n == 0x2028 ||
    n == 0x2029 || n == 0x202F || n == 0x205F || n == 0x3000 || n == 0xFEFF

/-- The string method `trim()`: the string without its leading and trailing
whitespace. -/
def jsTrim (s : String) : String :=
  String.mk ((s.toList.dropWhile jsWhitespace).reverse.dropWhile jsWhitespace).reverse

/-! ## POST /api/orders (routes/orders.js) -/

/-- One entry of `req.body.products` of `POST /api/orders`. -/
structure OrderItem where
  productId : ObjectId
  quantity : ℚ
deriving DecidableEq

/-- The `req.body.shippingAddress` of `POST /api/orders`.  A missing `street`, `city`,
`state` or `zip` is the empty string (both are falsy); `country` may be missing. -/
structure AddressBody where
  street : String
  city : String
  state : String
  zip : String
  country : Option String
deriving DecidableEq

/-- The `req.body` of `POST /api/orders`; a missing field is `none`. -/
structure OrderBody where
  userId : Option ObjectId
  products : Option (List OrderItem)
  shippingAddress : Option AddressBody
deriving DecidableEq

/-- How the `for (let item of products)` loop of order placement ends, each time
with the product collection as the loop left it: it runs to the end, it returns a
response, or it throws. -/
inductive PlaceLoop where
  | done (products : List Product) (totalAmount : ℚ) (productsForOrder : List OrderLine)
  | returned (res : Response) (products : List Product)
  | threw (e : Exn) (products : List Product)
deriving DecidableEq

/-- The 404 response of order placement for a missing product. -/
def productNotFound (id : ObjectId) : Response :=
  Response.msg 404 ("Product with ID " ++ toString id ++ " not found.")

/-- The 400 response of order placement for a line that asks for more than the stock.
The number is printed as Lean prints a rational. -/
def notEnoughStock (product : Product) : Response :=
  Response.msg 400 ("Not enough stock for product: " ++ product.name ++ ". Available: " ++
    toString product.stockQuantity)

/-- The loop of order placement over the remaining lines, from the current product
collection and the current values of `totalAmount` and `productsForOrder`. -/
def placeLoop : List OrderItem → List Product → ℚ → List OrderLine → PlaceLoop
  | [], products, totalAmount, productsForOrder => .done products totalAmount productsForOrder
  | item :: rest, products, totalAmount, productsForOrder =>
    match Product.findById products item.productId with
    | none => .returned (productNotFound item.productId) products
    | some product =>
      if product.stockQuantity < item.quantity then .returned (notEnoughStock product) products
      else
        match Product.save
            { product with stockQuantity := product.stockQuantity - item.quantity } products with
        | .error e => .threw e products
        | .ok products' =>
          placeLoop rest products' (totalAmount + product.price * item.quantity)
            (productsForOrder ++
              [{ product := item.productId, quantity := item.quantity,
                 priceAtOrder := product.price }])

/-- The `catch (err)` block of order placement. -/
def placeOrderCatch (e : Exn) : Response :=
  match e with
  | .validationError m => Response.msg 400 m
  | .castError => Response.msg 400 "Invalid ID format for user or product."
  | .typeError => Response.msg 500 "Server error: Could not place order. Please try again."

/-- The order built by `new Order({ user: userId, products, totalAmount,
shippingAddress })`: `status`, `orderDate`, `trackingNumber` and a missing `country`
take their schema defaults. -/
def placedOrder (env : Env) (userId : ObjectId) (address : AddressBody) (totalAmount : ℚ)
    (productsForOrder : List OrderLine) : Order :=
  { _id := env.newId, user := userId, products := productsForOrder, totalAmount := totalAmount,
    shippingAddress :=
      { street := address.street, city := address.city, state := address.state,
        zip := address.zip, country := address.country.getD "India" },
    status := "Pending", orderDate := env.now, trackingNumber := "" }

/-- Handler of `POST /api/orders`. -/
def placeOrder (env : Env) (body : OrderBody) (db : Db) : Outcome :=
  match body.userId, body.products, body.shippingAddress with
  | some userId, some products, some address =>
    if products.length = 0 then
      { res := Response.msg 400 "Please provide user ID, products, and shipping address.",
        db := db }
    else if address.street = "" ∨ address.city = "" ∨ address.state = "" ∨ address.zip = "" then
      { res := Response.msg 400
          "Please provide complete shipping address (street, city, state, zip).",
        db := db }
    else
      match placeLoop products db.products 0 [] with
      | .returned res products' => { res := res, db := { db with products := products' } }
      | .threw e products' => { res := placeOrderCatch e, db := { db with products := products' } }
      | .done products' totalAmount productsForOrder =>
        let newOrder := placedOrder env userId address totalAmount productsForOrder
        match Order.insert newOrder db.orders with
        | .error e => { res := placeOrderCatch e, db := { db with products := products' } }
        | .ok orders =>
          { res := { status := 201, message := "Order placed successfully!",
                     order := some newOrder, cart := none, product := none },
            db := { db with products := products', orders := orders } }
  | _, _, _ =>
    { res := Response.msg 400 "Please provide user ID, products, and shipping address.",
      db := db }

/-! ## PUT /api/orders/:id/status (routes/orders.js) -/

/-- The `allowedStatuses` of the status update. -/
def allowedStatuses : List String :=
  ["Pending", "Processing", "Shipped", "Delivered", "Cancelled"]

/-- Handler of `PUT /api/orders/:id/status`; `status` is `req.body.status`. -/
def updateOrderStatus (orderId : ObjectId) (status : Option String) (db : Db) : Outcome :=
  match status with
  | none => { res := Response.msg 400 "Please provide a new status for the order.", db := db }
  | some status =>
    if status = "" then
      { res := Response.msg 400 "Please provide a new status for the order.", db := db }
    else if ¬ status ∈ allowedStatuses then
      { res := Response.msg 400
          ("Invalid status. Allowed values: " ++ ", ".intercalate allowedStatuses),
        db := db }
    else
      match Order.findById db.orders orderId with
      | none => { res := Response.msg 404 "Order not found.", db := db }
      | some order =>
        match Order.save { order with status := status } db.orders with
        | .error .castError => { res := Response.msg 400 "Invalid order ID format.", db := db }
        | .error _ =>
          { res := Response.msg 500 "Server error: Could not update order status.", db := db }
        | .ok orders =>
          { res := { status := 200,
                     message := "Order status updated to \"" ++ status ++ "\" successfully!",
                     order := some { order with status := status }, cart := none,
                     product := none },
            db := { db with orders := orders } }

/-! ## POST, PUT and DELETE /api/products (routes/products.js) -/

/-- The `req.body` of the product routes; a missing field is `none`. -/
structure ProductBody where
  name : Option String
  description : Option String
  price : Option ℚ
  category : Option String
  stockQuantity : Option ℚ
  vendor : Option ObjectId
  imageUrl : Option String
deriving DecidableEq

/-- JavaScript truthiness of an optional string: present and not empty. -/
def truthyString (s : Option String) : Bool :=
  match s with
  | none => false
  | some s => decide (s ≠ "")

/-- JavaScript truthiness of an optional number: present and not zero. -/
def truthyNumber (n : Option ℚ) : Bool :=
  match n with
  | none => false
  | some n => decide (n ≠ 0)

/-- `newProduct.save()` for a product built with `new Product(...)`. -/
def Product.insert (p : Product) (coll : List Product) : Except Exn (List Product) :=
  if productSchema p then .ok (coll ++ [p])
  else .error (.validationError "Product validation failed")

/-- Handler of `POST /api/products`.  The schema trims `name` and `category`; a
missing `imageUrl` takes the schema default. -/
def createProduct (env : Env) (body : ProductBody) (db : Db) : Outcome :=
  match body.name, body.description, body.price, body.category, body.stockQuantity,
    body.vendor with
  | some name, some description, some price, some category, some stockQuantity, some vendor =>
    if name = "" ∨ description = "" ∨ price = 0 ∨ category = "" ∨ stockQuantity = 0 then
      { res := Response.msg 400 ("Please provide all required product fields: name, " ++
          "description, price, category, stockQuantity, and vendor."),
        db := db }
    else
      let newProduct : Product :=
        { _id := env.newId, name := jsTrim name, description := description, price := price,
          category := jsTrim category, stockQuantity := stockQuantity, vendor := vendor,
          imageUrl := body.imageUrl.getD "https://via.placeholder.com/150",
          reviews := [], rating := 0, numReviews := 0 }
      match Product.insert newProduct db.products with
      | .error _ =>
        { res := Response.msg 500 "Server error: Could not create product. Please try again.",
          db := db }
      | .ok products =>
        { res := { status := 201, message := "Product created successfully!", order := none,
                   cart := none, product := some newProduct },
          db := { db with products := products } }
  | _, _, _, _, _, _ =>
    { res := Response.msg 400 ("Please provide all required product fields: name, " ++
        "description, price, category, stockQuantity, and vendor."),
      db := db }

/-- The assignments `if (field) product.field = field` of the product update. -/
def applyProductBody (body : ProductBody) (product : Product) : Product :=
  let product :=
    if truthyString body.name then { product with name := jsTrim (body.name.getD "") } else product
  let product :=
    if truthyString body.description then
      { product with description := body.description.getD "" }
    else product
  let product :=
    match body.price with
    | some price => { product with price := price }
    | none => product
  let product :=
    if truthyString body.category then
      { product with category := jsTrim (body.category.getD "") }
    else product
  let product :=
    match body.stockQuantity with
    | some stockQuantity => { product with stockQuantity := stockQuantity }
    | none => product
  if truthyString body.imageUrl then { product with imageUrl := body.imageUrl.getD "" }
  else product

/-- Handler of `PUT /api/products/:id`. -/
def updateProduct (id : ObjectId) (body : ProductBody) (db : Db) : Outcome :=
  match Product.findById db.products id with
  | none => { res := Response.msg 404 "Product not found.", db := db }
  | some product =>
    let product := applyProductBody body product
    match Product.save product db.products with
    | .error .castError => { res := Response.msg 400 "Invalid product ID format.", db := db }
    | .error _ => { res := Response.msg 500 "Server error: Could not update product.", db := db }
    | .ok products =>
      { res := { status := 200, message := "Product updated successfully!", order := none,
                 cart := none, product := some product },
        db := { db with products := products } }

/-- Handler of `DELETE /api/products/:id`: `Product.findByIdAndDelete`. -/
def deleteProduct (id : ObjectId) (db : Db) : Outcome :=
  match Product.findById db.products id with
  | none => { res := Response.msg 404 "Product not found.", db := db }
  | some product =>
    { res := { status := 200, message := "Product deleted successfully!", order := none,
               cart := none, product := some product },
      db := { db with products := db.products.eraseP (fun p => p._id == id) } }

/-! ## POST /api/products/:id/reviews (routes/products.js) -/

/-- The `req.body` of the review route; a missing field is `none`. -/
structure ReviewBody where
  rating : Option ℚ
  comment : Option String
deriving DecidableEq

/-- The average `reviews.reduce((acc, item) => item.rating + acc, 0) / reviews.length`. -/
def averageRating (reviews : List Review) : ℚ :=
  reviews.foldl (fun acc item => item.rating + acc) 0 / reviews.length

/-- Handler of `POST /api/products/:id/reviews`, after `protect`.  With `req.user`
equal to `null` the reads `req.user._id` and `req.user.name` throw. -/
def addReview (reqUser : Option User) (id : ObjectId) (body : ReviewBody) (db : Db) : Outcome :=
  match body.rating, body.comment with
  | some rating, some comment =>
    if rating < 1 ∨ rating > 5 ∨ comment = "" ∨ jsTrim comment = "" then
      { res := Response.msg 400 "Please provide a valid rating (1-5) and a comment.", db := db }
    else
      match Product.findById db.products id with
      | none => { res := Response.msg 404 "Product not found.", db := db }
      | some product =>
        match reqUser with
        | none => { res := Response.msg 500 "Server error: Could not add review.", db := db }
        | some user =>
          match product.reviews.find? (fun r => r.user == user._id) with
          | some _ =>
            { res := Response.msg 400 "Product already reviewed by this user.", db := db }
          | none =>
            let review : Review :=
              { name := user.name, rating := rating, comment := comment, user := user._id }
            let reviews := product.reviews ++ [review]
            let product :=
              { product with
                reviews := reviews, numReviews := reviews.length,
                rating := averageRating reviews }
            match Product.save product db.products with
            | .error _ =>
              { res := Response.msg 500 "Server error: Could not add review.", db := db }
            | .ok products =>
              { res := Response.msg 201 "Review added successfully!",
                db := { db with products := products } }
  | _, _ =>
    { res := Response.msg 400 "Please provide a valid rating (1-5) and a comment.", db := db }

/-! ## POST /api/cart, PUT and DELETE /api/cart/item/:productId (routes/cart.js) -/

/-- A product id as the body of `POST /api/cart` carries it: a string, seen through
the two uses that the handler makes of it.  `cast` is the ObjectId to which Mongoose
casts the string in `Product.findById(productId)` and in the cart line
`{ product: productId, quantity }` (`none` when the string is no ObjectId and the cast
throws a `CastError`); `canonical` tells whether the string is the very string that
`ObjectId.toString()` prints for that id, 24 lower-case hexadecimal digits.  The same
24 digits with an upper-case letter cast to the same id and are not canonical. -/
structure IdString where
  cast : Option ObjectId
  canonical : Bool
deriving DecidableEq

/-- The string that `id.toString()` prints. -/
def IdString.ofId (id : ObjectId) : IdString :=
  { cast := some id, canonical := true }

/-- The comparison `id.toString() === productId` of the printed id with the string of
the request, not cast. -/
def IdString.isStringOf (productId : IdString) (id : ObjectId) : Bool :=
  productId.canonical && productId.cast == some id

/-- The `req.body` of `POST /api/cart`; a missing field is `none`, and so is the
empty string as `productId` (both are falsy). -/
structure CartBody where
  productId : Option IdString
  quantity : Option ℚ
deriving DecidableEq

/-- `cart.items.findIndex(item => item.product.toString() === productId)` of
`POST /api/cart`, where `productId` is the string of the request body; `none` is the
index -1. -/
def findRawIndex (items : List CartItem) (productId : IdString) : Option Nat :=
  items.findIdx? (fun item => productId.isStringOf item.product)

/-- `cart.items.findIndex(item => item.product.toString() === productId)` of
`PUT /api/cart/item/:productId`, for a `productId` in the spelling of
`ObjectId.toString()`; `none` is the index -1. -/
def findItemIndex (items : List CartItem) (productId : ObjectId) : Option Nat :=
  items.findIdx? (fun item => item.product == productId)

/-- `cart.save()` for a cart built with `new Cart(...)`. -/
def Cart.insert (c : Cart) (coll : List Cart) : Except Exn (List Cart) :=
  if cartSchema c then .ok (coll ++ [c])
  else .error (.validationError "Cart validation failed")

/-- The 200 response of a cart route. -/
def cartResponse (message : String) (cart : Cart) : Response :=
  { status := 200, message := message, order := none, cart := some cart, product := none }

/-- Handler of `POST /api/cart`, after `protect`.  `Product.findById(productId)` and
the cart line cast the string of the request to an ObjectId (a failing cast throws into
the `catch`); `findIndex` compares the string as it came. -/
def addToCart (env : Env) (reqUser : Option User) (body : CartBody) (db : Db) : Outcome :=
  match body.productId, body.quantity with
  | some productId, some quantity =>
    if quantity = 0 ∨ quantity < 1 then
      { res := Response.msg 400 "Product ID and a quantity of at least 1 are required.",
        db := db }
    else
      match productId.cast with
      | none =>
        { res := Response.msg 500 "Server error: Could not add product to cart.", db := db }
      | some id =>
        match Product.findById db.products id with
        | none => { res := Response.msg 404 "Product not found.", db := db }
        | some _ =>
          match reqUser with
          | none =>
            { res := Response.msg 500 "Server error: Could not add product to cart.", db := db }
          | some user =>
            match Cart.findOne db.carts user._id with
            | none =>
              let cart : Cart :=
                { _id := env.newId, user := user._id,
                  items := [{ product := id, quantity := quantity }] }
              match Cart.insert cart db.carts with
              | .error _ =>
                { res := Response.msg 500 "Server error: Could not add product to cart.",
                  db := db }
              | .ok carts =>
                { res := cartResponse "Product added to cart successfully!" cart,
                  db := { db with carts := carts } }
            | some cart =>
              let cart : Cart :=
                match findRawIndex cart.items productId with
                | some itemIndex =>
                  { cart with
                    items := cart.items.modify
                      (fun item => { item with quantity := item.quantity + quantity })
                      itemIndex }
                | none =>
                  { cart with items := cart.items ++ [{ product := id, quantity := quantity }] }
              match Cart.save cart db.carts with
              | .error _ =>
                { res := Response.msg 500 "Server error: Could not add product to cart.",
                  db := db }
              | .ok carts =>
                { res := cartResponse "Product added to cart successfully!" cart,
                  db := { db with carts := carts } }
  | _, _ =>
    { res := Response.msg 400 "Product ID and a quantity of at least 1 are required.", db := db }

/-- Handler of `PUT /api/cart/item/:productId`, after `protect`; `quantity` is
`req.body.quantity`. -/
def updateCartItem (reqUser : Option User) (productId : ObjectId) (quantity : Option ℚ)
    (db : Db) : Outcome :=
  match quantity with
  | none => { res := Response.msg 400 "Quantity must be a non-negative number.", db := db }
  | some quantity =>
    if quantity < 0 then
      { res := Response.msg 400 "Quantity must be a non-negative number.", db := db }
    else
      match reqUser with
      | none =>
        { res := Response.msg 500 "Server error: Could not update cart item quantity.",
          db := db }
      | some user =>
        match Cart.findOne db.carts user._id with
        | none => { res := Response.msg 404 "Cart not found for this user.", db := db }
        | some cart =>
          match findItemIndex cart.items productId with
          | none => { res := Response.msg 404 "Product not found in cart.", db := db }
          | some itemIndex =>
            let cart : Cart :=
              if quantity = 0 then { cart with items := cart.items.eraseIdx itemIndex }
              else
                { cart with
                  items := cart.items.modify (fun item => { item with quantity := quantity })
                    itemIndex }
            match Cart.save cart db.carts with
            | .error _ =>
              { res := Response.msg 500 "Server error: Could not update cart item quantity.",
                db := db }
            | .ok carts =>
              { res := cartResponse "Cart item quantity updated successfully!" cart,
                db := { db with carts := carts } }

/-- Handler of `DELETE /api/cart/item/:productId`, after `protect`. -/
def removeCartItem (reqUser : Option User) (productId : ObjectId) (db : Db) : Outcome :=
  match reqUser with
  | none =>
    { res := Response.msg 500 "Server error: Could not remove product from cart.", db := db }
  | some user =>
    match Cart.findOne db.carts user._id with
    | none => { res := Response.msg 404 "Cart not found for this user.", db := db }
    | some cart =>
      let items := cart.items.filter (fun item => item.product != productId)
      if items.length = cart.items.length then
        { res := Response.msg 404 "Product not found in cart.", db := db }
      else
        match Cart.save { cart with items := items } db.carts with
        | .error _ =>
          { res := Response.msg 500 "Server error: Could not remove product from cart.",
            db := db }
        | .ok carts =>
          { res := cartResponse "Product removed from cart successfully!"
              { cart with items := items },
            db := { db with carts := carts } }

/-! ## The write requests of the API -/

/-- The requests of `routes/products.js`, `routes/cart.js` and `routes/orders.js` that
write to the database (the `GET` routes only read it; `routes/auth.js` touches the
user collection only). -/
inductive Request where
  | createProduct (body : ProductBody)
  | updateProduct (id : ObjectId) (body : ProductBody)
  | deleteProduct (id : ObjectId)
  | addReview (reqUser : Option User) (id : ObjectId) (body : ReviewBody)
  | addToCart (reqUser : Option User) (body : CartBody)
  | updateCartItem (reqUser : Option User) (productId : ObjectId) (quantity : Option ℚ)
  | removeCartItem (reqUser : Option User) (productId : ObjectId)
  | checkout (reqUser : Option User)
  | placeOrder (body : OrderBody)
  | updateOrderStatus (orderId : ObjectId) (status : Option String)
deriving DecidableEq

/-- Dispatch of a request to its handler. -/
def handle (env : Env) (db : Db) : Request → Outcome
  | .createProduct body => createProduct env body db
  | .updateProduct id body => updateProduct id body db
  | .deleteProduct id => deleteProduct id db
  | .addReview reqUser id body => addReview reqUser id body db
  | .addToCart reqUser body => addToCart env reqUser body db
  | .updateCartItem reqUser productId quantity => updateCartItem reqUser productId quantity db
  | .removeCartItem reqUser productId => removeCartItem reqUser productId db
  | .checkout reqUser => checkout env reqUser db
  | .placeOrder body => placeOrder env body db
  | .updateOrderStatus orderId status => updateOrderStatus orderId status db

/-- The order invariant: `totalAmount` is the sum over the order's lines of
`priceAtOrder` times `quantity`. -/
def totalMatchesLines (o : Order) : Prop :=
  o.totalAmount = (o.products.map (fun l => l.priceAtOrder * l.quantity)).sum

instance (o : Order) : Decidable (totalMatchesLines o) :=
  inferInstanceAs (Decidable (o.totalAmount = _))

/-! ## Stock bookkeeping of order placement -/

/-- The product collection that the loop of order placement leaves. -/
def PlaceLoop.products : PlaceLoop → List Product
  | .done products _ _ => products
  | .returned _ products => products
  | .threw _ products => products

/-- The sum of the quantities of the lines for the product `id`. -/
def deducted (lines : List OrderItem) (id : ObjectId) : ℚ :=
  ((lines.filter (fun l => l.productId == id)).map (fun l => l.quantity)).sum

/-- The stock of product `id` in the catalog `products` after the lines `seen` were
deducted from it; `none` when the catalog has no such product. -/
def stockAfter (products : List Product) (seen : List OrderItem) (id : ObjectId) : Option ℚ :=
  (Product.findById products id).map (fun p => p.stockQuantity - deducted seen id)

/-- A failing line: with the lines `seen` already deducted from the catalog
`products`, the product of `item` is missing or its stock is below the quantity that
`item` asks for. -/
def lineFails (products : List Product) (seen : List OrderItem) (item : OrderItem) : Bool :=
  match stockAfter products seen item.productId with
  | none => true
  | some stock => decide (stock < item.quantity)

/-- The lines before the first failing line (all the lines when no line fails), for
the initial catalog `products` and the lines `seen` that precede the list. -/
def processed (products : List Product) (seen : List OrderItem) :
    List OrderItem → List OrderItem
  | [] => []
  | item :: rest =>
    if lineFails products seen item then []
    else item :: processed products (seen ++ [item]) rest

/-- The product `p` with the quantities of `lines` for it taken from its stock. -/
def withDeducted (lines : List OrderItem) (p : Product) : Product :=
  { p with stockQuantity := p.stockQuantity - deducted lines p._id }

/-- The sum over order lines of `priceAtOrder` times `quantity`. -/
def lineSum (lines : List OrderLine) : ℚ :=
  (lines.map (fun l => l.priceAtOrder * l.quantity)).sum

/-- A request body of order placement that has a user id, the product list `lines`
and a shipping address. -/
def orderBody (userId : ObjectId) (lines : List OrderItem) (address : AddressBody) : OrderBody :=
  { userId := some userId, products := some lines, shippingAddress := some address }

/-- The shipping address has its four required fields. -/
def AddressBody.complete (address : AddressBody) : Prop :=
  address.street ≠ "" ∧ address.city ≠ "" ∧ address.state ≠ "" ∧ address.zip ≠ ""

instance (address : AddressBody) : Decidable address.complete :=
  inferInstanceAs (Decidable (_ ∧ _ ∧ _ ∧ _))

/-! ## A small database for the examples -/

/-- A customer. -/
def sampleUser : User :=
  { _id := 1, name := "Asha", email := "asha@example.com", password := "$2a$10$hash",
    location := "", role := "customer" }

/-- A product priced 5/2 with 10 in stock. -/
def lamp : Product :=
  { _id := 7, name := "Lamp", description := "Desk lamp", price := 5 / 2, category := "Home",
    stockQuantity := 10, vendor := 2, imageUrl := "https://via.placeholder.com/150",
    reviews := [], rating := 0, numReviews := 0 }

/-- A product priced 4 with 3 in stock. -/
def mug : Product :=
  { _id := 8, name := "Mug", description := "Coffee mug", price := 4, category := "Kitchen",
    stockQuantity := 3, vendor := 2, imageUrl := "https://via.placeholder.com/150",
    reviews := [], rating := 0, numReviews := 0 }

/-- The cart of `sampleUser`: three lamps and one mug. -/
def sampleCart : Cart :=
  { _id := 20, user := 1, items := [{ product := 7, quantity := 3 }, { product := 8, quantity := 1 }] }

/-- A database with both products, the cart of `sampleUser` and no order. -/
def sampleDb : Db :=
  { users := [sampleUser], products := [lamp, mug], carts := [sampleCart], orders := [] }

/-- The database `sampleDb` after `DELETE /api/products/7`: the cart still references
the lamp. -/
def staleDb : Db :=
  { users := [sampleUser], products := [mug], carts := [sampleCart], orders := [] }

/-- A database in which `sampleUser` has no cart. -/
def noCartDb : Db :=
  { users := [sampleUser], products := [lamp, mug], carts := [], orders := [] }

/-- The id and the clock that the runtime supplies in the examples. -/
def sampleEnv : Env :=
  { newId := 100, now := 1700000000 }

/-- A complete shipping address without a country. -/
def sampleAddress : AddressBody :=
  { street := "1 High St", city := "Pune", state := "MH", zip := "411001", country := none }

/-! ## POST /api/auth/signup (routes/auth.js) -/

/-- The `req.body` of `POST /api/auth/signup`; a missing field is `none`. -/
structure SignupBody where
  name : Option String
  email : Option String
  password : Option String
  location : Option String
deriving DecidableEq

/-- The response of an auth route:
`res.status(status).json({ message, userId, userName, token })`; a field that the
handler does not send is `none`. -/
structure AuthResponse where
  status : Nat
  message : String
  userId : Option ObjectId
  userName : Option String
  token : Option String
deriving DecidableEq

/-- The response `res.status(status).json({ message })` of an auth route. -/
def AuthResponse.msg (status : Nat) (message : String) : AuthResponse :=
  { status := status, message := message, userId := none, userName := none, token := none }

/-- The effect of an auth handler. -/
structure AuthOutcome where
  res : AuthResponse
  db : Db
deriving DecidableEq

/-- The libraries that the auth routes call, as functions: `bcrypt.hash` with its
generated salt, `bcrypt.compare` and `jwt.sign` on the payload `{ id }`. -/
structure Crypto where
  hash : String → String
  compare : String → String → Bool
  sign : ObjectId → String

/-- The setters `trim: true, lowercase: true` of `userSchema.email`; Mongoose applies
them to a document value and to the value of a query filter alike. -/
def normalizeEmail (email : String) : String :=
  (jsTrim email).toLower

/-- The `enum` of `userSchema.role`. -/
def roleEnum : List String :=
  ["customer", "vendor", "admin"]

/-- Validators of `userSchema`: `name`, `email` and `password` required, `role` in its
`enum`. -/
def userSchema (u : User) : Bool :=
  decide (u.name ≠ "") && decide (u.email ≠ "") && decide (u.password ≠ "") &&
    decide (u.role ∈ roleEnum)

/-- `User.findOne({ email })`. -/
def User.findOne (coll : List User) (email : String) : Option User :=
  coll.find? (fun u => u.email == normalizeEmail email)

/-- `newUser.save()` for a user built with `new User(...)`: validation, the pre-save
hook that replaces the password by its hash, then the insertion under the unique
index on `email` (a duplicate key is an error that the `catch` blocks treat like any
other). -/
def User.insert (crypto : Crypto) (u : User) (coll : List User) : Except Exn (List User) :=
  if userSchema u then
    if coll.any (fun v => v.email == u.email) then .error .typeError
    else .ok (coll ++ [{ u with password := crypto.hash u.password }])
  else .error (.validationError "User validation failed")

/-- The user built by `new User({ name, email, password, location })`: the schema trims
`name`, normalizes `email`, defaults `location` and `role`. -/
def newUser (env : Env) (name email password : String) (location : Option String) : User :=
  { _id := env.newId, name := jsTrim name, email := normalizeEmail email, password := password,
    location := location.getD "", role := "customer" }

/-- Handler of `POST /api/auth/signup`. -/
def signup (env : Env) (crypto : Crypto) (body : SignupBody) (db : Db) : AuthOutcome :=
  match body.name, body.email, body.password with
  | some name, some email, some password =>
    if name = "" ∨ email = "" ∨ password = "" then
      { res := AuthResponse.msg 400 "Please provide name, email, and password.", db := db }
    else
      match User.findOne db.users email with
      | some _ =>
        { res := AuthResponse.msg 409 "User with this email already exists.", db := db }
      | none =>
        match User.insert crypto (newUser env name email password body.location) db.users with
        | .error _ =>
          { res := AuthResponse.msg 500 "Server error during registration. Please try again.",
            db := db }
        | .ok users =>
          { res := { status := 201, message := "User registered successfully!",
                     userId := some env.newId, userName := some (jsTrim name),
                     token := some (crypto.sign env.newId) },
            db := { db with users := users } }
  | _, _, _ =>
    { res := AuthResponse.msg 400 "Please provide name, email, and password.", db := db }

/-! ## Sequences of requests, reviews and carts -/

/-- The review `{ name: req.user.name, rating, comment, user: req.user._id }`. -/
def reviewOf (user : User) (rating : ℚ) (comment : String) : Review :=
  { user := user._id, name := user.name, rating := rating, comment := comment }

/-- The arithmetic mean of the ratings of a list of reviews. -/
def meanRating (reviews : List Review) : ℚ :=
  (reviews.map (fun r => r.rating)).sum / reviews.length

/-- One review submission: the caller, the rating and the comment. -/
structure Submission where
  user : User
  rating : ℚ
  comment : String
deriving DecidableEq

/-- The request body of a submission. -/
def Submission.body (s : Submission) : ReviewBody :=
  { rating := some s.rating, comment := some s.comment }

/-- A submission that passes the input check of the handler, `rating` in 1..5 and a
comment that is not empty and not empty after `trim()`, made by a user with a name. -/
def Submission.valid (s : Submission) : Prop :=
  1 ≤ s.rating ∧ s.rating ≤ 5 ∧ s.comment ≠ "" ∧ jsTrim s.comment ≠ "" ∧ s.user.name ≠ ""

instance (s : Submission) : Decidable s.valid :=
  inferInstanceAs (Decidable (_ ∧ _ ∧ _ ∧ _ ∧ _))

/-- The database after the submissions were made one after another to the product
`id`. -/
def submitAll (id : ObjectId) : Db → List Submission → Db
  | db, [] => db
  | db, s :: rest => submitAll id (addReview (some s.user) id s.body db).db rest

/-- The statuses of the responses to the submissions made one after another. -/
def submitStatuses (id : ObjectId) : Db → List Submission → List Nat
  | _, [] => []
  | db, s :: rest =>
    (addReview (some s.user) id s.body db).res.status ::
      submitStatuses id (addReview (some s.user) id s.body db).db rest

/-- No two reviews of the product are by the same user. -/
def uniqueReviewers (p : Product) : Prop :=
  (p.reviews.map (fun r => r.user)).Nodup

instance (p : Product) : Decidable (uniqueReviewers p) :=
  inferInstanceAs (Decidable (List.Nodup _))

/-- A well-formed cart: each product id at most once, every quantity at least 1. -/
def wellFormedCart (c : Cart) : Prop :=
  (c.items.map (fun i => i.product)).Nodup ∧ ∀ i ∈ c.items, 1 ≤ i.quantity

instance (c : Cart) : Decidable (wellFormedCart c) :=
  inferInstanceAs (Decidable (_ ∧ _))

/-- The database after a sequence of write requests, each with what the runtime
supplies to it. -/
def runRequests : Db → List (Env × Request) → Db
  | db, [] => db
  | db, (env, req) :: rest => runRequests (handle env db req).db rest

/-- The product after the review route has pushed the review of `user` and recomputed
`numReviews` and `rating`. -/
def withReview (product : Product) (user : User) (rating : ℚ) (comment : String) : Product :=
  { product with
    reviews := product.reviews ++ [reviewOf user rating comment],
    numReviews := (product.reviews ++ [reviewOf user rating comment]).length,
    rating := averageRating (product.reviews ++ [reviewOf user rating comment]) }

/-- The cart after `POST /api/cart` has merged or pushed the line in memory, for the
string `productId` of the request and the ObjectId `id` that it casts to. -/
def addLine (cart : Cart) (productId : IdString) (id : ObjectId) (quantity : ℚ) : Cart :=
  match findRawIndex cart.items productId with
  | some itemIndex =>
    { cart with
      items := cart.items.modify
        (fun item => { item with quantity := item.quantity + quantity }) itemIndex }
  | none =>
    { cart with items := cart.items ++ [{ product := id, quantity := quantity }] }

/-- A request whose product id, if it is a `POST /api/cart`, is spelled as
`ObjectId.toString()` prints it. -/
def Request.canonical : Request → Bool
  | .addToCart _ body =>
    match body.productId with
    | some productId => productId.canonical
    | none => true
  | _ => true

/-- The cart after `PUT /api/cart/item/:productId` has spliced or overwritten the line
at `itemIndex` in memory. -/
def setLine (cart : Cart) (itemIndex : Nat) (quantity : ℚ) : Cart :=
  if quantity = 0 then { cart with items := cart.items.eraseIdx itemIndex }
  else
    { cart with
      items := cart.items.modify (fun item => { item with quantity := quantity }) itemIndex }

/-- The cart after `DELETE /api/cart/item/:productId` has filtered its lines in
memory. -/
def withoutProduct (cart : Cart) (productId : ObjectId) : Cart :=
  { cart with items := cart.items.filter (fun item => item.product != productId) }

/-- The lines of the caller's cart; no line when the caller has no cart. -/
def cartItemsOf (carts : List Cart) (user : ObjectId) : List CartItem :=
  match Cart.findOne carts user with
  | some cart => cart.items
  | none => []

/-! ## More data for the examples -/

/-- A second customer. -/
def otherUser : User :=
  { _id := 3, name := "Ravi", email := "ravi@example.com", password := "$2a$10$hash2",
    location := "", role := "customer" }

/-- The lamp with a review by `sampleUser`, with stale `rating` and `numReviews`. -/
def reviewedLamp : Product :=
  { lamp with
    reviews := [{ user := 1, name := "Asha", rating := 4, comment := "Bright" }],
    rating := 0, numReviews := 7 }

/-- A database in which `sampleUser` has reviewed the lamp. -/
def reviewedDb : Db :=
  { users := [sampleUser, otherUser], products := [reviewedLamp, mug], carts := [sampleCart],
    orders := [] }

/-- A database with both users and no cart. -/
def twoUserDb : Db :=
  { users := [sampleUser, otherUser], products := [lamp, mug], carts := [], orders := [] }

/-- The id of the lamp spelled with upper-case hexadecimal digits, as a request may
send it: it casts to the lamp's id and is not the string that `toString()` prints. -/
def lampUpperCase : IdString :=
  { cast := some 7, canonical := false }

/-- Stand-ins for bcrypt and jwt in the examples. -/
def sampleCrypto : Crypto :=
  { hash := fun s => "$2a$10$" ++ s, compare := fun s h => "$2a$10$" ++ s == h,
    sign := fun id => "token-" ++ toString id }

/-! ## POST /api/auth/login (routes/auth.js) -/

/-- The `req.body` of `POST /api/auth/login`; a missing field is `none`. -/
structure LoginBody where
  email : Option String
  password : Option String
deriving DecidableEq

/-- Handler of `POST /api/auth/login`; `user.matchPassword` is `bcrypt.compare` of the
entered password with the stored hash. -/
def login (crypto : Crypto) (body : LoginBody) (db : Db) : AuthOutcome :=
  match body.email, body.password with
  | some email, some password =>
    if email = "" ∨ password = "" then
      { res := AuthResponse.msg 400 "Please provide email and password.", db := db }
    else
      match User.findOne db.users email with
      | none =>
        { res := AuthResponse.msg 401 "Invalid credentials: User not found.", db := db }
      | some user =>
        if crypto.compare password user.password = false then
          { res := AuthResponse.msg 401 "Invalid credentials: Incorrect password.", db := db }
        else
          { res := { status := 200, message := "Login successful!", userId := some user._id,
                     userName := some user.name, token := some (crypto.sign user._id) },
            db := db }
  | _, _ =>
    { res := AuthResponse.msg 400 "Please provide email and password.", db := db }

/-! ## The middleware protect (middleware/authMiddleware.js) -/

/-- `User.findById(id).select('-password')`: the user without its password, which is
the empty string here. -/
def User.findById (coll : List User) (id : ObjectId) : Option User :=
  (coll.find? (fun u => u._id == id)).map (fun u => { u with password := "" })

/-- What `protect` does with a request: the responses it passes to
`res.status(...).json(...)`, in order (Express sends the first one and refuses a later
one), and its calls of `next()`, each with the value of `req.user` at the call (`none`
for `null`). -/
structure GateOutcome where
  responses : List Response
  next : List (Option User)
deriving DecidableEq

/-- The token `req.headers.authorization.split(' ')[1]`; `none` is `undefined`. -/
def bearerToken (authorization : String) : Option String :=
  (authorization.splitOn " ")[1]?

/-- JavaScript falsiness of the token: `undefined` or the empty string. -/
def tokenMissing (token : Option String) : Bool :=
  match token with
  | none => true
  | some t => decide (t = "")

/-- `jwt.verify(token, secret)` followed by the read of `decoded.id`: `verify` is the
library on a token that is a non-empty string (`none` when it throws); on `undefined`
and on the empty string the library throws. -/
def verifyToken (verify : String → Option ObjectId) (token : Option String) :
    Option ObjectId :=
  match token with
  | none => none
  | some t => if t = "" then none else verify t

/-- The 401 response of `protect` for a missing token. -/
def noTokenResponse : Response :=
  Response.msg 401 "Not authorized, no token."

/-- The 401 response of `protect` for a token that fails. -/
def tokenFailedResponse : Response :=
  Response.msg 401 "Not authorized, token failed."

/-- The middleware `protect`, on the `Authorization` header of the request (`none`
when the header is absent) and the user collection. -/
def protect (verify : String → Option ObjectId) (authorization : Option String)
    (users : List User) : GateOutcome :=
  match authorization with
  | none => { responses := [noTokenResponse], next := [] }
  | some header =>
    if header = "" ∨ header.startsWith "Bearer" = false then
      { responses := [noTokenResponse], next := [] }
    else
      let token := bearerToken header
      let tried : GateOutcome :=
        match verifyToken verify token with
        | none => { responses := [tokenFailedResponse], next := [] }
        | some id => { responses := [], next := [User.findById users id] }
      if tokenMissing token then
        { tried with responses := tried.responses ++ [noTokenResponse] }
      else tried

/-! ## Order statuses and more data for the examples -/

/-- The status of the order is one of the five values of the schema. -/
def statusAllowed (o : Order) : Prop :=
  o.status ∈ statusEnum

instance (o : Order) : Decidable (statusAllowed o) :=
  inferInstanceAs (Decidable (_ ∈ _))

/-- A stored order of `sampleUser`: three lamps. -/
def sampleOrder : Order :=
  { _id := 50, user := 1,
    products := [{ product := 7, quantity := 3, priceAtOrder := 5 / 2 }],
    totalAmount := 15 / 2,
    shippingAddress :=
      { street := "1 High St", city := "Pune", state := "MH", zip := "411001",
        country := "India" },
    status := "Pending", orderDate := 1700000000, trackingNumber := "" }

/-- A second stored order. -/
def otherOrder : Order :=
  { sampleOrder with _id := 51, user := 3, status := "Shipped" }

/-- A database with two stored orders. -/
def orderedDb : Db :=
  { users := [sampleUser, otherUser], products := [lamp, mug], carts := [],
    orders := [sampleOrder, otherOrder] }

/-- A stand-in for `jwt.verify` in the examples: the token `good-N`, for the user ids
1 and 9, decodes to that id; every other token throws. -/
def sampleVerify (token : String) : Option ObjectId :=
  if token = "good-1" then some 1 else if token = "good-9" then some 9 else none
/-! ## Lemmas on the collections -/

theorem Product.findById_id {coll : List Product} {id : ObjectId} {p : Product}
    (h : Product.findById coll id = some p) : p._id = id := by
  unfold Product.findById at h
  have := List.find?_some h
  simpa using this

theorem Product.findById_mem {coll : List Product} {id : ObjectId} {p : Product}
    (h : Product.findById coll id = some p) : p ∈ coll := by
  unfold Product.findById at h
  exact List.mem_of_find?_eq_some h

theorem Cart.findOne_replace {coll : List Cart} {u : ObjectId} {c : Cart} (c' : Cart)
    (h : Cart.findOne coll u = some c) (hid : c'._id = c._id) (hu : c'.user = u) :
    Cart.findOne (Cart.replace c' coll) u = some c' := by
  induction coll with
  | nil => simp [Cart.findOne] at h
  | cons d ds ih =>
    unfold Cart.replace
    by_cases hd : d._id = c'._id
    · simp [hd, Cart.findOne, hu]
    · simp only [hd, if_false]
      by_cases hdu : d.user = u
      · have : c = d := by simpa [Cart.findOne, hdu] using h.symm
        exact absurd (by rw [hid, this]) hd
      · have h' : Cart.findOne ds u = some c := by
          simpa [Cart.findOne, hdu] using h
        have := ih h'
        simpa [Cart.findOne, hdu] using this

/-! ## Lemmas on checkout -/

theorem checkoutLoop_populate_ok (products : List Product) (items : List CartItem)
    (h : allExist products items) (t : ℚ) (acc : List OrderLine) :
    checkoutLoop products (populate products items) t acc =
      .done (t + cartTotal products items) (acc ++ items.map (snapshotLine products)) := by
  induction items generalizing t acc with
  | nil => simp [populate, checkoutLoop, cartTotal]
  | cons i rest ih =>
    have hi := h i (List.mem_cons_self _ _)
    have hrest : allExist products rest := fun j hj => h j (List.mem_cons_of_mem _ hj)
    obtain ⟨p, hp⟩ := Option.isSome_iff_exists.mp hi
    have hpid : p._id = i.product := Product.findById_id hp
    have ih' := ih hrest (t + p.price * i.quantity)
      (acc ++ [{ product := i.product, quantity := i.quantity, priceAtOrder := p.price }])
    simp only [populate] at ih'
    simp only [populate, List.map_cons, populateItem, hp, Option.map_some', checkoutLoop, hpid,
      ih']
    simp [cartTotal, snapshotLine, catalogPrice, hp, add_assoc]

theorem checkoutLoop_populate_missing (products : List Product) (items : List CartItem)
    (h : ¬ allExist products items) (t : ℚ) (acc : List OrderLine) :
    checkoutLoop products (populate products items) t acc = .threw .typeError := by
  induction items generalizing t acc with
  | nil => exact absurd (fun i hi => by simp at hi) h
  | cons i rest ih =>
    cases hp : Product.findById products i.product with
    | none => simp [populate, populateItem, hp, checkoutLoop]
    | some p =>
      have hpid : p._id = i.product := Product.findById_id hp
      have hrest : ¬ allExist products rest := by
        intro hr
        apply h
        intro j hj
        rcases List.mem_cons.mp hj with rfl | hj
        · simp [hp]
        · exact hr j hj
      have ih' := ih hrest (t + p.price * i.quantity)
        (acc ++ [{ product := i.product, quantity := i.quantity, priceAtOrder := p.price }])
      simp only [populate] at ih'
      simp only [populate, List.map_cons, populateItem, hp, Option.map_some', checkoutLoop, hpid,
        ih']

theorem checkout_found (env : Env) (user : User) (db : Db) (cart : Cart)
    (hcart : Cart.findOne db.carts user._id = some cart) (hne : cart.items ≠ []) :
    checkout env (some user) db =
      if allExist db.products cart.items then
        if orderSchema (checkoutResultOrder env user db cart) = true then
          { res := { status := 201, message := "Order placed successfully!",
                     order := some (checkoutResultOrder env user db cart),
                     cart := none, product := none },
            db := { db with
              orders := db.orders ++ [checkoutResultOrder env user db cart],
              carts := Cart.replace { cart with items := [] } db.carts } }
        else { res := checkoutServerError, db := db }
      else { res := checkoutServerError, db := db } := by
  have hlen : ¬ cart.items.length = 0 := by
    intro h
    exact hne (List.length_eq_zero.mp h)
  unfold checkout
  simp only [hcart, hlen, if_false]
  by_cases hall : allExist db.products cart.items
  · rw [checkoutLoop_populate_ok _ _ hall]
    simp only [hall, if_true, zero_add, List.nil_append]
    by_cases hv : orderSchema (checkoutResultOrder env user db cart) = true
    · have hv' : orderSchema (checkoutOrder env user (cartTotal db.products cart.items)
          (cart.items.map (snapshotLine db.products))) = true := hv
      simp [Order.insert, Cart.save, cartSchema, hv, hv', checkoutResultOrder]
    · have hv' : ¬ orderSchema (checkoutOrder env user (cartTotal db.products cart.items)
          (cart.items.map (snapshotLine db.products))) = true := hv
      simp [Order.insert, hv, hv']
  · rw [checkoutLoop_populate_missing _ _ hall]
    simp [hall]

theorem catalogPrice_nonneg (products : List Product)
    (hp : ∀ p ∈ products, productSchema p = true) (id : ObjectId) :
    0 ≤ catalogPrice products id := by
  unfold catalogPrice
  cases h : Product.findById products id with
  | none => simp
  | some p =>
    have := hp p (Product.findById_mem h)
    simp only [productSchema, Bool.and_eq_true, decide_eq_true_eq] at this
    simpa using this.1.1.1.2

theorem cartTotal_nonneg (products : List Product) (items : List CartItem)
    (hp : ∀ p ∈ products, productSchema p = true)
    (hq : ∀ i ∈ items, cartItemSchema i = true) :
    0 ≤ cartTotal products items := by
  unfold cartTotal
  apply List.sum_nonneg
  intro x hx
  obtain ⟨i, hi, rfl⟩ := List.mem_map.mp hx
  have h1 : (1 : ℚ) ≤ i.quantity := by simpa [cartItemSchema] using hq i hi
  exact mul_nonneg (catalogPrice_nonneg products hp _) (by linarith)

theorem checkoutResultOrder_valid (env : Env) (user : User) (db : Db) (cart : Cart)
    (hp : ∀ p ∈ db.products, productSchema p = true) (hq : cartSchema cart = true) :
    orderSchema (checkoutResultOrder env user db cart) = true := by
  have hq' : ∀ i ∈ cart.items, cartItemSchema i = true := by
    simpa [cartSchema] using hq
  have htot := cartTotal_nonneg db.products cart.items hp hq'
  have hlines : ∀ i ∈ cart.items, orderLineSchema (snapshotLine db.products i) = true := by
    intro i hi
    have h1 : (1 : ℚ) ≤ i.quantity := by simpa [cartItemSchema] using hq' i hi
    simp [orderLineSchema, snapshotLine, h1, catalogPrice_nonneg db.products hp]
  simp only [orderSchema, checkoutResultOrder, checkoutOrder, checkoutAddress, statusEnum,
    Bool.and_eq_true, decide_eq_true_eq, List.all_eq_true, List.mem_map]
  refine ⟨⟨⟨⟨⟨⟨⟨?_, htot⟩, by decide⟩, by decide⟩, by decide⟩, by decide⟩, by decide⟩, by decide⟩
  rintro l ⟨i, hi, rfl⟩
  exact hlines i hi


/-! ## Lemmas on order placement -/

theorem Product.findById_replace (coll : List Product) (p q : Product)
    (hq : Product.findById coll p._id = some q) (id : ObjectId) :
    Product.findById (Product.replace p coll) id =
      if id = p._id then some p else Product.findById coll id := by
  induction coll with
  | nil => simp [Product.findById] at hq
  | cons d ds ih =>
    unfold Product.replace
    by_cases hd : d._id = p._id
    · by_cases hid : id = p._id
      · simp [hd, hid, Product.findById]
      · have : ¬ p._id = id := fun h => hid h.symm
        simp [hd, hid, Product.findById, this]
    · have hq' : Product.findById ds p._id = some q := by
        simpa [Product.findById, hd] using hq
      have ih' := ih hq'
      by_cases hid : id = p._id
      · subst hid
        simp only [hd, if_false]
        simp only [if_true] at ih'
        simpa [Product.findById, hd] using ih'
      · simp only [hd, hid, if_false] at ih' ⊢
        by_cases hdi : d._id = id
        · simp [Product.findById, hdi]
        · simpa [Product.findById, hdi] using ih'

theorem Product.mem_replace {coll : List Product} {p x : Product}
    (hx : x ∈ Product.replace p coll) : x = p ∨ x ∈ coll := by
  induction coll with
  | nil => simp [Product.replace] at hx
  | cons d ds ih =>
    unfold Product.replace at hx
    by_cases hd : d._id = p._id
    · simp only [hd, if_true, List.mem_cons] at hx
      rcases hx with h | h
      · exact Or.inl h
      · exact Or.inr (List.mem_cons_of_mem _ h)
    · simp only [hd, if_false, List.mem_cons] at hx
      rcases hx with h | h
      · exact Or.inr (h ▸ List.mem_cons_self _ _)
      · rcases ih h with h | h
        · exact Or.inl h
        · exact Or.inr (List.mem_cons_of_mem _ h)

theorem placeLoop_append (pre rest : List OrderItem) (products : List Product) (t : ℚ)
    (acc : List OrderLine) :
    placeLoop (pre ++ rest) products t acc =
      match placeLoop pre products t acc with
      | .done products' t' acc' => placeLoop rest products' t' acc'
      | other => other := by
  induction pre generalizing products t acc with
  | nil => simp [placeLoop]
  | cons item pre ih =>
    simp only [List.cons_append, placeLoop]
    cases Product.findById products item.productId with
    | none => simp
    | some product =>
      simp only
      by_cases hlt : product.stockQuantity < item.quantity
      · simp [hlt]
      · simp only [hlt, if_false]
        cases Product.save
            { product with stockQuantity := product.stockQuantity - item.quantity } products with
        | error e => simp
        | ok products' => simpa using ih products' _ _

theorem deducted_append (seen : List OrderItem) (item : OrderItem) (id : ObjectId) :
    deducted (seen ++ [item]) id =
      deducted seen id + if item.productId = id then item.quantity else 0 := by
  unfold deducted
  by_cases h : item.productId = id
  · simp [List.filter_append, h, List.filter_cons]
  · simp [List.filter_append, h, List.filter_cons]

theorem deducted_append_list (xs ys : List OrderItem) (id : ObjectId) :
    deducted (xs ++ ys) id = deducted xs id + deducted ys id := by
  unfold deducted
  simp [List.filter_append]

theorem withDeducted_nil (p : Product) : withDeducted [] p = p := by
  simp [withDeducted, deducted]

theorem productSchema_stock {p : Product} (hp : productSchema p = true) {s : ℚ} (hs : 0 ≤ s) :
    productSchema { p with stockQuantity := s } = true := by
  simp only [productSchema, Bool.and_eq_true, decide_eq_true_eq] at hp ⊢
  exact ⟨⟨⟨⟨⟨hp.1.1.1.1.1, hp.1.1.1.1.2⟩, hp.1.1.1.2⟩, hp.1.1.2⟩, hs⟩, hp.2⟩

theorem productSchema_stock_nonneg {p : Product} (hp : productSchema p = true) :
    0 ≤ p.stockQuantity := by
  simp only [productSchema, Bool.and_eq_true, decide_eq_true_eq] at hp
  exact hp.1.2

theorem tracks_step {products0 cat : List Product} {seen : List OrderItem} {item : OrderItem}
    {p0 : Product}
    (htr : ∀ id, Product.findById cat id =
      (Product.findById products0 id).map (withDeducted seen))
    (h0 : Product.findById products0 item.productId = some p0) (id : ObjectId) :
    Product.findById
        (Product.replace
          { withDeducted seen p0 with
            stockQuantity := (withDeducted seen p0).stockQuantity - item.quantity } cat) id =
      (Product.findById products0 id).map (withDeducted (seen ++ [item])) := by
  have hid0 : p0._id = item.productId := Product.findById_id h0
  have hcat : Product.findById cat item.productId = some (withDeducted seen p0) := by
    rw [htr, h0]; rfl
  have hrep := Product.findById_replace cat
    { withDeducted seen p0 with
      stockQuantity := (withDeducted seen p0).stockQuantity - item.quantity }
    (withDeducted seen p0) (by simpa [withDeducted, hid0] using hcat) id
  rw [hrep]
  by_cases hid : id = item.productId
  · subst hid
    simp only [withDeducted, hid0, if_true, h0, Option.map_some', deducted_append]
    simp only [if_true, Option.some.injEq]
    congr 1
    ring
  · have hne : ¬ id = p0._id := by rw [hid0]; exact hid
    simp only [withDeducted, hne, if_false]
    rw [htr]
    cases hq : Product.findById products0 id with
    | none => rfl
    | some q =>
      have hqid : q._id = id := Product.findById_id hq
      have hne' : ¬ item.productId = q._id := by
        rw [hqid]; exact fun h => hid h.symm
      simp [withDeducted, deducted_append, hne']

theorem placeLoop_tracks (products0 : List Product) (lines : List OrderItem) :
    ∀ (cat : List Product) (seen : List OrderItem) (t : ℚ) (acc : List OrderLine),
      (∀ p ∈ cat, productSchema p = true) →
      (∀ id, Product.findById cat id =
        (Product.findById products0 id).map (withDeducted seen)) →
      (∀ id, Product.findById (placeLoop lines cat t acc).products id =
        (Product.findById products0 id).map
          (withDeducted (seen ++ processed products0 seen lines))) ∧
      ((∃ c t' a, placeLoop lines cat t acc = .done c t' a) →
        processed products0 seen lines = lines) ∧
      (∀ e c, placeLoop lines cat t acc ≠ .threw e c) ∧
      (∀ p ∈ (placeLoop lines cat t acc).products, productSchema p = true) := by
  induction lines with
  | nil =>
    intro cat seen t acc hv htr
    simpa [placeLoop, processed, PlaceLoop.products] using ⟨htr, hv⟩
  | cons item rest ih =>
    intro cat seen t acc hv htr
    cases h0 : Product.findById products0 item.productId with
    | none =>
      have hcat : Product.findById cat item.productId = none := by rw [htr, h0]; rfl
      have hf : lineFails products0 seen item = true := by
        simp [lineFails, stockAfter, h0]
      simpa [placeLoop, hcat, processed, hf, PlaceLoop.products] using ⟨htr, hv⟩
    | some p0 =>
      have hid0 : p0._id = item.productId := Product.findById_id h0
      have hcat : Product.findById cat item.productId = some (withDeducted seen p0) := by
        rw [htr, h0]; rfl
      have hstock : (withDeducted seen p0).stockQuantity =
          p0.stockQuantity - deducted seen item.productId := by
        simp [withDeducted, hid0]
      by_cases hlt : (withDeducted seen p0).stockQuantity < item.quantity
      · have hf : lineFails products0 seen item = true := by
          simp only [lineFails, stockAfter, h0, Option.map_some', decide_eq_true_eq]
          rw [← hstock]; exact hlt
        simpa [placeLoop, hcat, hlt, processed, hf, PlaceLoop.products] using ⟨htr, hv⟩
      · have hf : lineFails products0 seen item = false := by
          simp only [lineFails, stockAfter, h0, Option.map_some', decide_eq_false_iff_not]
          rw [← hstock]; exact hlt
        have hpv : productSchema (withDeducted seen p0) = true :=
          hv _ (Product.findById_mem hcat)
        have hnew : productSchema
            { withDeducted seen p0 with
              stockQuantity := (withDeducted seen p0).stockQuantity - item.quantity } = true :=
          productSchema_stock hpv (by linarith [not_lt.mp hlt])
        have hv' : ∀ p ∈ Product.replace
            { withDeducted seen p0 with
              stockQuantity := (withDeducted seen p0).stockQuantity - item.quantity } cat,
            productSchema p = true := by
          intro p hp
          rcases Product.mem_replace hp with h | h
          · rw [h]; exact hnew
          · exact hv p h
        have ih' := ih _ (seen ++ [item])
          (t + (withDeducted seen p0).price * item.quantity)
          (acc ++ [{ product := item.productId, quantity := item.quantity,
                     priceAtOrder := (withDeducted seen p0).price }])
          hv' (tracks_step htr h0)
        have hloop : placeLoop (item :: rest) cat t acc =
            placeLoop rest
              (Product.replace
                { withDeducted seen p0 with
                  stockQuantity := (withDeducted seen p0).stockQuantity - item.quantity } cat)
              (t + (withDeducted seen p0).price * item.quantity)
              (acc ++ [{ product := item.productId, quantity := item.quantity,
                         priceAtOrder := (withDeducted seen p0).price }]) := by
          simp [placeLoop, hcat, hlt, Product.save, hnew]
        have hproc : processed products0 seen (item :: rest) =
            item :: processed products0 (seen ++ [item]) rest := by
          simp [processed, hf]
        rw [hloop, hproc]
        refine ⟨?_, ?_, ih'.2.2.1, ih'.2.2.2⟩
        · intro id
          rw [ih'.1 id]
          simp [List.append_assoc]
        · intro h
          rw [ih'.2.1 h]

theorem placeLoop_returned (lines : List OrderItem) :
    ∀ (cat : List Product) (t : ℚ) (acc : List OrderLine) (r : Response) (c : List Product),
      placeLoop lines cat t acc = .returned r c →
        (r.status = 404 ∨ r.status = 400) ∧ r.order = none := by
  induction lines with
  | nil => intro cat t acc r c h; simp [placeLoop] at h
  | cons item rest ih =>
    intro cat t acc r c h
    simp only [placeLoop] at h
    cases hf : Product.findById cat item.productId with
    | none =>
      simp only [hf, PlaceLoop.returned.injEq] at h
      rw [← h.1]
      simp [productNotFound, Response.msg]
    | some product =>
      simp only [hf] at h
      by_cases hlt : product.stockQuantity < item.quantity
      · simp only [hlt, if_true, PlaceLoop.returned.injEq] at h
        rw [← h.1]
        simp [notEnoughStock, Response.msg]
      · simp only [hlt, if_false] at h
        cases hs : Product.save
            { product with stockQuantity := product.stockQuantity - item.quantity } cat with
        | error e => simp [hs] at h
        | ok products' =>
          simp only [hs] at h
          exact ih _ _ _ r c h

theorem placeLoop_stock_nonneg (lines : List OrderItem) :
    ∀ (cat : List Product) (t : ℚ) (acc : List OrderLine),
      (∀ p ∈ cat, 0 ≤ p.stockQuantity) →
      ∀ p ∈ (placeLoop lines cat t acc).products, 0 ≤ p.stockQuantity := by
  induction lines with
  | nil => intro cat t acc h; simpa [placeLoop, PlaceLoop.products] using h
  | cons item rest ih =>
    intro cat t acc h
    simp only [placeLoop]
    cases hf : Product.findById cat item.productId with
    | none => simpa [PlaceLoop.products] using h
    | some product =>
      simp only
      by_cases hlt : product.stockQuantity < item.quantity
      · simpa [hlt, PlaceLoop.products] using h
      · simp only [hlt, if_false]
        cases hs : Product.save
            { product with stockQuantity := product.stockQuantity - item.quantity } cat with
        | error e => simpa [PlaceLoop.products] using h
        | ok products' =>
          simp only
          apply ih
          intro p hp
          have hrep : products' = Product.replace
              { product with stockQuantity := product.stockQuantity - item.quantity } cat := by
            unfold Product.save at hs
            split at hs
            · exact (Except.ok.inj hs).symm
            · cases hs
          rw [hrep] at hp
          rcases Product.mem_replace hp with h' | h'
          · rw [h']
            show 0 ≤ product.stockQuantity - item.quantity
            linarith [not_lt.mp hlt]
          · exact h p h'

theorem placeLoop_total (lines : List OrderItem) :
    ∀ (cat : List Product) (t : ℚ) (acc : List OrderLine) (c : List Product) (t' : ℚ)
      (a : List OrderLine),
      placeLoop lines cat t acc = .done c t' a → t = lineSum acc → t' = lineSum a := by
  induction lines with
  | nil =>
    intro cat t acc c t' a h ht
    simp only [placeLoop, PlaceLoop.done.injEq] at h
    rw [← h.2.1, ← h.2.2]; exact ht
  | cons item rest ih =>
    intro cat t acc c t' a h ht
    simp only [placeLoop] at h
    cases hf : Product.findById cat item.productId with
    | none => simp [hf] at h
    | some product =>
      simp only [hf] at h
      by_cases hlt : product.stockQuantity < item.quantity
      · simp [hlt] at h
      · simp only [hlt, if_false] at h
        cases hs : Product.save
            { product with stockQuantity := product.stockQuantity - item.quantity } cat with
        | error e => simp [hs] at h
        | ok products' =>
          simp only [hs] at h
          apply ih _ _ _ c t' a h
          simp [lineSum, ht]

theorem placeOrder_eq (env : Env) (db : Db) (userId : ObjectId) (lines : List OrderItem)
    (address : AddressBody) (hlines : lines ≠ []) (haddr : address.complete) :
    placeOrder env (orderBody userId lines address) db =
      match placeLoop lines db.products 0 [] with
      | .returned res products' => { res := res, db := { db with products := products' } }
      | .threw e products' => { res := placeOrderCatch e, db := { db with products := products' } }
      | .done products' totalAmount productsForOrder =>
        match Order.insert (placedOrder env userId address totalAmount productsForOrder)
            db.orders with
        | .error e => { res := placeOrderCatch e, db := { db with products := products' } }
        | .ok orders =>
          { res := { status := 201, message := "Order placed successfully!",
                     order := some (placedOrder env userId address totalAmount productsForOrder),
                     cart := none, product := none },
            db := { db with products := products', orders := orders } } := by
  have hlen : ¬ lines.length = 0 := fun h => hlines (List.length_eq_zero.mp h)
  obtain ⟨h1, h2, h3, h4⟩ := haddr
  simp only [placeOrder, orderBody, hlen, if_false, h1, h2, h3, h4, or_self]

theorem placeOrder_products (env : Env) (body : OrderBody) (db : Db) :
    (placeOrder env body db).db.products = db.products ∨
    ∃ lines t acc, body.products = some lines ∧
      (placeOrder env body db).db.products = (placeLoop lines db.products t acc).products := by
  unfold placeOrder
  split
  · rename_i userId products address hu hp ha
    split
    · exact Or.inl rfl
    · split
      · exact Or.inl rfl
      · right
        refine ⟨products, 0, [], hp, ?_⟩
        cases placeLoop products db.products 0 [] with
        | returned res c => rfl
        | threw e c => rfl
        | done c t a =>
          simp only [PlaceLoop.products]
          cases Order.insert (placedOrder env userId address t a) db.orders <;> rfl
  · exact Or.inl rfl

theorem placeOrder_catch_status (e : Exn) :
    (placeOrderCatch e).status ≠ 201 ∧ (placeOrderCatch e).order = none := by
  cases e <;> simp [placeOrderCatch, Response.msg]

theorem processed_prefix (products : List Product) (lines : List OrderItem) :
    ∀ seen : List OrderItem, ∃ post, lines = processed products seen lines ++ post ∧
      (post = [] ∨ ∃ item rest, post = item :: rest ∧
        lineFails products (seen ++ processed products seen lines) item = true) := by
  induction lines with
  | nil => intro seen; exact ⟨[], by simp [processed], Or.inl rfl⟩
  | cons item rest ih =>
    intro seen
    by_cases hf : lineFails products seen item = true
    · refine ⟨item :: rest, by simp [processed, hf], Or.inr ⟨item, rest, rfl, ?_⟩⟩
      simp [processed, hf]
    · obtain ⟨post, hpost, hcase⟩ := ih (seen ++ [item])
      refine ⟨post, ?_, ?_⟩
      · simp only [processed, hf]
        simpa using hpost
      · simpa [processed, hf, List.append_assoc] using hcase

/-! ## Lemmas on the order collection -/

theorem checkout_cases (env : Env) (reqUser : Option User) (db : Db) :
    (∃ user cart, reqUser = some user ∧ Cart.findOne db.carts user._id = some cart ∧
      cart.items ≠ [] ∧ allExist db.products cart.items ∧
      checkout env reqUser db =
        { res := { status := 201, message := "Order placed successfully!",
                   order := some (checkoutResultOrder env user db cart),
                   cart := none, product := none },
          db := { db with
            orders := db.orders ++ [checkoutResultOrder env user db cart],
            carts := Cart.replace { cart with items := [] } db.carts } }) ∨
    ((checkout env reqUser db).res.order = none ∧ (checkout env reqUser db).res.status ≠ 201 ∧
      (checkout env reqUser db).db = db) := by
  cases reqUser with
  | none => right; simp [checkout, checkoutServerError, Response.msg]
  | some user =>
    cases hc : Cart.findOne db.carts user._id with
    | none => right; simp [checkout, hc, emptyCartError, Response.msg]
    | some cart =>
      by_cases hne : cart.items = []
      · right; simp [checkout, hc, hne, emptyCartError, Response.msg]
      · rw [checkout_found env user db cart hc hne]
        by_cases hall : allExist db.products cart.items
        · by_cases hv : orderSchema (checkoutResultOrder env user db cart) = true
          · rw [if_pos hall, if_pos hv]
            exact Or.inl ⟨user, cart, rfl, hc, hne, hall, rfl⟩
          · rw [if_pos hall, if_neg hv]
            right; simp [checkoutServerError, Response.msg]
        · rw [if_neg hall]
          right; simp [checkoutServerError, Response.msg]

theorem checkoutResultOrder_total (env : Env) (user : User) (db : Db) (cart : Cart) :
    totalMatchesLines (checkoutResultOrder env user db cart) := by
  simp [totalMatchesLines, checkoutResultOrder, checkoutOrder, cartTotal, snapshotLine,
    List.map_map, Function.comp_def]

theorem placeOrder_cases (env : Env) (body : OrderBody) (db : Db) :
    ((placeOrder env body db).res.order = none ∧ (placeOrder env body db).db.orders = db.orders) ∨
    ∃ o, (placeOrder env body db).res.order = some o ∧
      (placeOrder env body db).db.orders = db.orders ++ [o] ∧ totalMatchesLines o := by
  unfold placeOrder
  split
  · rename_i userId products address hu hp ha
    split
    · exact Or.inl ⟨rfl, rfl⟩
    · split
      · exact Or.inl ⟨rfl, rfl⟩
      · cases hl : placeLoop products db.products 0 [] with
        | returned res c => exact Or.inl ⟨(placeLoop_returned _ _ _ _ _ _ hl).2, rfl⟩
        | threw e c => exact Or.inl ⟨(placeOrder_catch_status e).2, rfl⟩
        | done c t a =>
          dsimp only
          have htot : t = lineSum a :=
            placeLoop_total products db.products 0 [] c t a hl (by simp [lineSum])
          by_cases hv : orderSchema (placedOrder env userId address t a) = true
          · right
            refine ⟨placedOrder env userId address t a, ?_, ?_, ?_⟩
            · simp [Order.insert, hv]
            · simp [Order.insert, hv]
            · simpa [totalMatchesLines, placedOrder, lineSum] using htot
          · left
            simp only [Order.insert, hv]
            exact ⟨(placeOrder_catch_status _).2, rfl⟩
  · exact Or.inl ⟨rfl, rfl⟩

theorem Order.mem_of_mem_replace {coll : List Order} {o x : Order}
    (hx : x ∈ Order.replace o coll) : x = o ∨ x ∈ coll := by
  induction coll with
  | nil => simp [Order.replace] at hx
  | cons d ds ih =>
    unfold Order.replace at hx
    by_cases hd : d._id = o._id
    · simp only [hd, if_true, List.mem_cons] at hx
      rcases hx with h | h
      · exact Or.inl h
      · exact Or.inr (List.mem_cons_of_mem _ h)
    · simp only [hd, if_false, List.mem_cons] at hx
      rcases hx with h | h
      · exact Or.inr (h ▸ List.mem_cons_self _ _)
      · rcases ih h with h | h
        · exact Or.inl h
        · exact Or.inr (List.mem_cons_of_mem _ h)

theorem Order.mem_of_findById {coll : List Order} {id : ObjectId} {o : Order}
    (h : Order.findById coll id = some o) : o ∈ coll := by
  unfold Order.findById at h
  exact List.mem_of_find?_eq_some h

theorem Order.map_replace {β : Type} (f : Order → β) {coll : List Order} {id : ObjectId}
    {o o' : Order} (h : Order.findById coll id = some o) (hid : o'._id = o._id)
    (hf : f o' = f o) : (Order.replace o' coll).map f = coll.map f := by
  induction coll with
  | nil => rfl
  | cons d ds ih =>
    have hoid : o._id = id := by
      have := List.find?_some (show List.find? (fun o => o._id == id) (d :: ds) = some o from h)
      simpa using this
    unfold Order.replace
    by_cases hd : d._id = o'._id
    · have hdo : d = o := by
        have hdi : d._id = id := by rw [hd, hid, hoid]
        simpa [Order.findById, hdi] using h
      subst hdo
      simp [hd, hf]
    · have hdi : ¬ d._id = id := by
        intro hdi
        exact hd (by rw [hid, hoid, hdi])
      have h' : Order.findById ds id = some o := by
        simpa [Order.findById, hdi] using h
      simp [hd, ih h']

theorem updateOrderStatus_cases (orderId : ObjectId) (status : Option String) (db : Db) :
    (updateOrderStatus orderId status db).db = db ∨
    ∃ order s, Order.findById db.orders orderId = some order ∧
      (updateOrderStatus orderId status db).db =
        { db with orders := Order.replace { order with status := s } db.orders } := by
  unfold updateOrderStatus
  cases status with
  | none => exact Or.inl rfl
  | some s =>
    dsimp only
    split
    · exact Or.inl rfl
    · split
      · exact Or.inl rfl
      · cases ho : Order.findById db.orders orderId with
        | none => exact Or.inl rfl
        | some order =>
          dsimp only
          by_cases hv : orderSchema { order with status := s } = true
          · right
            exact ⟨order, s, rfl, by simp [Order.save, hv]⟩
          · left
            simp [Order.save, hv]

theorem createProduct_orders (env : Env) (body : ProductBody) (db : Db) :
    (createProduct env body db).db.orders = db.orders := by
  unfold createProduct
  repeat' split
  all_goals first
    | rfl
    | (dsimp only; repeat' split; all_goals rfl)

theorem updateProduct_orders (id : ObjectId) (body : ProductBody) (db : Db) :
    (updateProduct id body db).db.orders = db.orders := by
  unfold updateProduct
  repeat' split
  all_goals first
    | rfl
    | (dsimp only; repeat' split; all_goals rfl)

theorem deleteProduct_orders (id : ObjectId) (db : Db) :
    (deleteProduct id db).db.orders = db.orders := by
  unfold deleteProduct
  repeat' split
  all_goals rfl

theorem addReview_orders (reqUser : Option User) (id : ObjectId) (body : ReviewBody) (db : Db) :
    (addReview reqUser id body db).db.orders = db.orders := by
  unfold addReview
  repeat' split
  all_goals first
    | rfl
    | (dsimp only; repeat' split; all_goals rfl)

theorem addToCart_orders (env : Env) (reqUser : Option User) (body : CartBody) (db : Db) :
    (addToCart env reqUser body db).db.orders = db.orders := by
  unfold addToCart
  repeat' split
  all_goals first
    | rfl
    | (dsimp only; repeat' split; all_goals rfl)

theorem updateCartItem_orders (reqUser : Option User) (productId : ObjectId)
    (quantity : Option ℚ) (db : Db) :
    (updateCartItem reqUser productId quantity db).db.orders = db.orders := by
  unfold updateCartItem
  repeat' split
  all_goals first
    | rfl
    | (dsimp only; repeat' split; all_goals rfl)

theorem removeCartItem_orders (reqUser : Option User) (productId : ObjectId) (db : Db) :
    (removeCartItem reqUser productId db).db.orders = db.orders := by
  unfold removeCartItem
  cases reqUser with
  | none => rfl
  | some user =>
    dsimp only
    cases Cart.findOne db.carts user._id with
    | none => rfl
    | some cart =>
      dsimp only
      split
      · rfl
      · split <;> rfl

theorem checkout_missing_product (env : Env) (user : User) (db : Db) (cart : Cart)
    (hcart : Cart.findOne db.carts user._id = some cart)
    (hmiss : ¬ allExist db.products cart.items) :
    checkout env (some user) db = { res := checkoutServerError, db := db } := by
  have hne : cart.items ≠ [] := by
    intro h
    apply hmiss
    intro i hi
    rw [h] at hi
    cases hi
  rw [checkout_found env user db cart hcart hne, if_neg hmiss]

theorem checkout_never_404 (env : Env) (reqUser : Option User) (db : Db) :
    (checkout env reqUser db).res.status ≠ 404 := by
  rcases checkout_cases env reqUser db with ⟨_, _, _, _, _, _, heq⟩ | ⟨_, _, hdb⟩
  · rw [heq]; simp
  · cases reqUser with
    | none => simp [checkout, checkoutServerError, Response.msg]
    | some user =>
      cases hc : Cart.findOne db.carts user._id with
      | none => simp [checkout, hc, emptyCartError, Response.msg]
      | some cart =>
        by_cases hne : cart.items = []
        · simp [checkout, hc, hne, emptyCartError, Response.msg]
        · rw [checkout_found env user db cart hc hne]
          repeat' split
          all_goals simp [checkoutServerError, Response.msg]
/-! ## Claims on checkout -/

/-- C1: for a caller whose stored cart has at least one line, every line of which
references a product of the catalog, the stored cart and products being valid for
their schemas, checkout answers 201, the created order's `totalAmount` is the sum
over the cart lines of catalog price times quantity, and afterwards the caller's
cart record still exists with an empty items list. -/
theorem checkout_total (env : Env) (user : User) (db : Db) (cart : Cart)
    (hcart : Cart.findOne db.carts user._id = some cart)
    (hne : cart.items ≠ [])
    (hex : allExist db.products cart.items)
    (hq : cartSchema cart = true)
    (hp : ∀ p ∈ db.products, productSchema p = true) :
    (checkout env (some user) db).res.status = 201 ∧
    ∃ o, (checkout env (some user) db).res.order = some o ∧
      (checkout env (some user) db).db.orders = db.orders ++ [o] ∧
      o.totalAmount =
        (cart.items.map (fun i => catalogPrice db.products i.product * i.quantity)).sum ∧
      Cart.findOne (checkout env (some user) db).db.carts user._id =
        some { cart with items := [] } := by
  have hv := checkoutResultOrder_valid env user db cart hp hq
  have hu : cart.user = user._id := by
    have := List.find?_some (show List.find? (fun c => c.user == user._id) db.carts = some cart
      from hcart)
    simpa using this
  rw [checkout_found env user db cart hcart hne, if_pos hex, if_pos hv]
  exact ⟨rfl, checkoutResultOrder env user db cart, rfl, rfl, rfl,
    Cart.findOne_replace { cart with items := [] } hcart rfl hu⟩

theorem checkout_201 (env : Env) (reqUser : Option User) (db : Db)
    (h : (checkout env reqUser db).res.status = 201) :
    ∃ user cart, reqUser = some user ∧ Cart.findOne db.carts user._id = some cart ∧
      cart.items ≠ [] ∧ allExist db.products cart.items ∧
      checkout env reqUser db =
        { res := { status := 201, message := "Order placed successfully!",
                   order := some (checkoutResultOrder env user db cart),
                   cart := none, product := none },
          db := { db with
            orders := db.orders ++ [checkoutResultOrder env user db cart],
            carts := Cart.replace { cart with items := [] } db.carts } } := by
  cases reqUser with
  | none => simp [checkout, checkoutServerError, Response.msg] at h
  | some user =>
    cases hc : Cart.findOne db.carts user._id with
    | none => simp [checkout, hc, emptyCartError, Response.msg] at h
    | some cart =>
      by_cases hne : cart.items = []
      · simp [checkout, hc, hne, emptyCartError, Response.msg] at h
      · rw [checkout_found env user db cart hc hne] at h ⊢
        by_cases hall : allExist db.products cart.items
        · by_cases hv : orderSchema (checkoutResultOrder env user db cart) = true
          · rw [if_pos hall, if_pos hv]
            exact ⟨user, cart, rfl, hc, hne, hall, rfl⟩
          · rw [if_pos hall, if_neg hv] at h
            simp [checkoutServerError, Response.msg] at h
        · rw [if_neg hall] at h
          simp [checkoutServerError, Response.msg] at h

/-- C2: on a successful checkout (status 201) the created order has one line per
cart line, in the cart's order, and the i-th line carries the i-th cart line's
product id and quantity and the catalog price of that product. -/
theorem checkout_lines (env : Env) (user : User) (db : Db) (cart : Cart)
    (hcart : Cart.findOne db.carts user._id = some cart)
    (h201 : (checkout env (some user) db).res.status = 201) :
    ∃ o, (checkout env (some user) db).res.order = some o ∧
      (checkout env (some user) db).db.orders = db.orders ++ [o] ∧
      o.products.length = cart.items.length ∧
      List.Forall₂
        (fun (i : CartItem) (l : OrderLine) =>
          l.product = i.product ∧ l.quantity = i.quantity ∧
            ∃ p, Product.findById db.products i.product = some p ∧ l.priceAtOrder = p.price)
        cart.items o.products := by
  obtain ⟨user', cart', hu, hc', _, hall, heq⟩ := checkout_201 env (some user) db h201
  cases hu
  rw [hcart] at hc'
  cases hc'
  rw [heq]
  refine ⟨checkoutResultOrder env user db cart, rfl, rfl, ?_, ?_⟩
  · simp [checkoutResultOrder, checkoutOrder]
  · simp only [checkoutResultOrder, checkoutOrder, List.forall₂_map_right_iff,
      List.forall₂_same]
    intro i hi
    obtain ⟨p, hp⟩ := Option.isSome_iff_exists.mp (hall i hi)
    exact ⟨rfl, rfl, p, hp, by simp [snapshotLine, catalogPrice, hp]⟩

/-- C3: checkout for a caller without a cart record, or with a cart whose items
list is empty, answers 400 with the empty-cart message, sends no order and leaves
the whole database (orders, carts, catalog) unchanged. -/
theorem checkout_empty (env : Env) (user : User) (db : Db)
    (h : Cart.findOne db.carts user._id = none ∨
      ∃ cart, Cart.findOne db.carts user._id = some cart ∧ cart.items = []) :
    (checkout env (some user) db).res.status = 400 ∧
    (checkout env (some user) db).res.message = "Your cart is empty. Cannot checkout." ∧
    (checkout env (some user) db).res.order = none ∧
    (checkout env (some user) db).db.orders = db.orders ∧
    (checkout env (some user) db).db.carts = db.carts ∧
    (checkout env (some user) db).db.products = db.products := by
  rcases h with h | ⟨cart, h, hitems⟩
  · simp [checkout, h, emptyCartError, Response.msg]
  · simp [checkout, h, hitems, emptyCartError, Response.msg]

/-- C5: a successful checkout (status 201) appends exactly one order to the order
collection, every earlier order staying as it was; the new order's user is the
caller and its status is Pending. -/
theorem checkout_adds_one_order (env : Env) (reqUser : Option User) (db : Db)
    (h201 : (checkout env reqUser db).res.status = 201) :
    ∃ user o, reqUser = some user ∧
      (checkout env reqUser db).db.orders = db.orders ++ [o] ∧
      (checkout env reqUser db).res.order = some o ∧
      o.user = user._id ∧ o.status = "Pending" := by
  obtain ⟨user, cart, hu, _, _, _, heq⟩ := checkout_201 env reqUser db h201
  rw [heq]
  exact ⟨user, checkoutResultOrder env user db cart, hu, rfl, rfl, rfl, rfl⟩

/-- C6: checkout never writes the catalog: for every database and every caller,
whatever the response, the product collection after the call is the one before. -/
theorem checkout_catalog_unchanged (env : Env) (reqUser : Option User) (db : Db) :
    (checkout env reqUser db).db.products = db.products := by
  unfold checkout
  repeat' split
  all_goals first
    | rfl
    | (dsimp only; split <;> rfl)


/-! ## Claims on direct order placement -/

/-- C8: an order placement with a user id, a complete shipping address and the
product list `pre ++ item :: post` answers 400 with the not-enough-stock message
and creates no order, whenever the loop over the lines `pre` runs to the end and
leaves a catalog in which the product of `item` has less stock than `item` asks for. -/
theorem placeOrder_insufficient_stock (env : Env) (db : Db) (userId : ObjectId)
    (address : AddressBody) (pre post : List OrderItem) (item : OrderItem)
    (cat : List Product) (t : ℚ) (acc : List OrderLine) (p : Product)
    (haddr : address.complete)
    (hpre : placeLoop pre db.products 0 [] = .done cat t acc)
    (hp : Product.findById cat item.productId = some p)
    (hlt : p.stockQuantity < item.quantity) :
    (placeOrder env (orderBody userId (pre ++ item :: post) address) db).res.status = 400 ∧
    (placeOrder env (orderBody userId (pre ++ item :: post) address) db).res.message =
      "Not enough stock for product: " ++ p.name ++ ". Available: " ++
        toString p.stockQuantity ∧
    (placeOrder env (orderBody userId (pre ++ item :: post) address) db).res.order = none ∧
    (placeOrder env (orderBody userId (pre ++ item :: post) address) db).db.orders =
      db.orders := by
  have hloop : placeLoop (pre ++ item :: post) db.products 0 [] =
      .returned (notEnoughStock p) cat := by
    rw [placeLoop_append, hpre]
    simp [placeLoop, hp, hlt]
  rw [placeOrder_eq env db userId _ address (by simp) haddr, hloop]
  simp [notEnoughStock, Response.msg]

/-- C9: for an order placement that passes the field checks, on a catalog whose
products are valid for their schema, every product of the catalog is after the call
what it was before with its stock lowered by the sum of the quantities of the
processed lines for it, the processed lines being the lines before the first
failing line (missing product or stock below the quantity, the stock being the
initial one less the earlier lines for the same product); when the call answers 201
every line was processed. -/
theorem placeOrder_stock (env : Env) (db : Db) (userId : ObjectId) (lines : List OrderItem)
    (address : AddressBody) (hlines : lines ≠ []) (haddr : address.complete)
    (hvalid : ∀ p ∈ db.products, productSchema p = true) :
    (∀ id, Product.findById (placeOrder env (orderBody userId lines address) db).db.products id =
      (Product.findById db.products id).map
        (fun p => { p with
          stockQuantity := p.stockQuantity - deducted (processed db.products [] lines) id })) ∧
    ((placeOrder env (orderBody userId lines address) db).res.status = 201 →
      processed db.products [] lines = lines) ∧
    (∃ post, lines = processed db.products [] lines ++ post ∧
      (post = [] ∨ ∃ item rest, post = item :: rest ∧
        lineFails db.products (processed db.products [] lines) item = true)) := by
  have hprefix : ∃ post, lines = processed db.products [] lines ++ post ∧
      (post = [] ∨ ∃ item rest, post = item :: rest ∧
        lineFails db.products (processed db.products [] lines) item = true) := by
    simpa using processed_prefix db.products lines []
  have htr0 : ∀ id, Product.findById db.products id =
      (Product.findById db.products id).map (withDeducted []) := by
    intro id
    cases h : Product.findById db.products id with
    | none => rfl
    | some p => simp [withDeducted_nil]
  obtain ⟨h1, h2, h3, _⟩ := placeLoop_tracks db.products lines db.products [] 0 [] hvalid htr0
  have hmap : ∀ id, (Product.findById db.products id).map
      (withDeducted ([] ++ processed db.products [] lines)) =
      (Product.findById db.products id).map
        (fun p => { p with
          stockQuantity := p.stockQuantity - deducted (processed db.products [] lines) id }) := by
    intro id
    cases h : Product.findById db.products id with
    | none => rfl
    | some p => simp [withDeducted, Product.findById_id h]
  rw [placeOrder_eq env db userId lines address hlines haddr]
  cases hl : placeLoop lines db.products 0 [] with
  | returned res c =>
    rw [hl] at h1
    refine ⟨fun id => by rw [← hmap]; exact h1 id, ?_, hprefix⟩
    intro hs
    rcases (placeLoop_returned lines _ _ _ _ _ hl).1 with h | h <;> simp [h] at hs
  | threw e c => exact absurd hl (h3 e c)
  | done c t a =>
    rw [hl] at h1
    have hall := h2 ⟨c, t, a, hl⟩
    dsimp only
    cases Order.insert (placedOrder env userId address t a) db.orders with
    | error e => exact ⟨fun id => by rw [← hmap]; exact h1 id, fun _ => hall, hprefix⟩
    | ok orders => exact ⟨fun id => by rw [← hmap]; exact h1 id, fun _ => hall, hprefix⟩

/-- C10: for every request body, if every product of the catalog has a stock of at
least 0 before an order placement, every product has a stock of at least 0 after
it. -/
theorem placeOrder_stock_nonneg (env : Env) (body : OrderBody) (db : Db)
    (h : ∀ p ∈ db.products, 0 ≤ p.stockQuantity) :
    ∀ p ∈ (placeOrder env body db).db.products, 0 ≤ p.stockQuantity := by
  rcases placeOrder_products env body db with heq | ⟨lines, t, acc, _, heq⟩
  · rw [heq]; exact h
  · rw [heq]; exact placeLoop_stock_nonneg lines db.products t acc h

/-! ## The order invariant -/

/-- C7: every order that checkout or order placement creates has a `totalAmount`
equal to the sum over its lines of `priceAtOrder` times `quantity`; every write
request of the API keeps that true of every stored order; a product update leaves
the order collection as it is, and an order status update leaves the `_id`, the
lines and the `totalAmount` of every stored order as they are. -/
theorem order_invariant :
    (∀ (env : Env) (reqUser : Option User) (db : Db) (o : Order),
      (checkout env reqUser db).res.order = some o →
        (checkout env reqUser db).db.orders = db.orders ++ [o] ∧ totalMatchesLines o) ∧
    (∀ (env : Env) (body : OrderBody) (db : Db) (o : Order),
      (placeOrder env body db).res.order = some o →
        (placeOrder env body db).db.orders = db.orders ++ [o] ∧ totalMatchesLines o) ∧
    (∀ (env : Env) (db : Db) (req : Request),
      (∀ o ∈ db.orders, totalMatchesLines o) →
        ∀ o ∈ (handle env db req).db.orders, totalMatchesLines o) ∧
    (∀ (id : ObjectId) (body : ProductBody) (db : Db),
      (updateProduct id body db).db.orders = db.orders) ∧
    (∀ (orderId : ObjectId) (status : Option String) (db : Db),
      (updateOrderStatus orderId status db).db.orders.map
          (fun o => (o._id, o.products, o.totalAmount)) =
        db.orders.map (fun o => (o._id, o.products, o.totalAmount))) := by
  have hcheckout : ∀ (env : Env) (reqUser : Option User) (db : Db) (o : Order),
      (checkout env reqUser db).res.order = some o →
        (checkout env reqUser db).db.orders = db.orders ++ [o] ∧ totalMatchesLines o := by
    intro env reqUser db o ho
    rcases checkout_cases env reqUser db with ⟨user, cart, _, _, _, _, heq⟩ | ⟨hnone, _, _⟩
    · rw [heq] at ho ⊢
      cases ho
      exact ⟨rfl, checkoutResultOrder_total env user db cart⟩
    · rw [hnone] at ho; cases ho
  have hplace : ∀ (env : Env) (body : OrderBody) (db : Db) (o : Order),
      (placeOrder env body db).res.order = some o →
        (placeOrder env body db).db.orders = db.orders ++ [o] ∧ totalMatchesLines o := by
    intro env body db o ho
    rcases placeOrder_cases env body db with ⟨hnone, _⟩ | ⟨o', ho', heq, htot⟩
    · rw [hnone] at ho; cases ho
    · rw [ho'] at ho
      cases ho
      exact ⟨heq, htot⟩
  have hstatus : ∀ (orderId : ObjectId) (status : Option String) (db : Db),
      (updateOrderStatus orderId status db).db.orders.map
          (fun o => (o._id, o.products, o.totalAmount)) =
        db.orders.map (fun o => (o._id, o.products, o.totalAmount)) := by
    intro orderId status db
    rcases updateOrderStatus_cases orderId status db with h | ⟨order, s, hfind, h⟩
    · rw [h]
    · rw [h]
      exact Order.map_replace _ hfind rfl rfl
  refine ⟨hcheckout, hplace, ?_, updateProduct_orders, hstatus⟩
  intro env db req hinv o ho
  cases req with
  | createProduct body => exact hinv o (by rwa [handle, createProduct_orders] at ho)
  | updateProduct id body => exact hinv o (by rwa [handle, updateProduct_orders] at ho)
  | deleteProduct id => exact hinv o (by rwa [handle, deleteProduct_orders] at ho)
  | addReview reqUser id body => exact hinv o (by rwa [handle, addReview_orders] at ho)
  | addToCart reqUser body => exact hinv o (by rwa [handle, addToCart_orders] at ho)
  | updateCartItem reqUser productId quantity =>
    exact hinv o (by rwa [handle, updateCartItem_orders] at ho)
  | removeCartItem reqUser productId =>
    exact hinv o (by rwa [handle, removeCartItem_orders] at ho)
  | checkout reqUser =>
    simp only [handle] at ho
    rcases checkout_cases env reqUser db with ⟨user, cart, _, _, _, _, heq⟩ | ⟨_, _, hdb⟩
    · rw [heq] at ho
      rcases List.mem_append.mp ho with h | h
      · exact hinv o h
      · rw [List.mem_singleton.mp h]
        exact checkoutResultOrder_total env user db cart
    · rw [hdb] at ho; exact hinv o ho
  | placeOrder body =>
    simp only [handle] at ho
    rcases placeOrder_cases env body db with ⟨_, heq⟩ | ⟨o', _, heq, htot⟩
    · rw [heq] at ho; exact hinv o ho
    · rw [heq] at ho
      rcases List.mem_append.mp ho with h | h
      · exact hinv o h
      · rw [List.mem_singleton.mp h]; exact htot
  | updateOrderStatus orderId status =>
    simp only [handle] at ho
    rcases updateOrderStatus_cases orderId status db with h | ⟨order, s, hfind, h⟩
    · rw [h] at ho; exact hinv o ho
    · rw [h] at ho
      rcases Order.mem_of_mem_replace ho with h' | h'
      · rw [h']
        have := hinv order (Order.mem_of_findById hfind)
        simpa [totalMatchesLines] using this
      · exact hinv o h'

/-! ## The claims at concrete inputs -/

/-- C1 at `sampleDb`: the checkout of three lamps at 5/2 and one mug at 4 answers 201
with a total of 23/2 and leaves the cart of the caller empty. -/
theorem checkout_total_witness :
    (checkout sampleEnv (some sampleUser) sampleDb).res.status = 201 ∧
    ∃ o, (checkout sampleEnv (some sampleUser) sampleDb).res.order = some o ∧
      o.totalAmount = 23 / 2 ∧
      Cart.findOne (checkout sampleEnv (some sampleUser) sampleDb).db.carts 1 =
        some { _id := 20, user := 1, items := [] } := by
  obtain ⟨hs, o, ho, _, htot, hcart⟩ :=
    checkout_total sampleEnv sampleUser sampleDb sampleCart (by decide!) (by decide!)
      (by decide!) (by decide!) (by decide!)
  refine ⟨hs, o, ho, ?_, hcart⟩
  rw [htot]
  decide!

/-- C2 at `sampleDb`: the two order lines snapshot the two cart lines. -/
theorem checkout_lines_witness :
    ∃ o, (checkout sampleEnv (some sampleUser) sampleDb).res.order = some o ∧
      List.Forall₂
        (fun (i : CartItem) (l : OrderLine) =>
          l.product = i.product ∧ l.quantity = i.quantity ∧
            ∃ p, Product.findById sampleDb.products i.product = some p ∧
              l.priceAtOrder = p.price)
        sampleCart.items o.products := by
  obtain ⟨o, ho, _, _, hl⟩ :=
    checkout_lines sampleEnv sampleUser sampleDb sampleCart (by decide!) (by decide!)
  exact ⟨o, ho, hl⟩

/-- C3 at `noCartDb`: the caller has no cart, checkout answers 400 and stores no order. -/
theorem checkout_empty_witness :
    (checkout sampleEnv (some sampleUser) noCartDb).res.status = 400 ∧
    (checkout sampleEnv (some sampleUser) noCartDb).db.orders = [] :=
  have h := checkout_empty sampleEnv sampleUser noCartDb (Or.inl (by decide!))
  ⟨h.1, h.2.2.2.1⟩

/-- C4 at a cart that references a deleted product: checkout answers 500 with the
generic server-error message, not 404, and leaves the database as it is. -/
theorem checkout_deleted_product :
    (checkout sampleEnv (some sampleUser) staleDb).res =
      Response.msg 500 "Server error: Could not complete checkout." ∧
    (checkout sampleEnv (some sampleUser) staleDb).db = staleDb := by
  decide!

/-- C5 at `sampleDb`: the order collection, empty before, holds the one new order. -/
theorem checkout_adds_one_order_witness :
    ∃ o, (checkout sampleEnv (some sampleUser) sampleDb).db.orders = [] ++ [o] ∧
      o.user = 1 ∧ o.status = "Pending" := by
  obtain ⟨user, o, hu, ho, _, huser, hst⟩ :=
    checkout_adds_one_order sampleEnv (some sampleUser) sampleDb (by decide!)
  cases hu
  exact ⟨o, ho, huser, hst⟩

/-- C7 at `sampleDb`: after a checkout every stored order satisfies the invariant. -/
theorem order_invariant_witness :
    List.Forall totalMatchesLines
      (handle sampleEnv sampleDb (.checkout (some sampleUser))).db.orders :=
  List.forall_iff_forall_mem.mpr
    (order_invariant.2.2.1 sampleEnv sampleDb (.checkout (some sampleUser)) (by decide!))

/-- C8 at `sampleDb`: two mugs, two more mugs, one lamp, with three mugs in stock: the
second line finds one mug left and the request answers 400 without an order. -/
theorem placeOrder_insufficient_stock_witness :
    (placeOrder sampleEnv
      (orderBody 1 ([{ productId := 8, quantity := 2 }] ++
        { productId := 8, quantity := 2 } :: [{ productId := 7, quantity := 1 }])
        sampleAddress) sampleDb).res.status = 400 ∧
    (placeOrder sampleEnv
      (orderBody 1 ([{ productId := 8, quantity := 2 }] ++
        { productId := 8, quantity := 2 } :: [{ productId := 7, quantity := 1 }])
        sampleAddress) sampleDb).db.orders = [] :=
  have h := placeOrder_insufficient_stock sampleEnv sampleDb 1 sampleAddress
    [{ productId := 8, quantity := 2 }] [{ productId := 7, quantity := 1 }]
    { productId := 8, quantity := 2 } [lamp, { mug with stockQuantity := 1 }] 8
    [{ product := 8, quantity := 2, priceAtOrder := 4 }] { mug with stockQuantity := 1 }
    (by decide!) (by decide!) (by decide!) (by decide!)
  ⟨h.1, h.2.2.2⟩

/-- C9 at `sampleDb`: after the same request the mug has a stock of 1, the first line
being the only processed one. -/
theorem placeOrder_stock_witness :
    Product.findById
      (placeOrder sampleEnv
        (orderBody 1
          [{ productId := 8, quantity := 2 }, { productId := 8, quantity := 2 },
           { productId := 7, quantity := 1 }] sampleAddress) sampleDb).db.products 8 =
      some { mug with stockQuantity := 1 } := by
  have h := (placeOrder_stock sampleEnv sampleDb 1
    [{ productId := 8, quantity := 2 }, { productId := 8, quantity := 2 },
     { productId := 7, quantity := 1 }] sampleAddress (by decide!) (by decide!) (by decide!)).1 8
  rw [h]
  decide!

/-- C10 at `sampleDb`: no stock is negative after a request that fails at its second
line. -/
theorem placeOrder_stock_nonneg_witness :
    List.Forall (fun p => 0 ≤ p.stockQuantity)
      (placeOrder sampleEnv
        (orderBody 1
          [{ productId := 8, quantity := 2 }, { productId := 8, quantity := 2 }] sampleAddress)
        sampleDb).db.products :=
  List.forall_iff_forall_mem.mpr (placeOrder_stock_nonneg sampleEnv _ sampleDb (by decide!))

/-! ## Lemmas on the review route -/

theorem foldl_rating (reviews : List Review) (a : ℚ) :
    reviews.foldl (fun acc item => item.rating + acc) a =
      a + (reviews.map (fun r => r.rating)).sum := by
  induction reviews generalizing a with
  | nil => simp
  | cons r rest ih => simp [ih]; ring

theorem averageRating_eq_mean (reviews : List Review) :
    averageRating reviews = meanRating reviews := by
  simp [averageRating, meanRating, foldl_rating]

theorem addReview_new (user : User) (id : ObjectId) (rating : ℚ) (comment : String) (db : Db)
    (product : Product)
    (hvalid : ¬ (rating < 1 ∨ rating > 5 ∨ comment = "" ∨ jsTrim comment = ""))
    (hfind : Product.findById db.products id = some product)
    (hnew : product.reviews.find? (fun r => r.user == user._id) = none) :
    addReview (some user) id { rating := some rating, comment := some comment } db =
      if productSchema (withReview product user rating comment) = true then
        { res := Response.msg 201 "Review added successfully!",
          db := { db with
            products := Product.replace (withReview product user rating comment) db.products } }
      else { res := Response.msg 500 "Server error: Could not add review.", db := db } := by
  simp only [addReview, hvalid, if_false, hfind, hnew, Product.save, withReview, reviewOf]
  split_ifs <;> rfl

theorem addReview_duplicate (user : User) (id : ObjectId) (body : ReviewBody) (db : Db)
    (product : Product) (r : Review)
    (hfind : Product.findById db.products id = some product)
    (hdup : product.reviews.find? (fun r => r.user == user._id) = some r) :
    (addReview (some user) id body db).db = db ∧
    (addReview (some user) id body db).res.status = 400 ∧
    (∀ rating comment, body.rating = some rating → body.comment = some comment →
      ¬ (rating < 1 ∨ rating > 5 ∨ comment = "" ∨ jsTrim comment = "") →
      (addReview (some user) id body db).res =
        Response.msg 400 "Product already reviewed by this user.") := by
  obtain ⟨rating?, comment?⟩ := body
  cases rating? with
  | none => exact ⟨rfl, rfl, fun _ _ h => by cases h⟩
  | some rating =>
    cases comment? with
    | none => exact ⟨rfl, rfl, fun _ _ _ h => by cases h⟩
    | some comment =>
      by_cases hv : rating < 1 ∨ rating > 5 ∨ comment = "" ∨ jsTrim comment = ""
      · simp only [addReview, hv, if_true]
        refine ⟨by first | rfl | trivial, rfl, ?_⟩
        intro rating' comment' h1 h2 h3
        cases h1; cases h2
        exact absurd hv h3
      · simp only [addReview, hv, if_false, hfind, hdup]
        exact ⟨by first | rfl | trivial, rfl,
          by intros; first | rfl | trivial⟩

theorem addReview_201 (reqUser : Option User) (id : ObjectId) (body : ReviewBody) (db : Db)
    (h : (addReview reqUser id body db).res.status = 201) :
    ∃ user rating comment product, reqUser = some user ∧ body.rating = some rating ∧
      body.comment = some comment ∧
      ¬ (rating < 1 ∨ rating > 5 ∨ comment = "" ∨ jsTrim comment = "") ∧
      Product.findById db.products id = some product ∧
      product.reviews.find? (fun r => r.user == user._id) = none ∧
      productSchema (withReview product user rating comment) = true ∧
      (addReview reqUser id body db).db =
        { db with
          products := Product.replace (withReview product user rating comment) db.products } := by
  obtain ⟨rating?, comment?⟩ := body
  cases rating? with
  | none => simp [addReview, Response.msg] at h
  | some rating =>
    cases comment? with
    | none => simp [addReview, Response.msg] at h
    | some comment =>
      by_cases hv : rating < 1 ∨ rating > 5 ∨ comment = "" ∨ jsTrim comment = ""
      · simp [addReview, hv, Response.msg] at h
      · cases hfind : Product.findById db.products id with
        | none => simp [addReview, hv, hfind, Response.msg] at h
        | some product =>
          cases reqUser with
          | none => simp [addReview, hv, hfind, Response.msg] at h
          | some user =>
            cases hnew : product.reviews.find? (fun r => r.user == user._id) with
            | some r =>
              have := (addReview_duplicate user id { rating := some rating, comment := some comment }
                db product r hfind hnew).2.1
              rw [this] at h
              cases h
            | none =>
              rw [addReview_new user id rating comment db product hv hfind hnew] at h ⊢
              by_cases hs : productSchema (withReview product user rating comment) = true
              · rw [if_pos hs]
                exact ⟨user, rating, comment, product, rfl, rfl, rfl, hv, rfl, hnew, hs, rfl⟩
              · rw [if_neg hs] at h
                simp [Response.msg] at h

theorem reviewSchema_reviewOf (user : User) (rating : ℚ) (comment : String)
    (hvalid : ¬ (rating < 1 ∨ rating > 5 ∨ comment = "" ∨ jsTrim comment = ""))
    (hname : user.name ≠ "") :
    reviewSchema (reviewOf user rating comment) = true := by
  have h1 : 1 ≤ rating := not_lt.mp (fun h => hvalid (Or.inl h))
  have h2 : rating ≤ 5 := not_lt.mp (fun h => hvalid (Or.inr (Or.inl h)))
  have h3 : comment ≠ "" := fun h => hvalid (Or.inr (Or.inr (Or.inl h)))
  simp [reviewSchema, reviewOf, h1, h2, h3, hname]

theorem productSchema_withReview (product : Product) (user : User) (rating : ℚ)
    (comment : String) (hp : productSchema product = true)
    (hr : reviewSchema (reviewOf user rating comment) = true) :
    productSchema (withReview product user rating comment) = true := by
  simp only [productSchema, Bool.and_eq_true, decide_eq_true_eq, List.all_eq_true] at hp
  simp only [productSchema, withReview, Bool.and_eq_true, decide_eq_true_eq, List.all_eq_true,
    List.mem_append, List.mem_singleton]
  refine ⟨hp.1, ?_⟩
  rintro r (h | h)
  · exact hp.2 r h
  · rw [h]; exact hr

theorem Product.findById_replace_self (coll : List Product) (p q : Product) (id : ObjectId)
    (hq : Product.findById coll id = some q) (hid : p._id = id) :
    Product.findById (Product.replace p coll) id = some p := by
  have hq' : Product.findById coll p._id = some q := by rw [hid]; exact hq
  rw [Product.findById_replace coll p q hq' id, if_pos hid.symm]

theorem withReview_id (product : Product) (user : User) (rating : ℚ) (comment : String) :
    (withReview product user rating comment)._id = product._id := rfl

theorem find?_user_none_iff (reviews : List Review) (uid : ObjectId) :
    reviews.find? (fun r => r.user == uid) = none ↔ ∀ r ∈ reviews, r.user ≠ uid := by
  simp [List.find?_eq_none]

theorem submitAll_spec (id : ObjectId) (subs : List Submission) :
    ∀ (db : Db) (product : Product),
      Product.findById db.products id = some product →
      productSchema product = true →
      (∀ s ∈ subs, s.valid) →
      (subs.map (fun s => s.user._id)).Nodup →
      (∀ s ∈ subs, ∀ r ∈ product.reviews, r.user ≠ s.user._id) →
      (∀ st ∈ submitStatuses id db subs, st = 201) ∧
      ∃ p, Product.findById (submitAll id db subs).products id = some p ∧
        p.reviews = product.reviews ++ subs.map (fun s => reviewOf s.user s.rating s.comment) ∧
        (subs ≠ [] → p.numReviews = p.reviews.length ∧ p.rating = meanRating p.reviews) := by
  induction subs with
  | nil =>
    intro db product hfind _ _ _ _
    exact ⟨by simp [submitStatuses], product, by simpa [submitAll] using hfind, by simp,
      fun h => absurd rfl h⟩
  | cons s rest ih =>
    intro db product hfind hp hvalid hnodup hdisj
    obtain ⟨hr1, hr5, hc, hct, hname⟩ := hvalid s (List.mem_cons_self _ _)
    have hv : ¬ (s.rating < 1 ∨ s.rating > 5 ∨ s.comment = "" ∨ jsTrim s.comment = "") := by
      rintro (h | h | h | h)
      · exact absurd h (not_lt.mpr hr1)
      · exact absurd h (not_lt.mpr hr5)
      · exact hc h
      · exact hct h
    have hnew : product.reviews.find? (fun r => r.user == s.user._id) = none :=
      (find?_user_none_iff _ _).mpr (hdisj s (List.mem_cons_self _ _))
    have hschema : productSchema (withReview product s.user s.rating s.comment) = true :=
      productSchema_withReview _ _ _ _ hp (reviewSchema_reviewOf _ _ _ hv hname)
    have hstep : addReview (some s.user) id s.body db =
        { res := Response.msg 201 "Review added successfully!",
          db := { db with
            products :=
              Product.replace (withReview product s.user s.rating s.comment) db.products } } := by
      have := addReview_new s.user id s.rating s.comment db product hv hfind hnew
      rw [if_pos hschema] at this
      exact this
    have hfind' : Product.findById
        (Product.replace (withReview product s.user s.rating s.comment) db.products) id =
        some (withReview product s.user s.rating s.comment) :=
      Product.findById_replace_self _ _ product id hfind
        (by rw [withReview_id]; exact Product.findById_id hfind)
    have hnodup' : (rest.map (fun s => s.user._id)).Nodup := by
      simp only [List.map_cons, List.nodup_cons] at hnodup
      exact hnodup.2
    have hdisj' : ∀ s' ∈ rest,
        ∀ r ∈ (withReview product s.user s.rating s.comment).reviews, r.user ≠ s'.user._id := by
      intro s' hs' r hr
      simp only [withReview, List.mem_append, List.mem_singleton] at hr
      rcases hr with hr | hr
      · exact hdisj s' (List.mem_cons_of_mem _ hs') r hr
      · rw [hr]
        simp only [List.map_cons, List.nodup_cons, List.mem_map, not_exists, not_and] at hnodup
        intro heq
        exact hnodup.1 s' hs' heq.symm
    obtain ⟨hst, p, hpfind, hprev, hpagg⟩ :=
      ih { db with
           products :=
             Product.replace (withReview product s.user s.rating s.comment) db.products }
        (withReview product s.user s.rating s.comment) hfind' hschema
        (fun s' hs' => hvalid s' (List.mem_cons_of_mem _ hs')) hnodup' hdisj'
    refine ⟨?_, p, ?_, ?_, ?_⟩
    · intro st hst'
      simp only [submitStatuses, hstep, List.mem_cons] at hst'
      rcases hst' with h | h
      · rw [h]; rfl
      · exact hst st h
    · simpa [submitAll, hstep] using hpfind
    · rw [hprev]; simp [withReview]
    · intro _
      by_cases hrest : rest = []
      · subst hrest
        have hpeq : p = withReview product s.user s.rating s.comment := by
          have := hpfind
          simp only [submitAll] at this
          rw [hfind'] at this
          exact (Option.some.inj this).symm
        rw [hpeq]
        exact ⟨rfl, averageRating_eq_mean _⟩
      · exact hpagg hrest

/-! ## Lemmas on the product collection -/

theorem addReview_cases (reqUser : Option User) (id : ObjectId) (body : ReviewBody) (db : Db) :
    (addReview reqUser id body db).db = db ∨
    ∃ user rating comment product, reqUser = some user ∧
      Product.findById db.products id = some product ∧
      product.reviews.find? (fun r => r.user == user._id) = none ∧
      (addReview reqUser id body db).db =
        { db with
          products := Product.replace (withReview product user rating comment) db.products } := by
  by_cases h : (addReview reqUser id body db).res.status = 201
  · obtain ⟨user, rating, comment, product, hu, _, _, _, hfind, hnew, _, heq⟩ :=
      addReview_201 reqUser id body db h
    exact Or.inr ⟨user, rating, comment, product, hu, hfind, hnew, heq⟩
  · left
    obtain ⟨rating?, comment?⟩ := body
    cases rating? with
    | none => rfl
    | some rating =>
      cases comment? with
      | none => rfl
      | some comment =>
        by_cases hv : rating < 1 ∨ rating > 5 ∨ comment = "" ∨ jsTrim comment = ""
        · simp [addReview, hv]
        · cases hfind : Product.findById db.products id with
          | none => simp [addReview, hv, hfind]
          | some product =>
            cases reqUser with
            | none => simp [addReview, hv, hfind]
            | some user =>
              cases hnew : product.reviews.find? (fun r => r.user == user._id) with
              | some r =>
                exact (addReview_duplicate user id _ db product r hfind hnew).1
              | none =>
                rw [addReview_new user id rating comment db product hv hfind hnew] at h ⊢
                by_cases hs : productSchema (withReview product user rating comment) = true
                · rw [if_pos hs] at h
                  exact absurd rfl h
                · rw [if_neg hs]

theorem uniqueReviewers_withReview (product : Product) (user : User) (rating : ℚ)
    (comment : String) (hu : uniqueReviewers product)
    (hnew : product.reviews.find? (fun r => r.user == user._id) = none) :
    uniqueReviewers (withReview product user rating comment) := by
  have hne := (find?_user_none_iff _ _).mp hnew
  simp only [uniqueReviewers, withReview, reviewOf, List.map_append, List.map_cons, List.map_nil]
  rw [List.nodup_append]
  refine ⟨hu, List.nodup_singleton _, ?_⟩
  intro a ha hb
  simp only [List.mem_singleton] at hb
  obtain ⟨r, hr, rfl⟩ := List.mem_map.mp ha
  exact hne r hr hb

theorem applyProductBody_reviews (body : ProductBody) (product : Product) :
    (applyProductBody body product).reviews = product.reviews := by
  unfold applyProductBody
  repeat' split
  all_goals rfl

theorem updateProduct_cases (id : ObjectId) (body : ProductBody) (db : Db) :
    (updateProduct id body db).db = db ∨
    ∃ product, Product.findById db.products id = some product ∧
      (updateProduct id body db).db =
        { db with products := Product.replace (applyProductBody body product) db.products } := by
  unfold updateProduct
  cases hfind : Product.findById db.products id with
  | none => exact Or.inl rfl
  | some product =>
    dsimp only
    by_cases hs : productSchema (applyProductBody body product) = true
    · right
      exact ⟨product, rfl, by simp [Product.save, hs]⟩
    · left
      simp [Product.save, hs]

theorem createProduct_cases (env : Env) (body : ProductBody) (db : Db) :
    (createProduct env body db).db = db ∨
    ∃ p, p.reviews = [] ∧
      (createProduct env body db).db = { db with products := db.products ++ [p] } := by
  unfold createProduct
  split
  · rename_i name description price category stockQuantity vendor _ _ _ _ _ _
    split
    · exact Or.inl rfl
    · simp only [Product.insert]
      split_ifs
      · exact Or.inr ⟨_, rfl, rfl⟩
      · exact Or.inl rfl
  · exact Or.inl rfl

theorem deleteProduct_cases (id : ObjectId) (db : Db) :
    (deleteProduct id db).db = db ∨
    (deleteProduct id db).db =
      { db with products := db.products.eraseP (fun p => p._id == id) } := by
  unfold deleteProduct
  cases Product.findById db.products id with
  | none => exact Or.inl rfl
  | some product => exact Or.inr rfl

theorem placeLoop_reviews (lines : List OrderItem) :
    ∀ (cat : List Product) (t : ℚ) (acc : List OrderLine),
      ∀ p ∈ (placeLoop lines cat t acc).products, ∃ q ∈ cat, p.reviews = q.reviews := by
  induction lines with
  | nil => intro cat t acc p hp; exact ⟨p, by simpa [placeLoop, PlaceLoop.products] using hp, rfl⟩
  | cons item rest ih =>
    intro cat t acc p hp
    simp only [placeLoop] at hp
    cases hf : Product.findById cat item.productId with
    | none => exact ⟨p, by simpa [hf, PlaceLoop.products] using hp, rfl⟩
    | some product =>
      simp only [hf] at hp
      by_cases hlt : product.stockQuantity < item.quantity
      · exact ⟨p, by simpa [hlt, PlaceLoop.products] using hp, rfl⟩
      · simp only [hlt, if_false] at hp
        cases hs : Product.save
            { product with stockQuantity := product.stockQuantity - item.quantity } cat with
        | error e => exact ⟨p, by simpa [hs, PlaceLoop.products] using hp, rfl⟩
        | ok products' =>
          simp only [hs] at hp
          obtain ⟨q, hq, hpq⟩ := ih _ _ _ p hp
          have hrep : products' = Product.replace
              { product with stockQuantity := product.stockQuantity - item.quantity } cat := by
            unfold Product.save at hs
            split at hs
            · exact (Except.ok.inj hs).symm
            · cases hs
          rw [hrep] at hq
          rcases Product.mem_replace hq with h' | h'
          · exact ⟨product, Product.findById_mem hf, by rw [hpq, h']⟩
          · exact ⟨q, h', hpq⟩

theorem addToCart_products (env : Env) (reqUser : Option User) (body : CartBody) (db : Db) :
    (addToCart env reqUser body db).db.products = db.products := by
  unfold addToCart
  repeat' split
  all_goals first
    | rfl
    | (dsimp only; repeat' split; all_goals rfl)

theorem updateCartItem_products (reqUser : Option User) (productId : ObjectId)
    (quantity : Option ℚ) (db : Db) :
    (updateCartItem reqUser productId quantity db).db.products = db.products := by
  unfold updateCartItem
  repeat' split
  all_goals first
    | rfl
    | (dsimp only; repeat' split; all_goals rfl)

theorem removeCartItem_products (reqUser : Option User) (productId : ObjectId) (db : Db) :
    (removeCartItem reqUser productId db).db.products = db.products := by
  unfold removeCartItem
  cases reqUser with
  | none => rfl
  | some user =>
    dsimp only
    cases Cart.findOne db.carts user._id with
    | none => rfl
    | some cart =>
      dsimp only
      split
      · rfl
      · split <;> rfl

theorem checkout_products (env : Env) (reqUser : Option User) (db : Db) :
    (checkout env reqUser db).db.products = db.products := by
  rcases checkout_cases env reqUser db with ⟨_, _, _, _, _, _, heq⟩ | ⟨_, _, hdb⟩
  · rw [heq]
  · rw [hdb]

theorem updateOrderStatus_products (orderId : ObjectId) (status : Option String) (db : Db) :
    (updateOrderStatus orderId status db).db.products = db.products := by
  rcases updateOrderStatus_cases orderId status db with h | ⟨_, _, _, h⟩
  · rw [h]
  · rw [h]

theorem handle_uniqueReviewers (env : Env) (db : Db) (req : Request)
    (hinv : ∀ p ∈ db.products, uniqueReviewers p) :
    ∀ p ∈ (handle env db req).db.products, uniqueReviewers p := by
  intro p hp
  cases req with
  | createProduct body =>
    simp only [handle] at hp
    rcases createProduct_cases env body db with h | ⟨q, hq, h⟩
    · rw [h] at hp; exact hinv p hp
    · rw [h] at hp
      rcases List.mem_append.mp hp with h' | h'
      · exact hinv p h'
      · rw [List.mem_singleton.mp h']
        simp [uniqueReviewers, hq]
  | updateProduct id body =>
    simp only [handle] at hp
    rcases updateProduct_cases id body db with h | ⟨product, hfind, h⟩
    · rw [h] at hp; exact hinv p hp
    · rw [h] at hp
      rcases Product.mem_replace hp with h' | h'
      · rw [h']
        have := hinv product (Product.findById_mem hfind)
        simpa [uniqueReviewers, applyProductBody_reviews] using this
      · exact hinv p h'
  | deleteProduct id =>
    simp only [handle] at hp
    rcases deleteProduct_cases id db with h | h
    · rw [h] at hp; exact hinv p hp
    · rw [h] at hp
      exact hinv p (List.mem_of_mem_eraseP hp)
  | addReview reqUser id body =>
    simp only [handle] at hp
    rcases addReview_cases reqUser id body db with h | ⟨user, rating, comment, product, _, hfind,
      hnew, h⟩
    · rw [h] at hp; exact hinv p hp
    · rw [h] at hp
      rcases Product.mem_replace hp with h' | h'
      · rw [h']
        exact uniqueReviewers_withReview _ _ _ _ (hinv product (Product.findById_mem hfind)) hnew
      · exact hinv p h'
  | addToCart reqUser body => exact hinv p (by rwa [handle, addToCart_products] at hp)
  | updateCartItem reqUser productId quantity =>
    exact hinv p (by rwa [handle, updateCartItem_products] at hp)
  | removeCartItem reqUser productId =>
    exact hinv p (by rwa [handle, removeCartItem_products] at hp)
  | checkout reqUser => exact hinv p (by rwa [handle, checkout_products] at hp)
  | placeOrder body =>
    simp only [handle] at hp
    rcases placeOrder_products env body db with h | ⟨lines, t, acc, _, h⟩
    · rw [h] at hp; exact hinv p hp
    · rw [h] at hp
      obtain ⟨q, hq, hpq⟩ := placeLoop_reviews lines db.products t acc p hp
      have := hinv q hq
      simpa [uniqueReviewers, hpq] using this
  | updateOrderStatus orderId status =>
    exact hinv p (by rwa [handle, updateOrderStatus_products] at hp)

theorem runRequests_uniqueReviewers (reqs : List (Env × Request)) :
    ∀ db : Db, (∀ p ∈ db.products, uniqueReviewers p) →
      ∀ p ∈ (runRequests db reqs).products, uniqueReviewers p := by
  induction reqs with
  | nil => intro db h; simpa [runRequests] using h
  | cons r rest ih =>
    intro db h
    obtain ⟨env, req⟩ := r
    simp only [runRequests]
    exact ih _ (handle_uniqueReviewers env db req h)

/-! ## Lemmas on cart lines -/

theorem findItemIndex_none_iff (items : List CartItem) (productId : ObjectId) :
    findItemIndex items productId = none ↔ ∀ i ∈ items, i.product ≠ productId := by
  simp [findItemIndex]

theorem findItemIndex_split (items : List CartItem) (productId : ObjectId) :
    ∀ k, findItemIndex items productId = some k →
      ∃ pre line post, items = pre ++ line :: post ∧ pre.length = k ∧
        line.product = productId ∧ ∀ i ∈ pre, i.product ≠ productId := by
  induction items with
  | nil => intro k h; simp [findItemIndex] at h
  | cons a rest ih =>
    intro k h
    by_cases ha : a.product = productId
    · have hk : k = 0 := by
        simp [findItemIndex, ha] at h
        exact h.symm
      exact ⟨[], a, rest, rfl, by simp [hk], ha, by simp⟩
    · have h' : ∃ j, findItemIndex rest productId = some j ∧ k = j + 1 := by
        simp only [findItemIndex, List.findIdx?_cons, beq_iff_eq, ha, if_false,
          List.findIdx?_start_succ, Option.map_eq_some'] at h
        obtain ⟨j, hj, hjk⟩ := h
        exact ⟨j, hj, by omega⟩
      obtain ⟨j, hj, hjk⟩ := h'
      obtain ⟨pre, line, post, hitems, hlen, hline, hpre⟩ := ih j hj
      refine ⟨a :: pre, line, post, by rw [hitems]; rfl, by simp [hlen, hjk], hline, ?_⟩
      intro i hi
      rcases List.mem_cons.mp hi with h1 | h1
      · rw [h1]; exact ha
      · exact hpre i h1

theorem findItemIndex_at (pre post : List CartItem) (line : CartItem) (productId : ObjectId)
    (hline : line.product = productId) (hpre : ∀ i ∈ pre, i.product ≠ productId) :
    findItemIndex (pre ++ line :: post) productId = some pre.length := by
  induction pre with
  | nil => simp [findItemIndex, hline]
  | cons a rest ih =>
    have ha : a.product ≠ productId := hpre a (List.mem_cons_self _ _)
    have ih' := ih (fun i hi => hpre i (List.mem_cons_of_mem _ hi))
    simp only [findItemIndex] at ih'
    simp [findItemIndex, ha, ih']

theorem modify_at {α : Type} (f : α → α) (pre post : List α) (a : α) :
    (pre ++ a :: post).modify f pre.length = pre ++ f a :: post := by
  induction pre with
  | nil => rfl
  | cons b rest ih => simp [ih]

theorem eraseIdx_at {α : Type} (pre post : List α) (a : α) :
    (pre ++ a :: post).eraseIdx pre.length = pre ++ post := by
  induction pre with
  | nil => rfl
  | cons b rest ih => simp [ih]

theorem cartSchema_iff (c : Cart) : cartSchema c = true ↔ ∀ i ∈ c.items, 1 ≤ i.quantity := by
  simp [cartSchema, cartItemSchema]

/-! ## Lemmas on the cart collection -/

theorem Cart.findOne_mem {coll : List Cart} {u : ObjectId} {c : Cart}
    (h : Cart.findOne coll u = some c) : c ∈ coll := by
  unfold Cart.findOne at h
  exact List.mem_of_find?_eq_some h

theorem Cart.findOne_user {coll : List Cart} {u : ObjectId} {c : Cart}
    (h : Cart.findOne coll u = some c) : c.user = u := by
  unfold Cart.findOne at h
  have := List.find?_some h
  simpa using this

theorem Cart.mem_of_mem_replace_cart {coll : List Cart} {c x : Cart}
    (hx : x ∈ Cart.replace c coll) : x = c ∨ x ∈ coll := by
  induction coll with
  | nil => simp [Cart.replace] at hx
  | cons d ds ih =>
    unfold Cart.replace at hx
    by_cases hd : d._id = c._id
    · simp only [hd, if_true, List.mem_cons] at hx
      rcases hx with h | h
      · exact Or.inl h
      · exact Or.inr (List.mem_cons_of_mem _ h)
    · simp only [hd, if_false, List.mem_cons] at hx
      rcases hx with h | h
      · exact Or.inr (h ▸ List.mem_cons_self _ _)
      · rcases ih h with h | h
        · exact Or.inl h
        · exact Or.inr (List.mem_cons_of_mem _ h)

theorem Cart.replace_twice (coll : List Cart) (c1 c2 : Cart) (hid : c2._id = c1._id) :
    Cart.replace c2 (Cart.replace c1 coll) = Cart.replace c2 coll := by
  induction coll with
  | nil => rfl
  | cons d ds ih =>
    by_cases hd : d._id = c1._id
    · have hd2 : d._id = c2._id := by rw [hid]; exact hd
      simp [Cart.replace, hd, hd2, hid.symm]
    · have hd2 : ¬ d._id = c2._id := by rw [hid]; exact hd
      simp [Cart.replace, hd, hd2, ih]

theorem Cart.findOne_append_new (coll : List Cart) (u : ObjectId) (c : Cart)
    (hnone : Cart.findOne coll u = none) (hu : c.user = u) :
    Cart.findOne (coll ++ [c]) u = some c := by
  unfold Cart.findOne at hnone ⊢
  rw [List.find?_append, hnone]
  simp [hu]

theorem findRawIndex_canonical (items : List CartItem) (productId : IdString) (id : ObjectId)
    (hcan : productId.canonical = true) (hcast : productId.cast = some id) :
    findRawIndex items productId = findItemIndex items id := by
  unfold findRawIndex findItemIndex
  congr 1
  funext item
  simp [IdString.isStringOf, hcan, hcast, eq_comm]

theorem findRawIndex_not_canonical (items : List CartItem) (productId : IdString)
    (hcan : productId.canonical = false) : findRawIndex items productId = none := by
  unfold findRawIndex
  rw [List.findIdx?_eq_none_iff]
  intro item _
  simp [IdString.isStringOf, hcan]

/-! ## Lemmas on the cart routes -/

theorem addToCart_new (env : Env) (user : User) (productId : IdString) (id : ObjectId)
    (quantity : ℚ) (db : Db) (hcast : productId.cast = some id)
    (hq : 1 ≤ quantity) (hp : (Product.findById db.products id).isSome = true)
    (hnone : Cart.findOne db.carts user._id = none) :
    addToCart env (some user) { productId := some productId, quantity := some quantity } db =
      { res := cartResponse "Product added to cart successfully!"
          { _id := env.newId, user := user._id,
            items := [{ product := id, quantity := quantity }] },
        db := { db with
          carts := db.carts ++
            [{ _id := env.newId, user := user._id,
               items := [{ product := id, quantity := quantity }] }] } } := by
  obtain ⟨p, hp'⟩ := Option.isSome_iff_exists.mp hp
  have hg : ¬ (quantity = 0 ∨ quantity < 1) := by
    rintro (h | h)
    · rw [h] at hq; norm_num at hq
    · exact absurd h (not_lt.mpr hq)
  simp [addToCart, hg, hcast, hp', hnone, Cart.insert, cartSchema, cartItemSchema, hq]

theorem addToCart_existing (env : Env) (user : User) (productId : IdString) (id : ObjectId)
    (quantity : ℚ) (db : Db) (cart : Cart) (hcast : productId.cast = some id)
    (hq : 1 ≤ quantity) (hp : (Product.findById db.products id).isSome = true)
    (hcart : Cart.findOne db.carts user._id = some cart) :
    addToCart env (some user) { productId := some productId, quantity := some quantity } db =
      if cartSchema (addLine cart productId id quantity) = true then
        { res := cartResponse "Product added to cart successfully!"
            (addLine cart productId id quantity),
          db := { db with
            carts := Cart.replace (addLine cart productId id quantity) db.carts } }
      else { res := Response.msg 500 "Server error: Could not add product to cart.", db := db } := by
  obtain ⟨p, hp'⟩ := Option.isSome_iff_exists.mp hp
  have hg : ¬ (quantity = 0 ∨ quantity < 1) := by
    rintro (h | h)
    · rw [h] at hq; norm_num at hq
    · exact absurd h (not_lt.mpr hq)
  simp only [addToCart, hg, if_false, hcast, hp', hcart, Cart.save, addLine]
  split_ifs <;> rfl

theorem updateCartItem_found (user : User) (productId : ObjectId) (quantity : ℚ) (db : Db)
    (cart : Cart) (k : Nat) (hq : 0 ≤ quantity)
    (hcart : Cart.findOne db.carts user._id = some cart)
    (hk : findItemIndex cart.items productId = some k) :
    updateCartItem (some user) productId (some quantity) db =
      if cartSchema (setLine cart k quantity) = true then
        { res := cartResponse "Cart item quantity updated successfully!"
            (setLine cart k quantity),
          db := { db with carts := Cart.replace (setLine cart k quantity) db.carts } }
      else
        { res := Response.msg 500 "Server error: Could not update cart item quantity.",
          db := db } := by
  have hg : ¬ quantity < 0 := not_lt.mpr hq
  simp only [updateCartItem, hg, if_false, hcart, hk, Cart.save, setLine]
  split_ifs <;> rfl

theorem updateCartItem_missing (user : User) (productId : ObjectId) (quantity : ℚ) (db : Db)
    (cart : Cart) (hq : 0 ≤ quantity)
    (hcart : Cart.findOne db.carts user._id = some cart)
    (hk : findItemIndex cart.items productId = none) :
    updateCartItem (some user) productId (some quantity) db =
      { res := Response.msg 404 "Product not found in cart.", db := db } := by
  have hg : ¬ quantity < 0 := not_lt.mpr hq
  simp only [updateCartItem, hg, if_false, hcart, hk]

theorem removeCartItem_found (user : User) (productId : ObjectId) (db : Db) (cart : Cart)
    (hcart : Cart.findOne db.carts user._id = some cart) :
    removeCartItem (some user) productId db =
      if (withoutProduct cart productId).items.length = cart.items.length then
        { res := Response.msg 404 "Product not found in cart.", db := db }
      else if cartSchema (withoutProduct cart productId) = true then
        { res := cartResponse "Product removed from cart successfully!"
            (withoutProduct cart productId),
          db := { db with carts := Cart.replace (withoutProduct cart productId) db.carts } }
      else
        { res := Response.msg 500 "Server error: Could not remove product from cart.",
          db := db } := by
  simp only [removeCartItem, hcart, Cart.save, withoutProduct]
  split_ifs <;> rfl

theorem addToCart_cases (env : Env) (reqUser : Option User) (body : CartBody) (db : Db) :
    (addToCart env reqUser body db).db = db ∨
    (∃ (user : User) (id : ObjectId) (quantity : ℚ), 1 ≤ quantity ∧
      Cart.findOne db.carts user._id = none ∧
      (addToCart env reqUser body db).db =
        { db with
          carts := db.carts ++
            [{ _id := env.newId, user := user._id,
               items := [{ product := id, quantity := quantity }] }] }) ∨
    (∃ (user : User) (cart : Cart) (productId : IdString) (id : ObjectId) (quantity : ℚ),
      body.productId = some productId ∧ productId.cast = some id ∧ 1 ≤ quantity ∧
      Cart.findOne db.carts user._id = some cart ∧
      cartSchema (addLine cart productId id quantity) = true ∧
      (addToCart env reqUser body db).db =
        { db with carts := Cart.replace (addLine cart productId id quantity) db.carts }) := by
  obtain ⟨productId?, quantity?⟩ := body
  cases productId? with
  | none => exact Or.inl rfl
  | some productId =>
    cases quantity? with
    | none => exact Or.inl rfl
    | some quantity =>
      by_cases hg : quantity = 0 ∨ quantity < 1
      · left; simp [addToCart, hg]
      · have hq : 1 ≤ quantity := not_lt.mp (fun h => hg (Or.inr h))
        cases hcast : productId.cast with
        | none => left; simp [addToCart, hg, hcast]
        | some id =>
          cases hp : Product.findById db.products id with
          | none => left; simp [addToCart, hg, hcast, hp]
          | some p =>
            have hp' : (Product.findById db.products id).isSome = true := by simp [hp]
            cases reqUser with
            | none => left; simp [addToCart, hg, hcast, hp]
            | some user =>
              cases hcart : Cart.findOne db.carts user._id with
              | none =>
                right; left
                rw [addToCart_new env user productId id quantity db hcast hq hp' hcart]
                exact ⟨user, id, quantity, hq, hcart, rfl⟩
              | some cart =>
                rw [addToCart_existing env user productId id quantity db cart hcast hq hp' hcart]
                by_cases hs : cartSchema (addLine cart productId id quantity) = true
                · right; right
                  rw [if_pos hs]
                  exact ⟨user, cart, productId, id, quantity, rfl, hcast, hq, hcart, hs, rfl⟩
                · left
                  rw [if_neg hs]

theorem updateCartItem_cases (reqUser : Option User) (productId : ObjectId)
    (quantity : Option ℚ) (db : Db) :
    (updateCartItem reqUser productId quantity db).db = db ∨
    ∃ (user : User) (cart : Cart) (k : Nat) (q : ℚ), reqUser = some user ∧ quantity = some q ∧
      0 ≤ q ∧ Cart.findOne db.carts user._id = some cart ∧
      findItemIndex cart.items productId = some k ∧
      cartSchema (setLine cart k q) = true ∧
      (updateCartItem reqUser productId quantity db).db =
        { db with carts := Cart.replace (setLine cart k q) db.carts } := by
  cases quantity with
  | none => exact Or.inl rfl
  | some q =>
    by_cases hg : q < 0
    · left; simp [updateCartItem, hg]
    · have hq : 0 ≤ q := not_lt.mp hg
      cases reqUser with
      | none => left; simp [updateCartItem, hg]
      | some user =>
        cases hcart : Cart.findOne db.carts user._id with
        | none => left; simp [updateCartItem, hg, hcart]
        | some cart =>
          cases hk : findItemIndex cart.items productId with
          | none =>
            left
            rw [updateCartItem_missing user productId q db cart hq hcart hk]
          | some k =>
            rw [updateCartItem_found user productId q db cart k hq hcart hk]
            by_cases hs : cartSchema (setLine cart k q) = true
            · right
              rw [if_pos hs]
              exact ⟨user, cart, k, q, rfl, rfl, hq, hcart, hk, hs, rfl⟩
            · left
              rw [if_neg hs]

theorem removeCartItem_cases (reqUser : Option User) (productId : ObjectId) (db : Db) :
    (removeCartItem reqUser productId db).db = db ∨
    ∃ (user : User) (cart : Cart), reqUser = some user ∧
      Cart.findOne db.carts user._id = some cart ∧
      (withoutProduct cart productId).items.length ≠ cart.items.length ∧
      cartSchema (withoutProduct cart productId) = true ∧
      (removeCartItem reqUser productId db).db =
        { db with carts := Cart.replace (withoutProduct cart productId) db.carts } := by
  cases reqUser with
  | none => exact Or.inl rfl
  | some user =>
    cases hcart : Cart.findOne db.carts user._id with
    | none => left; simp [removeCartItem, hcart]
    | some cart =>
      rw [removeCartItem_found user productId db cart hcart]
      by_cases hlen : (withoutProduct cart productId).items.length = cart.items.length
      · left; rw [if_pos hlen]
      · rw [if_neg hlen]
        by_cases hs : cartSchema (withoutProduct cart productId) = true
        · right
          rw [if_pos hs]
          exact ⟨user, cart, rfl, hcart, hlen, hs, rfl⟩
        · left; rw [if_neg hs]

/-! ## Lemmas on cart well-formedness -/

theorem map_modify_eq {α β : Type} (g : α → β) (f : α → α) (hf : ∀ x, g (f x) = g x)
    (l : List α) : ∀ k, (l.modify f k).map g = l.map g := by
  induction l with
  | nil => intro k; simp
  | cons a rest ih =>
    intro k
    cases k with
    | zero => simp [hf]
    | succ k => simp [ih k]

theorem nodup_addLine (cart : Cart) (productId : IdString) (id : ObjectId) (quantity : ℚ)
    (hcan : productId.canonical = true) (hcast : productId.cast = some id)
    (h : (cart.items.map (fun i => i.product)).Nodup) :
    ((addLine cart productId id quantity).items.map (fun i => i.product)).Nodup := by
  unfold addLine
  rw [findRawIndex_canonical _ _ id hcan hcast]
  cases hk : findItemIndex cart.items id with
  | some k =>
    simp only
    rw [map_modify_eq (fun i : CartItem => i.product)
      (fun item => { item with quantity := item.quantity + quantity }) (fun _ => rfl)]
    exact h
  | none =>
    simp only [List.map_append, List.map_cons, List.map_nil]
    rw [List.nodup_append]
    refine ⟨h, List.nodup_singleton _, ?_⟩
    intro a ha hb
    simp only [List.mem_singleton] at hb
    obtain ⟨i, hi, rfl⟩ := List.mem_map.mp ha
    exact (findItemIndex_none_iff _ _).mp hk i hi hb

theorem nodup_setLine (cart : Cart) (k : Nat) (quantity : ℚ)
    (h : (cart.items.map (fun i => i.product)).Nodup) :
    ((setLine cart k quantity).items.map (fun i => i.product)).Nodup := by
  unfold setLine
  split
  · exact h.sublist ((List.eraseIdx_sublist cart.items k).map _)
  · simp only
    rw [map_modify_eq (fun i : CartItem => i.product)
      (fun item => { item with quantity := quantity }) (fun _ => rfl)]
    exact h

theorem nodup_withoutProduct (cart : Cart) (productId : ObjectId)
    (h : (cart.items.map (fun i => i.product)).Nodup) :
    ((withoutProduct cart productId).items.map (fun i => i.product)).Nodup :=
  h.sublist ((List.filter_sublist cart.items).map _)

theorem wellFormed_of (c : Cart) (hn : (c.items.map (fun i => i.product)).Nodup)
    (hs : cartSchema c = true) : wellFormedCart c :=
  ⟨hn, (cartSchema_iff c).mp hs⟩

theorem placeOrder_carts (env : Env) (body : OrderBody) (db : Db) :
    (placeOrder env body db).db.carts = db.carts := by
  unfold placeOrder
  split
  · rename_i userId products address hu hp ha
    split
    · rfl
    · split
      · rfl
      · cases placeLoop products db.products 0 [] with
        | returned res c => rfl
        | threw e c => rfl
        | done c t a =>
          dsimp only
          cases Order.insert (placedOrder env userId address t a) db.orders <;> rfl
  · rfl

theorem handle_wellFormed (env : Env) (db : Db) (req : Request)
    (hreq : req.canonical = true)
    (hinv : ∀ c ∈ db.carts, wellFormedCart c) :
    ∀ c ∈ (handle env db req).db.carts, wellFormedCart c := by
  intro c hc
  cases req with
  | createProduct body =>
    simp only [handle] at hc
    rcases createProduct_cases env body db with h | ⟨_, _, h⟩ <;>
      (rw [h] at hc; exact hinv c hc)
  | updateProduct id body =>
    simp only [handle] at hc
    rcases updateProduct_cases id body db with h | ⟨_, _, h⟩ <;>
      (rw [h] at hc; exact hinv c hc)
  | deleteProduct id =>
    simp only [handle] at hc
    rcases deleteProduct_cases id db with h | h <;> (rw [h] at hc; exact hinv c hc)
  | addReview reqUser id body =>
    simp only [handle] at hc
    rcases addReview_cases reqUser id body db with h | ⟨_, _, _, _, _, _, _, h⟩ <;>
      (rw [h] at hc; exact hinv c hc)
  | addToCart reqUser body =>
    simp only [handle] at hc
    rcases addToCart_cases env reqUser body db with h | ⟨user, id, quantity, hq, _, h⟩ |
      ⟨user, cart, productId, id, quantity, hbody, hcast, _, hcart, hs, h⟩
    · rw [h] at hc; exact hinv c hc
    · rw [h] at hc
      rcases List.mem_append.mp hc with h' | h'
      · exact hinv c h'
      · rw [List.mem_singleton.mp h']
        exact ⟨by simp, by simpa using hq⟩
    · rw [h] at hc
      rcases Cart.mem_of_mem_replace_cart hc with h' | h'
      · rw [h']
        exact wellFormed_of _
          (nodup_addLine _ _ _ _ (by simpa [Request.canonical, hbody] using hreq) hcast
            (hinv cart (Cart.findOne_mem hcart)).1) hs
      · exact hinv c h'
  | updateCartItem reqUser productId quantity =>
    simp only [handle] at hc
    rcases updateCartItem_cases reqUser productId quantity db with h |
      ⟨user, cart, k, q, _, _, _, hcart, _, hs, h⟩
    · rw [h] at hc; exact hinv c hc
    · rw [h] at hc
      rcases Cart.mem_of_mem_replace_cart hc with h' | h'
      · rw [h']
        exact wellFormed_of _ (nodup_setLine _ _ _ (hinv cart (Cart.findOne_mem hcart)).1) hs
      · exact hinv c h'
  | removeCartItem reqUser productId =>
    simp only [handle] at hc
    rcases removeCartItem_cases reqUser productId db with h |
      ⟨user, cart, _, hcart, _, hs, h⟩
    · rw [h] at hc; exact hinv c hc
    · rw [h] at hc
      rcases Cart.mem_of_mem_replace_cart hc with h' | h'
      · rw [h']
        exact wellFormed_of _
          (nodup_withoutProduct _ _ (hinv cart (Cart.findOne_mem hcart)).1) hs
      · exact hinv c h'
  | checkout reqUser =>
    simp only [handle] at hc
    rcases checkout_cases env reqUser db with ⟨user, cart, _, _, _, _, heq⟩ | ⟨_, _, hdb⟩
    · rw [heq] at hc
      rcases Cart.mem_of_mem_replace_cart hc with h' | h'
      · rw [h']
        exact ⟨by simp, by simp⟩
      · exact hinv c h'
    · rw [hdb] at hc; exact hinv c hc
  | placeOrder body => exact hinv c (by rwa [handle, placeOrder_carts] at hc)
  | updateOrderStatus orderId status =>
    simp only [handle] at hc
    rcases updateOrderStatus_cases orderId status db with h | ⟨_, _, _, h⟩ <;>
      (rw [h] at hc; exact hinv c hc)

theorem runRequests_wellFormed (reqs : List (Env × Request)) :
    ∀ db : Db, (∀ r ∈ reqs, r.2.canonical = true) → (∀ c ∈ db.carts, wellFormedCart c) →
      ∀ c ∈ (runRequests db reqs).carts, wellFormedCart c := by
  induction reqs with
  | nil => intro db _ h; simpa [runRequests] using h
  | cons r rest ih =>
    intro db hreqs h
    obtain ⟨env, req⟩ := r
    simp only [runRequests]
    exact ih _ (fun r hr => hreqs r (List.mem_cons_of_mem _ hr))
      (handle_wellFormed env db req (hreqs (env, req) (List.mem_cons_self _ _)) h)

/-- Every quantity of every stored cart is at least 1. -/
theorem handle_quantities (env : Env) (db : Db) (req : Request)
    (hinv : ∀ c ∈ db.carts, ∀ i ∈ c.items, 1 ≤ i.quantity) :
    ∀ c ∈ (handle env db req).db.carts, ∀ i ∈ c.items, 1 ≤ i.quantity := by
  intro c hc
  cases req with
  | createProduct body =>
    simp only [handle] at hc
    rcases createProduct_cases env body db with h | ⟨_, _, h⟩ <;>
      (rw [h] at hc; exact hinv c hc)
  | updateProduct id body =>
    simp only [handle] at hc
    rcases updateProduct_cases id body db with h | ⟨_, _, h⟩ <;>
      (rw [h] at hc; exact hinv c hc)
  | deleteProduct id =>
    simp only [handle] at hc
    rcases deleteProduct_cases id db with h | h <;> (rw [h] at hc; exact hinv c hc)
  | addReview reqUser id body =>
    simp only [handle] at hc
    rcases addReview_cases reqUser id body db with h | ⟨_, _, _, _, _, _, _, h⟩ <;>
      (rw [h] at hc; exact hinv c hc)
  | addToCart reqUser body =>
    simp only [handle] at hc
    rcases addToCart_cases env reqUser body db with h | ⟨user, id, quantity, hq, _, h⟩ |
      ⟨user, cart, productId, id, quantity, _, _, _, hcart, hs, h⟩
    · rw [h] at hc; exact hinv c hc
    · rw [h] at hc
      rcases List.mem_append.mp hc with h' | h'
      · exact hinv c h'
      · rw [List.mem_singleton.mp h']
        simpa using hq
    · rw [h] at hc
      rcases Cart.mem_of_mem_replace_cart hc with h' | h'
      · rw [h']; exact (cartSchema_iff _).mp hs
      · exact hinv c h'
  | updateCartItem reqUser productId quantity =>
    simp only [handle] at hc
    rcases updateCartItem_cases reqUser productId quantity db with h |
      ⟨user, cart, k, q, _, _, _, hcart, _, hs, h⟩
    · rw [h] at hc; exact hinv c hc
    · rw [h] at hc
      rcases Cart.mem_of_mem_replace_cart hc with h' | h'
      · rw [h']; exact (cartSchema_iff _).mp hs
      · exact hinv c h'
  | removeCartItem reqUser productId =>
    simp only [handle] at hc
    rcases removeCartItem_cases reqUser productId db with h |
      ⟨user, cart, _, hcart, _, hs, h⟩
    · rw [h] at hc; exact hinv c hc
    · rw [h] at hc
      rcases Cart.mem_of_mem_replace_cart hc with h' | h'
      · rw [h']; exact (cartSchema_iff _).mp hs
      · exact hinv c h'
  | checkout reqUser =>
    simp only [handle] at hc
    rcases checkout_cases env reqUser db with ⟨user, cart, _, _, _, _, heq⟩ | ⟨_, _, hdb⟩
    · rw [heq] at hc
      rcases Cart.mem_of_mem_replace_cart hc with h' | h'
      · rw [h']; simp
      · exact hinv c h'
    · rw [hdb] at hc; exact hinv c hc
  | placeOrder body => exact hinv c (by rwa [handle, placeOrder_carts] at hc)
  | updateOrderStatus orderId status =>
    simp only [handle] at hc
    rcases updateOrderStatus_cases orderId status db with h | ⟨_, _, _, h⟩ <;>
      (rw [h] at hc; exact hinv c hc)

theorem runRequests_quantities (reqs : List (Env × Request)) :
    ∀ db : Db, (∀ c ∈ db.carts, ∀ i ∈ c.items, 1 ≤ i.quantity) →
      ∀ c ∈ (runRequests db reqs).carts, ∀ i ∈ c.items, 1 ≤ i.quantity := by
  induction reqs with
  | nil => intro db h; simpa [runRequests] using h
  | cons r rest ih =>
    intro db h
    obtain ⟨env, req⟩ := r
    simp only [runRequests]
    exact ih _ (handle_quantities env db req h)

/-! ## Lemmas on the lines of the caller's cart -/

theorem cartItemsOf_of_findOne {carts : List Cart} {u : ObjectId} {c : Cart}
    (h : Cart.findOne carts u = some c) : cartItemsOf carts u = c.items := by
  simp [cartItemsOf, h]

theorem not_mem_post_of_nodup (pre post : List CartItem) (line : CartItem)
    (h : ((pre ++ line :: post).map (fun i => i.product)).Nodup) :
    ∀ i ∈ post, i.product ≠ line.product := by
  intro i hi heq
  simp only [List.map_append, List.map_cons] at h
  have h2 := (List.nodup_middle.mp h)
  rw [List.nodup_cons] at h2
  apply h2.1
  rw [List.mem_append]
  right
  exact List.mem_map.mpr ⟨i, hi, heq⟩

theorem filter_product_split (pre post : List CartItem) (line : CartItem)
    (productId : ObjectId) (hline : line.product = productId)
    (hpre : ∀ i ∈ pre, i.product ≠ productId) (hpost : ∀ i ∈ post, i.product ≠ productId) :
    (pre ++ line :: post).filter (fun i => i.product != productId) = pre ++ post := by
  have h1 : pre.filter (fun i => i.product != productId) = pre :=
    List.filter_eq_self.mpr (fun i hi => by simpa using hpre i hi)
  have h2 : post.filter (fun i => i.product != productId) = post :=
    List.filter_eq_self.mpr (fun i hi => by simpa using hpost i hi)
  rw [List.filter_append, List.filter_cons, h1, h2]
  simp [hline]

theorem map_overwrite_split (pre post : List CartItem) (line : CartItem)
    (productId : ObjectId) (q : ℚ) (hline : line.product = productId)
    (hpre : ∀ i ∈ pre, i.product ≠ productId) (hpost : ∀ i ∈ post, i.product ≠ productId) :
    (pre ++ line :: post).map
        (fun i => if i.product = productId then { i with quantity := q } else i) =
      pre ++ { line with quantity := q } :: post := by
  have h1 : pre.map (fun i => if i.product = productId then { i with quantity := q } else i) =
      pre := by
    conv_rhs => rw [← List.map_id pre]
    apply List.map_congr_left
    intro i hi
    simp [hpre i hi]
  have h2 : post.map (fun i => if i.product = productId then { i with quantity := q } else i) =
      post := by
    conv_rhs => rw [← List.map_id post]
    apply List.map_congr_left
    intro i hi
    simp [hpost i hi]
  rw [List.map_append, List.map_cons, h1, h2]
  simp [hline]

theorem addToCart_create (env : Env) (user : User) (productId : IdString) (id : ObjectId)
    (quantity : ℚ) (db : Db) (hcast : productId.cast = some id) (hq : 1 ≤ quantity)
    (hp : (Product.findById db.products id).isSome = true)
    (hnone : Cart.findOne db.carts user._id = none) :
    (addToCart env (some user) { productId := some productId, quantity := some quantity }
      db).res.status = 200 ∧
    ∃ c, Cart.findOne
        (addToCart env (some user) { productId := some productId, quantity := some quantity }
          db).db.carts user._id = some c ∧
      c.items = [{ product := id, quantity := quantity }] := by
  rw [addToCart_new env user productId id quantity db hcast hq hp hnone]
  exact ⟨rfl, _, Cart.findOne_append_new _ _ _ hnone rfl, rfl⟩

/-- A request whose string is not found among the printed ids of the lines pushes a
new last line. -/
theorem addToCart_append (env : Env) (user : User) (productId : IdString) (id : ObjectId)
    (quantity : ℚ) (db : Db) (cart : Cart) (hcast : productId.cast = some id)
    (hq : 1 ≤ quantity) (hp : (Product.findById db.products id).isSome = true)
    (hcart : Cart.findOne db.carts user._id = some cart)
    (hk : findRawIndex cart.items productId = none)
    (hv : ∀ i ∈ cart.items, 1 ≤ i.quantity) :
    (addToCart env (some user) { productId := some productId, quantity := some quantity }
      db).res.status = 200 ∧
    ∃ c, Cart.findOne
        (addToCart env (some user) { productId := some productId, quantity := some quantity }
          db).db.carts user._id = some c ∧
      c.items = cart.items ++ [{ product := id, quantity := quantity }] := by
  have hline : addLine cart productId id quantity =
      { cart with items := cart.items ++ [{ product := id, quantity := quantity }] } := by
    simp [addLine, hk]
  have hs : cartSchema (addLine cart productId id quantity) = true := by
    rw [hline, cartSchema_iff]
    intro i hi
    rcases List.mem_append.mp hi with h | h
    · exact hv i h
    · rw [List.mem_singleton.mp h]; exact hq
  rw [addToCart_existing env user productId id quantity db cart hcast hq hp hcart, if_pos hs]
  refine ⟨rfl, addLine cart productId id quantity, ?_, by rw [hline]⟩
  have hu : cart.user = user._id := Cart.findOne_user hcart
  exact Cart.findOne_replace _ hcart (by rw [hline]) (by rw [hline]; exact hu)

theorem addToCart_merge_last (env : Env) (user : User) (productId : IdString)
    (id : ObjectId) (quantity : ℚ)
    (db : Db) (cart : Cart) (pre : List CartItem) (q0 : ℚ)
    (hcan : productId.canonical = true) (hcast : productId.cast = some id)
    (hq : 1 ≤ quantity)
    (hp : (Product.findById db.products id).isSome = true)
    (hcart : Cart.findOne db.carts user._id = some cart)
    (hitems : cart.items = pre ++ [{ product := id, quantity := q0 }])
    (hpre : ∀ i ∈ pre, i.product ≠ id)
    (hv : ∀ i ∈ cart.items, 1 ≤ i.quantity) :
    (addToCart env (some user) { productId := some productId, quantity := some quantity }
      db).res.status = 200 ∧
    ∃ c, Cart.findOne
        (addToCart env (some user) { productId := some productId, quantity := some quantity }
          db).db.carts user._id = some c ∧
      c.items = pre ++ [{ product := id, quantity := q0 + quantity }] := by
  have hk : findRawIndex cart.items productId = some pre.length := by
    rw [findRawIndex_canonical _ _ id hcan hcast, hitems]
    exact findItemIndex_at pre [] _ id rfl hpre
  have hline : addLine cart productId id quantity =
      { cart with items := pre ++ [{ product := id, quantity := q0 + quantity }] } := by
    simp only [addLine, hk]
    rw [hitems, modify_at]
  have hq0 : 1 ≤ q0 := by
    have := hv { product := id, quantity := q0 } (by rw [hitems]; simp)
    exact this
  have hs : cartSchema (addLine cart productId id quantity) = true := by
    rw [hline, cartSchema_iff]
    intro i hi
    rcases List.mem_append.mp hi with h | h
    · exact hv i (by rw [hitems]; exact List.mem_append_left _ h)
    · rw [List.mem_singleton.mp h]
      show 1 ≤ q0 + quantity
      linarith
  rw [addToCart_existing env user productId id quantity db cart hcast hq hp hcart, if_pos hs]
  refine ⟨rfl, addLine cart productId id quantity, ?_, by rw [hline]⟩
  have hu : cart.user = user._id := Cart.findOne_user hcart
  exact Cart.findOne_replace _ hcart (by rw [hline]) (by rw [hline]; exact hu)

/-- The first add of a product that has no line in the caller's cart, in any spelling
of its id that casts: status 200 and a new last line. -/
theorem addToCart_first (env : Env) (user : User) (db : Db) (productId : IdString)
    (id : ObjectId) (q : ℚ) (hcast : productId.cast = some id) (hq : 1 ≤ q)
    (hp : (Product.findById db.products id).isSome = true)
    (hno : ∀ i ∈ cartItemsOf db.carts user._id, i.product ≠ id)
    (hv : ∀ i ∈ cartItemsOf db.carts user._id, 1 ≤ i.quantity) :
    (addToCart env (some user) { productId := some productId, quantity := some q }
      db).res.status = 200 ∧
    ∃ c, Cart.findOne (addToCart env (some user)
        { productId := some productId, quantity := some q } db).db.carts user._id = some c ∧
      c.items = cartItemsOf db.carts user._id ++ [{ product := id, quantity := q }] := by
  cases hcart : Cart.findOne db.carts user._id with
  | none =>
    have := addToCart_create env user productId id q db hcast hq hp hcart
    simpa [cartItemsOf, hcart] using this
  | some cart =>
    rw [cartItemsOf_of_findOne hcart] at hno hv ⊢
    have hk : findRawIndex cart.items productId = none := by
      unfold findRawIndex
      rw [List.findIdx?_eq_none_iff]
      intro item hitem
      have hne : (some id == some item.product) = false := by
        simpa using (hno item hitem).symm
      simp only [IdString.isStringOf, hcast, hne, Bool.and_false]
    exact addToCart_append env user productId id q db cart hcast hq hp hcart hk hv

/-- Merge semantics for ids spelled as `ObjectId.toString()` prints them: the first add
leaves the caller's lines followed by a new last line with quantity `q1`, the second
add leaves the same lines with that last line at quantity `q1 + q2`. -/
theorem addToCart_merge_canonical (env1 env2 : Env) (user : User) (db : Db)
    (productId : ObjectId) (q1 q2 : ℚ) (h1 : 1 ≤ q1) (h2 : 1 ≤ q2)
    (hp : (Product.findById db.products productId).isSome = true)
    (hno : ∀ i ∈ cartItemsOf db.carts user._id, i.product ≠ productId)
    (hv : ∀ i ∈ cartItemsOf db.carts user._id, 1 ≤ i.quantity) :
    (addToCart env1 (some user)
      { productId := some (IdString.ofId productId), quantity := some q1 } db).res.status = 200 ∧
    cartItemsOf
        (addToCart env1 (some user)
          { productId := some (IdString.ofId productId), quantity := some q1 }
          db).db.carts user._id =
      cartItemsOf db.carts user._id ++ [{ product := productId, quantity := q1 }] ∧
    (addToCart env2 (some user)
      { productId := some (IdString.ofId productId), quantity := some q2 }
      (addToCart env1 (some user)
        { productId := some (IdString.ofId productId), quantity := some q1 }
        db).db).res.status = 200 ∧
    cartItemsOf
        (addToCart env2 (some user)
          { productId := some (IdString.ofId productId), quantity := some q2 }
          (addToCart env1 (some user)
            { productId := some (IdString.ofId productId), quantity := some q1 }
            db).db).db.carts user._id =
      cartItemsOf db.carts user._id ++ [{ product := productId, quantity := q1 + q2 }] := by
  obtain ⟨hs1, c1, hc1, hitems1⟩ := addToCart_first env1 user db (IdString.ofId productId)
    productId q1 rfl h1 hp hno hv
  have hp1 : (Product.findById (addToCart env1 (some user)
      { productId := some (IdString.ofId productId), quantity := some q1 }
      db).db.products productId).isSome = true := by
    rw [addToCart_products]; exact hp
  have hv1 : ∀ i ∈ c1.items, 1 ≤ i.quantity := by
    intro i hi
    rw [hitems1] at hi
    rcases List.mem_append.mp hi with h | h
    · exact hv i h
    · rw [List.mem_singleton.mp h]; exact h1
  obtain ⟨hs2, c2, hc2, hitems2⟩ := addToCart_merge_last env2 user (IdString.ofId productId)
    productId q2 _ c1 (cartItemsOf db.carts user._id) q1 rfl rfl h2 hp1 hc1 hitems1 hno hv1
  exact ⟨hs1, by rw [cartItemsOf_of_findOne hc1, hitems1], hs2,
    by rw [cartItemsOf_of_findOne hc2, hitems2]⟩

/-- No merge for an id that is not spelled as `ObjectId.toString()` prints it: each
add pushes a line of its own, so two adds leave two lines for the product. -/
theorem addToCart_twice_raw (env1 env2 : Env) (user : User) (db : Db)
    (productId : IdString) (id : ObjectId) (q1 q2 : ℚ)
    (hcan : productId.canonical = false) (hcast : productId.cast = some id)
    (h1 : 1 ≤ q1) (h2 : 1 ≤ q2)
    (hp : (Product.findById db.products id).isSome = true)
    (hv : ∀ i ∈ cartItemsOf db.carts user._id, 1 ≤ i.quantity) :
    (addToCart env2 (some user) { productId := some productId, quantity := some q2 }
      (addToCart env1 (some user) { productId := some productId, quantity := some q1 }
        db).db).res.status = 200 ∧
    cartItemsOf
        (addToCart env2 (some user) { productId := some productId, quantity := some q2 }
          (addToCart env1 (some user) { productId := some productId, quantity := some q1 }
            db).db).db.carts user._id =
      cartItemsOf db.carts user._id ++
        [{ product := id, quantity := q1 }, { product := id, quantity := q2 }] := by
  have hfirst : ∃ c, Cart.findOne (addToCart env1 (some user)
        { productId := some productId, quantity := some q1 } db).db.carts user._id = some c ∧
      c.items = cartItemsOf db.carts user._id ++ [{ product := id, quantity := q1 }] := by
    cases hcart : Cart.findOne db.carts user._id with
    | none =>
      have := (addToCart_create env1 user productId id q1 db hcast h1 hp hcart).2
      simpa [cartItemsOf, hcart] using this
    | some cart =>
      rw [cartItemsOf_of_findOne hcart] at hv ⊢
      exact (addToCart_append env1 user productId id q1 db cart hcast h1 hp hcart
        (findRawIndex_not_canonical _ _ hcan) hv).2
  obtain ⟨c1, hc1, hitems1⟩ := hfirst
  have hp1 : (Product.findById (addToCart env1 (some user)
      { productId := some productId, quantity := some q1 } db).db.products id).isSome =
      true := by
    rw [addToCart_products]; exact hp
  have hv1 : ∀ i ∈ c1.items, 1 ≤ i.quantity := by
    intro i hi
    rw [hitems1] at hi
    rcases List.mem_append.mp hi with h | h
    · exact hv i h
    · rw [List.mem_singleton.mp h]; exact h1
  obtain ⟨hs2, c2, hc2, hitems2⟩ := addToCart_append env2 user productId id q2 _ c1 hcast h2
    hp1 hc1 (findRawIndex_not_canonical _ _ hcan) hv1
  refine ⟨hs2, ?_⟩
  rw [cartItemsOf_of_findOne hc2, hitems2, hitems1, List.append_assoc]
  rfl

/-! ## Claims on the review route -/

/-- C11: when a review submission answers 201, the stored product is the product
found before (whatever its `rating` and `numReviews` were) with the review of the
caller, with the caller's id and name and the submitted rating and comment, appended
to its reviews, `numReviews` equal to the length of the new list and `rating` equal to
the arithmetic mean of the ratings of the new list. -/
theorem addReview_recomputes (reqUser : Option User) (id : ObjectId) (body : ReviewBody)
    (db : Db) (h201 : (addReview reqUser id body db).res.status = 201) :
    ∃ user rating comment product p,
      reqUser = some user ∧ body.rating = some rating ∧ body.comment = some comment ∧
      Product.findById db.products id = some product ∧
      Product.findById (addReview reqUser id body db).db.products id = some p ∧
      p.reviews = product.reviews ++
        [{ user := user._id, name := user.name, rating := rating, comment := comment }] ∧
      p.numReviews = p.reviews.length ∧
      p.rating = (p.reviews.map (fun r => r.rating)).sum / p.reviews.length := by
  obtain ⟨user, rating, comment, product, hu, hr, hc, _, hfind, _, _, heq⟩ :=
    addReview_201 reqUser id body db h201
  refine ⟨user, rating, comment, product, withReview product user rating comment, hu, hr, hc,
    hfind, ?_, rfl, rfl, ?_⟩
  · rw [heq]
    exact Product.findById_replace_self _ _ product id hfind
      (by rw [withReview_id]; exact Product.findById_id hfind)
  · exact averageRating_eq_mean _

/-- C12, amended: for a product of the catalog that is valid for its schema and has no
review, and N submissions with a rating in 1..5 and a comment that is not empty after
`trim()` has removed its leading and trailing whitespace, made one after another by N
users with pairwise distinct ids (and a name), every submission answers 201 and
afterwards the product holds the N reviews in order; for N at least 1, `numReviews` is
N and `rating` is the sum of the N ratings over N. -/
theorem submitAll_mean (id : ObjectId) (db : Db) (product : Product) (subs : List Submission)
    (hfind : Product.findById db.products id = some product)
    (hschema : productSchema product = true)
    (hempty : product.reviews = [])
    (hvalid : ∀ s ∈ subs, s.valid)
    (hdistinct : (subs.map (fun s => s.user._id)).Nodup) :
    submitStatuses id db subs = List.replicate subs.length 201 ∧
    ∃ p, Product.findById (submitAll id db subs).products id = some p ∧
      p.reviews = subs.map (fun s => reviewOf s.user s.rating s.comment) ∧
      (subs ≠ [] → p.numReviews = subs.length ∧
        p.rating = (subs.map (fun s => s.rating)).sum / subs.length) := by
  obtain ⟨hst, p, hp, hrev, hagg⟩ := submitAll_spec id subs db product hfind hschema hvalid
    hdistinct (by intro s _ r hr; rw [hempty] at hr; cases hr)
  have hlen : ∀ (d : Db) (l : List Submission), (submitStatuses id d l).length = l.length := by
    intro d l
    induction l generalizing d with
    | nil => rfl
    | cons s rest ih => simp [submitStatuses, ih]
  refine ⟨?_, p, hp, by rw [hrev, hempty]; rfl, ?_⟩
  · rw [List.eq_replicate_iff]
    exact ⟨hlen db subs, hst⟩
  · intro hne
    obtain ⟨hn, hr⟩ := hagg hne
    have hrev' : p.reviews = subs.map (fun s => reviewOf s.user s.rating s.comment) := by
      rw [hrev, hempty]; rfl
    rw [hn, hr, meanRating, hrev']
    simp [List.map_map, Function.comp_def, reviewOf]

/-- C13: a review submission by a user who already has a review on the product
answers 400 and leaves the database as it is, with the already-reviewed message when
the body passes the input checks; and every write request, hence every sequence of
them, keeps the reviewers of each product pairwise distinct. -/
theorem duplicate_review_rejected :
    (∀ (user : User) (id : ObjectId) (body : ReviewBody) (db : Db) (product : Product)
      (r : Review),
      Product.findById db.products id = some product → r ∈ product.reviews →
      r.user = user._id →
        (addReview (some user) id body db).res.status = 400 ∧
        (addReview (some user) id body db).db = db ∧
        (∀ rating comment, body.rating = some rating → body.comment = some comment →
          ¬ (rating < 1 ∨ rating > 5 ∨ comment = "" ∨ jsTrim comment = "") →
          (addReview (some user) id body db).res =
            Response.msg 400 "Product already reviewed by this user.")) ∧
    (∀ (env : Env) (db : Db) (req : Request),
      (∀ p ∈ db.products, uniqueReviewers p) →
        ∀ p ∈ (handle env db req).db.products, uniqueReviewers p) ∧
    (∀ (db : Db) (reqs : List (Env × Request)),
      (∀ p ∈ db.products, uniqueReviewers p) →
        ∀ p ∈ (runRequests db reqs).products, uniqueReviewers p) := by
  refine ⟨?_, handle_uniqueReviewers, fun db reqs => runRequests_uniqueReviewers reqs db⟩
  intro user id body db product r hfind hr hru
  have hsome : (product.reviews.find? (fun r => r.user == user._id)).isSome = true := by
    rw [List.find?_isSome]
    exact ⟨r, hr, by simp [hru]⟩
  obtain ⟨r', hr'⟩ := Option.isSome_iff_exists.mp hsome
  obtain ⟨h1, h2, h3⟩ := addReview_duplicate user id body db product r' hfind hr'
  exact ⟨h2, h1, h3⟩

/-! ## Claims on conflict responses -/

/-- C14 as the code has it: a signup whose email is already registered answers 409,
and a review submission that passes the input checks, by a user who already has a
review on the product, answers 400. -/
theorem conflict_statuses (env : Env) (crypto : Crypto) (db : Db)
    (name email password : String) (location : Option String) (existing : User)
    (user : User) (id : ObjectId) (rating : ℚ) (comment : String) (product : Product)
    (r : Review)
    (hbody : name ≠ "" ∧ email ≠ "" ∧ password ≠ "")
    (hregistered : User.findOne db.users email = some existing)
    (hvalid : ¬ (rating < 1 ∨ rating > 5 ∨ comment = "" ∨ jsTrim comment = ""))
    (hfind : Product.findById db.products id = some product)
    (hr : r ∈ product.reviews) (hru : r.user = user._id) :
    (signup env crypto
      { name := some name, email := some email, password := some password,
        location := location } db).res.status = 409 ∧
    (signup env crypto
      { name := some name, email := some email, password := some password,
        location := location } db).db = db ∧
    (addReview (some user) id { rating := some rating, comment := some comment } db).res =
      Response.msg 400 "Product already reviewed by this user." ∧
    (addReview (some user) id { rating := some rating, comment := some comment } db).db = db := by
  obtain ⟨h1, h2, h3⟩ := hbody
  have hsome : (product.reviews.find? (fun r => r.user == user._id)).isSome = true := by
    rw [List.find?_isSome]
    exact ⟨r, hr, by simp [hru]⟩
  obtain ⟨r', hr'⟩ := Option.isSome_iff_exists.mp hsome
  obtain ⟨hdb, _, hres⟩ := addReview_duplicate user id
    { rating := some rating, comment := some comment } db product r' hfind hr'
  refine ⟨?_, ?_, hres rating comment rfl rfl hvalid, hdb⟩
  · simp [signup, h1, h2, h3, hregistered, AuthResponse.msg]
  · simp [signup, h1, h2, h3, hregistered]

/-! ## Claims on the cart routes -/

/-- C15, the defect: at `twoUserDb`, where `sampleUser` has no cart, the user adds 3
lamps and then 2 lamps, both times with the lamp's id spelled with upper-case
hexadecimal digits.  Both requests find the lamp and answer 200, and the cart then
holds two lines for the lamp, one of 3 and one of 2, where merge semantics asks for
one line of 5. -/
theorem addToCart_twice_two_lines :
    (Product.findById twoUserDb.products 7).isSome = true ∧
    cartItemsOf twoUserDb.carts 1 = [] ∧
    (addToCart sampleEnv (some sampleUser)
      { productId := some lampUpperCase, quantity := some 3 } twoUserDb).res.status = 200 ∧
    (addToCart sampleEnv (some sampleUser)
      { productId := some lampUpperCase, quantity := some 2 }
      (addToCart sampleEnv (some sampleUser)
        { productId := some lampUpperCase, quantity := some 3 } twoUserDb).db).res.status =
      200 ∧
    cartItemsOf
        (addToCart sampleEnv (some sampleUser)
          { productId := some lampUpperCase, quantity := some 2 }
          (addToCart sampleEnv (some sampleUser)
            { productId := some lampUpperCase, quantity := some 3 }
            twoUserDb).db).db.carts 1 =
      [{ product := 7, quantity := 3 }, { product := 7, quantity := 2 }] := by
  decide!

/-- C16, the defect: starting from `twoUserDb`, which has no cart, `sampleUser` adds 3
lamps with the lamp's id as `toString()` prints it and then 2 lamps with the id
spelled with upper-case hexadecimal digits.  Both requests answer 200 and the cart of
the user then holds the lamp's id twice, so it is not well formed. -/
theorem cart_duplicate_line :
    twoUserDb.carts = [] ∧
    (handle sampleEnv twoUserDb
      (.addToCart (some sampleUser)
        { productId := some (IdString.ofId 7), quantity := some 3 })).res.status = 200 ∧
    (handle sampleEnv
      (handle sampleEnv twoUserDb
        (.addToCart (some sampleUser)
          { productId := some (IdString.ofId 7), quantity := some 3 })).db
      (.addToCart (some sampleUser)
        { productId := some lampUpperCase, quantity := some 2 })).res.status = 200 ∧
    Cart.findOne
        (runRequests twoUserDb
          [(sampleEnv, .addToCart (some sampleUser)
              { productId := some (IdString.ofId 7), quantity := some 3 }),
           (sampleEnv, .addToCart (some sampleUser)
              { productId := some lampUpperCase, quantity := some 2 })]).carts 1 =
      some { _id := 100, user := 1,
             items := [{ product := 7, quantity := 3 }, { product := 7, quantity := 2 }] } ∧
    ¬ wellFormedCart
      { _id := 100, user := 1,
        items := [{ product := 7, quantity := 3 }, { product := 7, quantity := 2 }] } := by
  decide!

/-- C17: for a caller whose cart is well formed and has a line for the product,
setting the quantity of the product to 0 answers 200 and stores the cart without that
line: the lines before it followed by the lines after it, which are the lines of the
cart for the other products. -/
theorem updateCartItem_zero (user : User) (db : Db) (cart : Cart) (productId : ObjectId)
    (hcart : Cart.findOne db.carts user._id = some cart)
    (hwf : wellFormedCart cart)
    (hin : ∃ i ∈ cart.items, i.product = productId) :
    (updateCartItem (some user) productId (some 0) db).res.status = 200 ∧
    Cart.findOne (updateCartItem (some user) productId (some 0) db).db.carts user._id =
      some { cart with items := cart.items.filter (fun i => i.product != productId) } ∧
    ∃ pre line post, cart.items = pre ++ line :: post ∧ line.product = productId ∧
      cart.items.filter (fun i => i.product != productId) = pre ++ post := by
  obtain ⟨hnodup, hquant⟩ := hwf
  have hsome : ∃ k, findItemIndex cart.items productId = some k := by
    cases hk : findItemIndex cart.items productId with
    | some k => exact ⟨k, rfl⟩
    | none =>
      obtain ⟨i, hi, hip⟩ := hin
      exact absurd hip ((findItemIndex_none_iff _ _).mp hk i hi)
  obtain ⟨k, hk⟩ := hsome
  obtain ⟨pre, line, post, hitems, hlen, hline, hpre⟩ := findItemIndex_split _ _ k hk
  have hpost : ∀ i ∈ post, i.product ≠ productId := by
    rw [← hline]
    exact not_mem_post_of_nodup pre post line (by rw [← hitems]; exact hnodup)
  have hfilter : cart.items.filter (fun i => i.product != productId) = pre ++ post := by
    rw [hitems]; exact filter_product_split pre post line productId hline hpre hpost
  have hset : setLine cart k 0 =
      { cart with items := cart.items.filter (fun i => i.product != productId) } := by
    simp only [setLine, if_true]
    rw [hfilter, hitems, ← hlen, eraseIdx_at]
  have hs : cartSchema (setLine cart k 0) = true := by
    rw [hset, cartSchema_iff]
    intro i hi
    exact hquant i (List.mem_of_mem_filter hi)
  have hu : cart.user = user._id := Cart.findOne_user hcart
  rw [updateCartItem_found user productId 0 db cart k (le_refl 0) hcart hk, if_pos hs, hset]
  exact ⟨rfl, Cart.findOne_replace _ hcart rfl hu, pre, line, post, hitems, hline, hfilter⟩
/-- C18, amended: for a caller whose cart is well formed, setting a quantity `q` of at
least 1 on a product of the cart answers 200 and stores the cart with that line's
quantity overwritten by `q` and every other line as it was; and a quantity of at least
0 on a product that is not in the cart answers 404 and leaves the database
unchanged. -/
theorem updateCartItem_overwrite (user : User) (db : Db) (cart : Cart) (productId : ObjectId)
    (q : ℚ) (hcart : Cart.findOne db.carts user._id = some cart)
    (hwf : wellFormedCart cart) (hq : 0 ≤ q) :
    ((∃ i ∈ cart.items, i.product = productId) → 1 ≤ q →
      (updateCartItem (some user) productId (some q) db).res.status = 200 ∧
      Cart.findOne (updateCartItem (some user) productId (some q) db).db.carts user._id =
        some { cart with
          items := cart.items.map
            (fun i => if i.product = productId then { i with quantity := q } else i) }) ∧
    ((∀ i ∈ cart.items, i.product ≠ productId) →
      (updateCartItem (some user) productId (some q) db).res =
        Response.msg 404 "Product not found in cart." ∧
      (updateCartItem (some user) productId (some q) db).db = db) := by
  obtain ⟨hnodup, hquant⟩ := hwf
  have hu : cart.user = user._id := Cart.findOne_user hcart
  have hsplit : (∃ i ∈ cart.items, i.product = productId) →
      ∃ k pre line post, findItemIndex cart.items productId = some k ∧
        cart.items = pre ++ line :: post ∧ pre.length = k ∧ line.product = productId ∧
        (∀ i ∈ pre, i.product ≠ productId) ∧ (∀ i ∈ post, i.product ≠ productId) := by
    intro hin
    cases hk : findItemIndex cart.items productId with
    | none =>
      obtain ⟨i, hi, hip⟩ := hin
      exact absurd hip ((findItemIndex_none_iff _ _).mp hk i hi)
    | some k =>
      obtain ⟨pre, line, post, hitems, hlen, hline, hpre⟩ := findItemIndex_split _ _ k hk
      refine ⟨k, pre, line, post, rfl, hitems, hlen, hline, hpre, ?_⟩
      rw [← hline]
      exact not_mem_post_of_nodup pre post line (by rw [← hitems]; exact hnodup)
  refine ⟨?_, ?_⟩
  · intro hin h1
    obtain ⟨k, pre, line, post, hk, hitems, hlen, hline, hpre, hpost⟩ := hsplit hin
    have hq0 : ¬ q = 0 := by intro h; rw [h] at h1; norm_num at h1
    have hset : setLine cart k q =
        { cart with
          items := cart.items.map
            (fun i => if i.product = productId then { i with quantity := q } else i) } := by
      simp only [setLine, hq0, if_false]
      rw [hitems, map_overwrite_split pre post line productId q hline hpre hpost, ← hlen,
        modify_at]
    have hs : cartSchema (setLine cart k q) = true := by
      rw [hset, cartSchema_iff]
      intro i hi
      obtain ⟨j, hj, rfl⟩ := List.mem_map.mp hi
      split
      · exact h1
      · exact hquant j hj
    rw [updateCartItem_found user productId q db cart k hq hcart hk, if_pos hs, hset]
    exact ⟨rfl, Cart.findOne_replace _ hcart rfl hu⟩
  · intro hno
    have hk : findItemIndex cart.items productId = none := (findItemIndex_none_iff _ _).mpr hno
    rw [updateCartItem_missing user productId q db cart hq hcart hk]
    exact ⟨rfl, rfl⟩

/-- C19: for a caller whose stored cart, if any, is valid for the cart schema, remove
line answers 200 exactly when the cart exists and has a line for the product; then the
stored cart is the previous cart without the lines for that product, the other lines
in their order; otherwise the answer is 404 and the database is unchanged. -/
theorem removeCartItem_iff (user : User) (db : Db) (productId : ObjectId)
    (hvalid : ∀ cart, Cart.findOne db.carts user._id = some cart → cartSchema cart = true) :
    ((removeCartItem (some user) productId db).res.status = 200 ↔
      ∃ cart, Cart.findOne db.carts user._id = some cart ∧
        ∃ i ∈ cart.items, i.product = productId) ∧
    (∀ cart, Cart.findOne db.carts user._id = some cart →
      (∃ i ∈ cart.items, i.product = productId) →
      Cart.findOne (removeCartItem (some user) productId db).db.carts user._id =
        some { cart with items := cart.items.filter (fun i => i.product != productId) }) ∧
    (¬ (removeCartItem (some user) productId db).res.status = 200 →
      (removeCartItem (some user) productId db).res.status = 404 ∧
      (removeCartItem (some user) productId db).db = db) := by
  cases hcart : Cart.findOne db.carts user._id with
  | none =>
    have heq : removeCartItem (some user) productId db =
        { res := Response.msg 404 "Cart not found for this user.", db := db } := by
      simp [removeCartItem, hcart]
    rw [heq]
    refine ⟨⟨fun h => ?_, fun h => ?_⟩, fun cart h => ?_, fun _ => ⟨rfl, rfl⟩⟩
    · simp [Response.msg] at h
    · obtain ⟨cart, h, _⟩ := h; cases h
    · cases h
  | some cart =>
    have hu : cart.user = user._id := Cart.findOne_user hcart
    have hlen : (withoutProduct cart productId).items.length = cart.items.length ↔
        ∀ i ∈ cart.items, i.product ≠ productId := by
      simp [withoutProduct, List.filter_length_eq_length]
    have hs : cartSchema (withoutProduct cart productId) = true := by
      rw [cartSchema_iff]
      intro i hi
      exact (cartSchema_iff cart).mp (hvalid cart hcart) i (List.mem_of_mem_filter hi)
    rw [removeCartItem_found user productId db cart hcart]
    by_cases hno : ∀ i ∈ cart.items, i.product ≠ productId
    · rw [if_pos (hlen.mpr hno)]
      refine ⟨⟨fun h => ?_, fun h => ?_⟩, fun c hc hin => ?_, fun _ => ⟨rfl, rfl⟩⟩
      · simp [Response.msg] at h
      · obtain ⟨c, hc, i, hi, hip⟩ := h
        cases hc
        exact absurd hip (hno i hi)
      · cases hc
        obtain ⟨i, hi, hip⟩ := hin
        exact absurd hip (hno i hi)
    · rw [if_neg (fun h => hno (hlen.mp h)), if_pos hs]
      have hin : ∃ i ∈ cart.items, i.product = productId := by
        by_contra hcon
        apply hno
        intro i hi hip
        exact hcon ⟨i, hi, hip⟩
      refine ⟨⟨fun _ => ⟨cart, rfl, hin⟩, fun _ => rfl⟩, fun c hc _ => ?_,
        fun h => absurd rfl h⟩
      cases hc
      exact Cart.findOne_replace (withoutProduct cart productId) hcart rfl hu

/-- C20 as the code has it: set line quantity, for a caller whose cart has each product
id at most once, and remove line are idempotent: the database after the same request
is made twice in succession is the database after it is made once. -/
theorem cart_set_remove_idempotent (reqUser : Option User) (productId : ObjectId)
    (quantity : Option ℚ) (db : Db)
    (hnodup : ∀ user cart, reqUser = some user → Cart.findOne db.carts user._id = some cart →
      (cart.items.map (fun i => i.product)).Nodup) :
    (updateCartItem reqUser productId quantity
        (updateCartItem reqUser productId quantity db).db).db =
      (updateCartItem reqUser productId quantity db).db ∧
    (removeCartItem reqUser productId (removeCartItem reqUser productId db).db).db =
      (removeCartItem reqUser productId db).db := by
  constructor
  · rcases updateCartItem_cases reqUser productId quantity db with h |
      ⟨user, cart, k, q, hu, hqe, hq, hcart, hk, hs, h⟩
    · rw [h, h]
    · subst hu; subst hqe
      rw [h]
      have hcu : cart.user = user._id := Cart.findOne_user hcart
      obtain ⟨pre, line, post, hitems, hlen, hline, hpre⟩ := findItemIndex_split _ _ k hk
      have hpost : ∀ i ∈ post, i.product ≠ productId := by
        rw [← hline]
        exact not_mem_post_of_nodup pre post line
          (by rw [← hitems]; exact hnodup user cart rfl hcart)
      have hfind : Cart.findOne
          ({ db with carts := Cart.replace (setLine cart k q) db.carts } : Db).carts user._id =
          some (setLine cart k q) := by
        refine Cart.findOne_replace _ hcart ?_ ?_
        · unfold setLine; split <;> rfl
        · unfold setLine; split <;> exact hcu
      by_cases hq0 : q = 0
      · have hitems' : (setLine cart k q).items = pre ++ post := by
          simp only [setLine, hq0, if_true]
          rw [hitems, ← hlen, eraseIdx_at]
        have hk' : findItemIndex (setLine cart k q).items productId = none := by
          rw [findItemIndex_none_iff, hitems']
          intro i hi
          rcases List.mem_append.mp hi with h' | h'
          · exact hpre i h'
          · exact hpost i h'
        rw [updateCartItem_missing user productId q _ (setLine cart k q) hq hfind hk']
      · have hitems' : (setLine cart k q).items = pre ++ { line with quantity := q } :: post := by
          simp only [setLine, hq0, if_false]
          rw [hitems, ← hlen, modify_at]
        have hk' : findItemIndex (setLine cart k q).items productId = some k := by
          rw [hitems', ← hlen]
          exact findItemIndex_at pre post _ productId hline hpre
        have hagain : setLine (setLine cart k q) k q = setLine cart k q := by
          simp only [setLine, hq0, if_false]
          congr 1
          rw [hitems, ← hlen, modify_at, modify_at]
        rw [updateCartItem_found user productId q _ (setLine cart k q) k hq hfind hk', hagain,
          if_pos hs]
        simp only [Cart.replace_twice _ _ _ rfl]
  · rcases removeCartItem_cases reqUser productId db with h |
      ⟨user, cart, hu, hcart, _, hs, h⟩
    · rw [h, h]
    · subst hu
      rw [h]
      have hcu : cart.user = user._id := Cart.findOne_user hcart
      have hfind : Cart.findOne
          ({ db with carts := Cart.replace (withoutProduct cart productId) db.carts } : Db).carts
          user._id = some (withoutProduct cart productId) :=
        Cart.findOne_replace _ hcart rfl hcu
      have hlen : (withoutProduct (withoutProduct cart productId) productId).items.length =
          (withoutProduct cart productId).items.length := by
        simp [withoutProduct, List.filter_filter]
      rw [removeCartItem_found user productId _ (withoutProduct cart productId) hfind,
        if_pos hlen]

/-! ## The later claims at concrete inputs -/

/-- C11 at `reviewedDb`: a second user reviews the lamp, whose stored `numReviews` was
7 and `rating` 0; the stored lamp then has two reviews, `numReviews` 2 and `rating` 9/2. -/
theorem addReview_recomputes_witness :
    ∃ p, Product.findById
        (addReview (some otherUser) 7 { rating := some 5, comment := some "Great" }
          reviewedDb).db.products 7 = some p ∧
      p.reviews.length = 2 ∧ p.numReviews = 2 ∧ p.rating = 9 / 2 := by
  obtain ⟨user, rating, comment, product, p, hu, hr, hc, hfind, hp, hrev, hn, hrat⟩ :=
    addReview_recomputes (some otherUser) 7 { rating := some 5, comment := some "Great" }
      reviewedDb (by decide!)
  cases hu; cases hr; cases hc
  have hprod : product = reviewedLamp := by
    have h : Product.findById reviewedDb.products 7 = some reviewedLamp := by decide!
    rw [h] at hfind
    exact (Option.some.inj hfind).symm
  subst hprod
  have hlen : p.reviews.length = 2 := by rw [hrev]; rfl
  refine ⟨p, hp, hlen, by rw [hn, hlen]; norm_num, ?_⟩
  rw [hrat, hlen, hrev]
  decide!

/-- C12 at `twoUserDb`: two users rate the lamp 4 and 5; both submissions answer 201
and the lamp then has `numReviews` 2 and `rating` 9/2. -/
theorem submitAll_mean_witness :
    submitStatuses 7 twoUserDb
        [{ user := sampleUser, rating := 4, comment := "Bright" },
         { user := otherUser, rating := 5, comment := "Great" }] = [201, 201] ∧
    ∃ p, Product.findById
        (submitAll 7 twoUserDb
          [{ user := sampleUser, rating := 4, comment := "Bright" },
           { user := otherUser, rating := 5, comment := "Great" }]).products 7 = some p ∧
      p.numReviews = 2 ∧ p.rating = 9 / 2 := by
  obtain ⟨hst, p, hp, _, hagg⟩ := submitAll_mean 7 twoUserDb lamp
    [{ user := sampleUser, rating := 4, comment := "Bright" },
     { user := otherUser, rating := 5, comment := "Great" }]
    (by decide!) (by decide!) (by decide!) (by decide!) (by decide!)
  obtain ⟨hn, hr⟩ := hagg (by simp)
  refine ⟨hst, p, hp, by rw [hn]; norm_num, ?_⟩
  rw [hr]
  decide!

/-- C12 refuted at `twoUserDb`: the submission of `sampleUser` with rating 4 and the
comment of one space, which is not the empty string, answers 400 and the lamp keeps no
review; a comment of one no-break space is answered in the same way. -/
theorem blank_comment_rejected :
    (" " : String) ≠ "" ∧
    submitStatuses 7 twoUserDb [{ user := sampleUser, rating := 4, comment := " " }] = [400] ∧
    submitAll 7 twoUserDb [{ user := sampleUser, rating := 4, comment := " " }] = twoUserDb ∧
    addReview (some sampleUser) 7 { rating := some 4, comment := some "\u00a0" } twoUserDb =
      { res := Response.msg 400 "Please provide a valid rating (1-5) and a comment.",
        db := twoUserDb } := by
  decide!

/-- C13 at `reviewedDb`: `sampleUser`, who has reviewed the lamp, submits again; the
answer is 400 and the database is unchanged. -/
theorem duplicate_review_rejected_witness :
    (addReview (some sampleUser) 7 { rating := some 2, comment := some "Dim" }
      reviewedDb).res.status = 400 ∧
    (addReview (some sampleUser) 7 { rating := some 2, comment := some "Dim" }
      reviewedDb).db = reviewedDb :=
  have h := duplicate_review_rejected.1 sampleUser 7 { rating := some 2, comment := some "Dim" }
    reviewedDb reviewedLamp { user := 1, name := "Asha", rating := 4, comment := "Bright" }
    (by decide!) (by decide!) (by decide!)
  ⟨h.1, h.2.1⟩

/-- C14 refuted at `reviewedDb`: the duplicate review of `sampleUser` is answered with
status 400, not 409. -/
theorem duplicate_review_not_409 :
    (addReview (some sampleUser) 7 { rating := some 2, comment := some "Dim" }
      reviewedDb).res.status = 400 ∧
    ¬ (addReview (some sampleUser) 7 { rating := some 2, comment := some "Dim" }
      reviewedDb).res.status = 409 := by
  decide!

/-- The amended C14 at `reviewedDb`: a signup with the registered email of `sampleUser`
(in another letter case) answers 409, the duplicate review answers 400. -/
theorem conflict_statuses_witness :
    (signup sampleEnv sampleCrypto
      { name := some "Asha", email := some "Asha@Example.com", password := some "secret",
        location := none } reviewedDb).res.status = 409 ∧
    (addReview (some sampleUser) 7 { rating := some 2, comment := some "Dim" }
      reviewedDb).res = Response.msg 400 "Product already reviewed by this user." :=
  have h := conflict_statuses sampleEnv sampleCrypto reviewedDb "Asha" "Asha@Example.com"
    "secret" none sampleUser sampleUser 7 2 "Dim" reviewedLamp
    { user := 1, name := "Asha", rating := 4, comment := "Bright" }
    (by decide!) (by decide!) (by decide!) (by decide!) (by decide!) (by decide!)
  ⟨h.1, h.2.2.1⟩

/-- Merge semantics at `twoUserDb` for the id as `toString()` prints it: `sampleUser`,
who has no cart, adds 3 lamps and then 2 lamps; the cart then has the single line of 5
lamps. -/
theorem addToCart_merge_canonical_example :
    cartItemsOf
        (addToCart sampleEnv (some sampleUser)
          { productId := some (IdString.ofId 7), quantity := some 2 }
          (addToCart sampleEnv (some sampleUser)
            { productId := some (IdString.ofId 7), quantity := some 3 }
            twoUserDb).db).db.carts 1 =
      [{ product := 7, quantity := 5 }] := by
  have h := (addToCart_merge_canonical sampleEnv sampleEnv sampleUser twoUserDb 7 3 2
    (by decide!) (by decide!) (by decide!) (by decide!) (by decide!)).2.2.2
  exact h.trans (by decide!)

/-- Well-formedness at `twoUserDb` for ids as `toString()` prints them: after adding
lamps and mugs, setting the lamp and removing it, the stored cart is well formed. -/
theorem runRequests_wellFormed_example :
    wellFormedCart { _id := 100, user := 1, items := [{ product := 8, quantity := 2 }] } :=
  runRequests_wellFormed
    [(sampleEnv, .addToCart (some sampleUser)
        { productId := some (IdString.ofId 7), quantity := some 3 }),
     (sampleEnv, .addToCart (some sampleUser)
        { productId := some (IdString.ofId 8), quantity := some 2 }),
     (sampleEnv, .updateCartItem (some sampleUser) 7 (some 4)),
     (sampleEnv, .removeCartItem (some sampleUser) 7)]
    twoUserDb (by decide!) (by decide!)
    { _id := 100, user := 1, items := [{ product := 8, quantity := 2 }] } (by decide!)

/-- C17 at `sampleDb`: setting the lamp to 0 leaves the cart with the mug line only. -/
theorem updateCartItem_zero_witness :
    Cart.findOne (updateCartItem (some sampleUser) 7 (some 0) sampleDb).db.carts 1 =
      some { _id := 20, user := 1, items := [{ product := 8, quantity := 1 }] } := by
  have h := (updateCartItem_zero sampleUser sampleDb sampleCart 7 (by decide!) (by decide!)
    (by decide!)).2.1
  exact h.trans (by decide!)

/-- C18 refuted at `sampleDb`: setting the quantity 1/2 on the lamp, which is in the
cart, answers 500 and leaves the lamp line at quantity 3. -/
theorem updateCartItem_half_rejected :
    (updateCartItem (some sampleUser) 7 (some (1 / 2)) sampleDb).res.status = 500 ∧
    cartItemsOf (updateCartItem (some sampleUser) 7 (some (1 / 2)) sampleDb).db.carts 1 =
      [{ product := 7, quantity := 3 }, { product := 8, quantity := 1 }] := by
  decide!

/-- The amended C18 at `sampleDb`: setting the lamp to 5 overwrites the quantity 3. -/
theorem updateCartItem_overwrite_witness :
    Cart.findOne (updateCartItem (some sampleUser) 7 (some 5) sampleDb).db.carts 1 =
      some { _id := 20, user := 1,
             items := [{ product := 7, quantity := 5 }, { product := 8, quantity := 1 }] } := by
  have h := ((updateCartItem_overwrite sampleUser sampleDb sampleCart 7 5 (by decide!)
    (by decide!) (by decide!)).1 (by decide!) (by decide!)).2
  exact h.trans (by decide!)

/-- C19 at `sampleDb`: removing the lamp answers 200 because the cart has a lamp
line. -/
theorem removeCartItem_iff_witness :
    (removeCartItem (some sampleUser) 7 sampleDb).res.status = 200 :=
  (removeCartItem_iff sampleUser sampleDb 7 (by decide!)).1.mpr (by decide!)

/-- C20 refuted at `sampleDb`: adding one lamp twice leaves 5 lamps in the cart, adding
it once leaves 4. -/
theorem addToCart_not_idempotent :
    cartItemsOf
        (addToCart sampleEnv (some sampleUser) { productId := some (IdString.ofId 7), quantity := some 1 }
          (addToCart sampleEnv (some sampleUser) { productId := some (IdString.ofId 7), quantity := some 1 }
            sampleDb).db).db.carts 1 =
      [{ product := 7, quantity := 5 }, { product := 8, quantity := 1 }] ∧
    cartItemsOf
        (addToCart sampleEnv (some sampleUser) { productId := some (IdString.ofId 7), quantity := some 1 }
          sampleDb).db.carts 1 =
      [{ product := 7, quantity := 4 }, { product := 8, quantity := 1 }] ∧
    (addToCart sampleEnv (some sampleUser) { productId := some (IdString.ofId 7), quantity := some 1 }
        (addToCart sampleEnv (some sampleUser) { productId := some (IdString.ofId 7), quantity := some 1 }
          sampleDb).db).db ≠
      (addToCart sampleEnv (some sampleUser) { productId := some (IdString.ofId 7), quantity := some 1 }
        sampleDb).db := by
  decide!

/-- The amended C20 at `sampleDb`: setting the lamp to 0 twice is setting it once. -/
theorem cart_set_remove_idempotent_witness :
    (updateCartItem (some sampleUser) 7 (some 0)
        (updateCartItem (some sampleUser) 7 (some 0) sampleDb).db).db =
      (updateCartItem (some sampleUser) 7 (some 0) sampleDb).db :=
  (cart_set_remove_idempotent (some sampleUser) 7 (some 0) sampleDb (by
    intro user cart hu hcart
    cases hu
    have h : Cart.findOne sampleDb.carts sampleUser._id = some sampleCart := by decide!
    rw [h] at hcart
    cases hcart
    decide!)).1

/-! ## Lemmas on order statuses -/

theorem Order.replace_split (coll : List Order) (id : ObjectId) (order : Order)
    (h : Order.findById coll id = some order) :
    ∃ pre post, coll = pre ++ order :: post ∧
      ∀ o, o._id = order._id → Order.replace o coll = pre ++ o :: post := by
  induction coll with
  | nil => simp [Order.findById] at h
  | cons d ds ih =>
    have hoid : order._id = id := by
      have := List.find?_some (show List.find? (fun o => o._id == id) (d :: ds) = some order
        from h)
      simpa using this
    by_cases hd : d._id = id
    · have hdo : d = order := by simpa [Order.findById, hd] using h
      subst hdo
      exact ⟨[], ds, rfl, fun o ho => by simp [Order.replace, ho]⟩
    · have h' : Order.findById ds id = some order := by
        simpa [Order.findById, hd] using h
      obtain ⟨pre, post, hds, hrep⟩ := ih h'
      refine ⟨d :: pre, post, by rw [hds]; rfl, ?_⟩
      intro o ho
      have hdo : ¬ d._id = o._id := by rw [ho, hoid]; exact hd
      simp [Order.replace, hdo, hrep o ho]

theorem orderSchema_status {order : Order} (h : orderSchema order = true) {s : String}
    (hs : s ∈ statusEnum) : orderSchema { order with status := s } = true := by
  simp only [orderSchema, Bool.and_eq_true, decide_eq_true_eq] at h ⊢
  exact ⟨h.1, hs⟩

theorem statusAllowed_of_schema {order : Order} (h : orderSchema order = true) :
    statusAllowed order := by
  simp only [orderSchema, Bool.and_eq_true, decide_eq_true_eq] at h
  exact h.2

theorem updateOrderStatus_ok (orderId : ObjectId) (s : String) (db : Db) (order : Order)
    (hfind : Order.findById db.orders orderId = some order)
    (hvalid : orderSchema order = true) (hs : s ∈ allowedStatuses) :
    updateOrderStatus orderId (some s) db =
      { res := { status := 200,
                 message := "Order status updated to \"" ++ s ++ "\" successfully!",
                 order := some { order with status := s }, cart := none, product := none },
        db := { db with orders := Order.replace { order with status := s } db.orders } } := by
  have hne : ¬ s = "" := by
    intro h
    rw [h] at hs
    revert hs
    decide
  have hschema : orderSchema { order with status := s } = true := orderSchema_status hvalid hs
  simp [updateOrderStatus, hne, hs, hfind, Order.save, hschema]

theorem updateOrderStatus_rejected (orderId : ObjectId) (status : Option String) (db : Db)
    (h : status = none ∨ ∃ s, status = some s ∧ ¬ s ∈ allowedStatuses) :
    (updateOrderStatus orderId status db).res.status = 400 ∧
    (updateOrderStatus orderId status db).db = db := by
  rcases h with h | ⟨s, h, hs⟩
  · subst h
    exact ⟨rfl, rfl⟩
  · subst h
    by_cases hne : s = ""
    · simp [updateOrderStatus, hne, Response.msg]
    · simp [updateOrderStatus, hne, hs, Response.msg]

theorem updateOrderStatus_status (orderId : ObjectId) (status : Option String) (db : Db) :
    ∀ o ∈ (updateOrderStatus orderId status db).db.orders, o ∈ db.orders ∨ statusAllowed o := by
  intro o ho
  unfold updateOrderStatus at ho
  cases status with
  | none => exact Or.inl ho
  | some s =>
    dsimp only at ho
    split at ho
    · exact Or.inl ho
    · split at ho
      · exact Or.inl ho
      · cases hfind : Order.findById db.orders orderId with
        | none => rw [hfind] at ho; exact Or.inl ho
        | some order =>
          rw [hfind] at ho
          dsimp only at ho
          by_cases hv : orderSchema { order with status := s } = true
          · simp only [Order.save, hv, if_true] at ho
            rcases Order.mem_of_mem_replace ho with h | h
            · right; rw [h]; exact statusAllowed_of_schema hv
            · exact Or.inl h
          · simp only [Order.save, hv] at ho
            exact Or.inl ho

theorem placeOrder_status (env : Env) (body : OrderBody) (db : Db) :
    ∀ o ∈ (placeOrder env body db).db.orders, o ∈ db.orders ∨ statusAllowed o := by
  intro o ho
  unfold placeOrder at ho
  split at ho
  · rename_i userId products address hu hp ha
    split at ho
    · exact Or.inl ho
    · split at ho
      · exact Or.inl ho
      · cases hl : placeLoop products db.products 0 [] with
        | returned res c => rw [hl] at ho; exact Or.inl ho
        | threw e c => rw [hl] at ho; exact Or.inl ho
        | done c t a =>
          rw [hl] at ho
          dsimp only at ho
          by_cases hv : orderSchema (placedOrder env userId address t a) = true
          · simp only [Order.insert, hv, if_true] at ho
            rcases List.mem_append.mp ho with h | h
            · exact Or.inl h
            · right
              rw [List.mem_singleton.mp h]
              exact statusAllowed_of_schema hv
          · simp only [Order.insert, hv] at ho
            exact Or.inl ho
  · exact Or.inl ho

theorem handle_statusAllowed (env : Env) (db : Db) (req : Request)
    (hinv : ∀ o ∈ db.orders, statusAllowed o) :
    ∀ o ∈ (handle env db req).db.orders, statusAllowed o := by
  intro o ho
  cases req with
  | createProduct body => exact hinv o (by rwa [handle, createProduct_orders] at ho)
  | updateProduct id body => exact hinv o (by rwa [handle, updateProduct_orders] at ho)
  | deleteProduct id => exact hinv o (by rwa [handle, deleteProduct_orders] at ho)
  | addReview reqUser id body => exact hinv o (by rwa [handle, addReview_orders] at ho)
  | addToCart reqUser body => exact hinv o (by rwa [handle, addToCart_orders] at ho)
  | updateCartItem reqUser productId quantity =>
    exact hinv o (by rwa [handle, updateCartItem_orders] at ho)
  | removeCartItem reqUser productId =>
    exact hinv o (by rwa [handle, removeCartItem_orders] at ho)
  | checkout reqUser =>
    simp only [handle] at ho
    rcases checkout_cases env reqUser db with ⟨user, cart, _, _, _, _, heq⟩ | ⟨_, _, hdb⟩
    · rw [heq] at ho
      rcases List.mem_append.mp ho with h | h
      · exact hinv o h
      · rw [List.mem_singleton.mp h]
        simp [statusAllowed, checkoutResultOrder, checkoutOrder, statusEnum]
    · rw [hdb] at ho; exact hinv o ho
  | placeOrder body =>
    simp only [handle] at ho
    rcases placeOrder_status env body db o ho with h | h
    · exact hinv o h
    · exact h
  | updateOrderStatus orderId status =>
    simp only [handle] at ho
    rcases updateOrderStatus_status orderId status db o ho with h | h
    · exact hinv o h
    · exact h

theorem runRequests_statusAllowed (reqs : List (Env × Request)) :
    ∀ db : Db, (∀ o ∈ db.orders, statusAllowed o) →
      ∀ o ∈ (runRequests db reqs).orders, statusAllowed o := by
  induction reqs with
  | nil => intro db h; simpa [runRequests] using h
  | cons r rest ih =>
    intro db h
    obtain ⟨env, req⟩ := r
    simp only [runRequests]
    exact ih _ (handle_statusAllowed env db req h)

/-! ## Lemmas on protect and on stock -/

theorem protect_outcomes (verify : String → Option ObjectId) (authorization : Option String)
    (users : List User) :
    ((protect verify authorization users).responses = [] ∧
      ∃ u, (protect verify authorization users).next = [u]) ∨
    ((protect verify authorization users).next = [] ∧
      (protect verify authorization users).responses ≠ [] ∧
      ∀ r ∈ (protect verify authorization users).responses, r.status = 401) := by
  unfold protect
  cases authorization with
  | none => right; simp [noTokenResponse, Response.msg]
  | some header =>
    dsimp only
    split
    · right; simp [noTokenResponse, Response.msg]
    · cases ht : bearerToken header with
      | none =>
        right
        simp [verifyToken, tokenMissing, noTokenResponse, tokenFailedResponse, Response.msg]
      | some t =>
        by_cases he : t = ""
        · right
          simp [verifyToken, tokenMissing, he, noTokenResponse, tokenFailedResponse,
            Response.msg]
        · cases hv : verify t with
          | none =>
            right
            simp [verifyToken, tokenMissing, he, hv, tokenFailedResponse, Response.msg]
          | some id =>
            left
            simp [verifyToken, tokenMissing, he, hv]

theorem placeLoop_stock_le (lines : List OrderItem) (hq : ∀ l ∈ lines, 0 ≤ l.quantity) :
    ∀ (cat : List Product) (t : ℚ) (acc : List OrderLine) (id : ObjectId) (p' : Product),
      Product.findById (placeLoop lines cat t acc).products id = some p' →
      ∃ p, Product.findById cat id = some p ∧ p'.stockQuantity ≤ p.stockQuantity := by
  induction lines with
  | nil =>
    intro cat t acc id p' h
    exact ⟨p', by simpa [placeLoop, PlaceLoop.products] using h, le_refl _⟩
  | cons item rest ih =>
    intro cat t acc id p' h
    have hq' : ∀ l ∈ rest, 0 ≤ l.quantity := fun l hl => hq l (List.mem_cons_of_mem _ hl)
    have hqi : 0 ≤ item.quantity := hq item (List.mem_cons_self _ _)
    simp only [placeLoop] at h
    cases hf : Product.findById cat item.productId with
    | none => exact ⟨p', by simpa [hf, PlaceLoop.products] using h, le_refl _⟩
    | some product =>
      simp only [hf] at h
      by_cases hlt : product.stockQuantity < item.quantity
      · exact ⟨p', by simpa [hlt, PlaceLoop.products] using h, le_refl _⟩
      · simp only [hlt, if_false] at h
        cases hs : Product.save
            { product with stockQuantity := product.stockQuantity - item.quantity } cat with
        | error e => exact ⟨p', by simpa [hs, PlaceLoop.products] using h, le_refl _⟩
        | ok products' =>
          simp only [hs] at h
          obtain ⟨p1, hp1, hle⟩ := ih hq' _ _ _ id p' h
          have hrep : products' = Product.replace
              { product with stockQuantity := product.stockQuantity - item.quantity } cat := by
            unfold Product.save at hs
            split at hs
            · exact (Except.ok.inj hs).symm
            · cases hs
          have hpid : product._id = item.productId := Product.findById_id hf
          rw [hrep, Product.findById_replace cat _ product (by simpa [hpid] using hf) id] at hp1
          by_cases hid : id = product._id
          · simp only [hid, if_true] at hp1
            refine ⟨product, by rw [hid, hpid]; exact hf, ?_⟩
            have : p1.stockQuantity = product.stockQuantity - item.quantity := by
              rw [← Option.some.inj hp1]
            linarith
          · simp only [hid, if_false] at hp1
            exact ⟨p1, hp1, hle⟩

theorem placeOrder_stock_le (env : Env) (body : OrderBody) (db : Db)
    (hq : ∀ lines, body.products = some lines → ∀ l ∈ lines, 0 ≤ l.quantity)
    (id : ObjectId) (p' : Product)
    (h : Product.findById (placeOrder env body db).db.products id = some p') :
    ∃ p, Product.findById db.products id = some p ∧ p'.stockQuantity ≤ p.stockQuantity := by
  rcases placeOrder_products env body db with heq | ⟨lines, t, acc, hlines, heq⟩
  · rw [heq] at h
    exact ⟨p', h, le_refl _⟩
  · rw [heq] at h
    exact placeLoop_stock_le lines (hq lines hlines) db.products t acc id p' h

/-! ## Claims on login, order status, protect and stock -/

/-- C21 as the code has it: a login with a registered email and a wrong password and a
login with an unregistered email are both answered with status 401 and leave the
database unchanged, and their messages differ: the first names the incorrect password,
the second the user that was not found. -/
theorem login_failures (crypto : Crypto) (db : Db) (email1 password1 email2 password2 : String)
    (user : User)
    (h1 : email1 ≠ "" ∧ password1 ≠ "") (h2 : email2 ≠ "" ∧ password2 ≠ "")
    (hregistered : User.findOne db.users email1 = some user)
    (hwrong : crypto.compare password1 user.password = false)
    (hunregistered : User.findOne db.users email2 = none) :
    (login crypto { email := some email1, password := some password1 } db).res =
      AuthResponse.msg 401 "Invalid credentials: Incorrect password." ∧
    (login crypto { email := some email2, password := some password2 } db).res =
      AuthResponse.msg 401 "Invalid credentials: User not found." ∧
    (login crypto { email := some email1, password := some password1 } db).res.status =
      (login crypto { email := some email2, password := some password2 } db).res.status ∧
    (login crypto { email := some email1, password := some password1 } db).res.message ≠
      (login crypto { email := some email2, password := some password2 } db).res.message ∧
    (login crypto { email := some email1, password := some password1 } db).db = db ∧
    (login crypto { email := some email2, password := some password2 } db).db = db := by
  have e1 : login crypto { email := some email1, password := some password1 } db =
      { res := AuthResponse.msg 401 "Invalid credentials: Incorrect password.", db := db } := by
    simp [login, h1.1, h1.2, hregistered, hwrong]
  have e2 : login crypto { email := some email2, password := some password2 } db =
      { res := AuthResponse.msg 401 "Invalid credentials: User not found.", db := db } := by
    simp [login, h2.1, h2.2, hunregistered]
  rw [e1, e2]
  have hne : ("Invalid credentials: Incorrect password." : String) ≠
      "Invalid credentials: User not found." := by decide
  exact ⟨rfl, rfl, rfl, hne, rfl, rfl⟩

/-- C22: a status update with one of the five statuses on an existing order that is
valid for the order schema answers 200 and replaces that order, in its place, by the
same order with the new status, every other order and collection staying as it was; a
missing status or any other value answers 400 and leaves the database unchanged; and
every write request, hence every sequence of them, keeps the status of every stored
order among the five values. -/
theorem order_status_update :
    (∀ (orderId : ObjectId) (s : String) (db : Db) (order : Order),
      Order.findById db.orders orderId = some order → orderSchema order = true →
      s ∈ ["Pending", "Processing", "Shipped", "Delivered", "Cancelled"] →
        (updateOrderStatus orderId (some s) db).res.status = 200 ∧
        ∃ pre post, db.orders = pre ++ order :: post ∧
          (updateOrderStatus orderId (some s) db).db =
            { db with orders := pre ++ { order with status := s } :: post }) ∧
    (∀ (orderId : ObjectId) (status : Option String) (db : Db),
      (status = none ∨ ∃ s, status = some s ∧
        ¬ s ∈ ["Pending", "Processing", "Shipped", "Delivered", "Cancelled"]) →
        (updateOrderStatus orderId status db).res.status = 400 ∧
        (updateOrderStatus orderId status db).db = db) ∧
    (∀ (db : Db) (reqs : List (Env × Request)),
      (∀ o ∈ db.orders, statusAllowed o) →
        ∀ o ∈ (runRequests db reqs).orders, statusAllowed o) := by
  refine ⟨?_, ?_, fun db reqs => runRequests_statusAllowed reqs db⟩
  · intro orderId s db order hfind hvalid hs
    obtain ⟨pre, post, hsplit, hrep⟩ := Order.replace_split db.orders orderId order hfind
    rw [updateOrderStatus_ok orderId s db order hfind hvalid hs]
    refine ⟨rfl, pre, post, hsplit, ?_⟩
    rw [hrep { order with status := s } rfl]
  · intro orderId status db h
    exact updateOrderStatus_rejected orderId status db h

/-- C23 at two requests: a token that verifies for the id 9, for which no user is
stored, makes `protect` call `next()` with `req.user` equal to `null` and send nothing;
the header `Bearer` without a token makes it call `res.status(401).json` twice. -/
theorem protect_failures :
    protect sampleVerify (some "Bearer good-9") twoUserDb.users =
      { responses := [], next := [none] } ∧
    protect sampleVerify (some "Bearer") twoUserDb.users =
      { responses := [Response.msg 401 "Not authorized, token failed.",
                      Response.msg 401 "Not authorized, no token."],
        next := [] } := by
  decide!

/-- C24 at a negative quantity: an order placement for -5 mugs, of which 3 are in
stock, answers 400, stores no order and leaves 8 mugs in stock. -/
theorem placeOrder_raises_stock :
    (placeOrder sampleEnv (orderBody 1 [{ productId := 8, quantity := -5 }] sampleAddress)
      sampleDb).res.status = 400 ∧
    (placeOrder sampleEnv (orderBody 1 [{ productId := 8, quantity := -5 }] sampleAddress)
      sampleDb).db.orders = [] ∧
    Product.findById sampleDb.products 8 = some mug ∧
    mug.stockQuantity = 3 ∧
    Product.findById
      (placeOrder sampleEnv (orderBody 1 [{ productId := 8, quantity := -5 }] sampleAddress)
        sampleDb).db.products 8 = some { mug with stockQuantity := 8 } := by
  decide!

/-! ## The last claims at concrete inputs -/

/-- C21 refuted at `reviewedDb`: the wrong password of a registered user and an
unregistered email are answered with different messages. -/
theorem login_messages_differ :
    (login sampleCrypto { email := some "asha@example.com", password := some "wrong" }
      reviewedDb).res.message = "Invalid credentials: Incorrect password." ∧
    (login sampleCrypto { email := some "nobody@example.com", password := some "wrong" }
      reviewedDb).res.message = "Invalid credentials: User not found." ∧
    (login sampleCrypto { email := some "asha@example.com", password := some "wrong" }
      reviewedDb).res.message ≠
    (login sampleCrypto { email := some "nobody@example.com", password := some "wrong" }
      reviewedDb).res.message := by
  decide!

/-- The amended C21 at `reviewedDb`: both failures have status 401. -/
theorem login_failures_witness :
    (login sampleCrypto { email := some "asha@example.com", password := some "wrong" }
      reviewedDb).res.status = 401 ∧
    (login sampleCrypto { email := some "nobody@example.com", password := some "wrong" }
      reviewedDb).res.status = 401 :=
  have h := login_failures sampleCrypto reviewedDb "asha@example.com" "wrong"
    "nobody@example.com" "wrong" sampleUser (by decide!) (by decide!) (by decide!) (by decide!)
    (by decide!)
  ⟨by rw [h.1]; rfl, by rw [h.2.1]; rfl⟩

/-- C22 at `orderedDb`: the first order becomes Shipped, the second order stays. -/
theorem order_status_update_witness :
    (updateOrderStatus 50 (some "Shipped") orderedDb).res.status = 200 ∧
    (updateOrderStatus 50 (some "Shipped") orderedDb).db.orders =
      [{ sampleOrder with status := "Shipped" }, otherOrder] := by
  obtain ⟨hs, _, _, _, _⟩ := order_status_update.1 50 "Shipped" orderedDb sampleOrder
    (by decide!) (by decide!) (by decide!)
  exact ⟨hs, by decide!⟩
end Vendorconex
